import Mathlib

/-!
# Verification development for the voxel engine

Shallow embedding of

* `frontend::WorldRenderer` (src/modules/frontend/WorldRenderer.h): mesh cache, distance
  culling, eviction and the frame-driven entry point `extractNewMeshes`;
* `voxelformat::loadVolumeFormat` / `saveVolumeFormat` / `clearVolumes`
  (src/modules/voxelformat/Loader.cpp);
* `video::GBuffer` (src/modules/video/GBuffer.cpp);
* `TestCamera::onInit` (src/tests/testcamera/TestCamera.cpp);
* the statement builders of src/modules/persistence/SQLGenerator.cpp;
* `voxedit::saveCharacterLua` (src/tools/voxedit/voxedit-util/anim/AnimationLuaSaver.cpp);
* `core::fileCompleter` and `util::handleIncludes`, of which only the unit tests
  (CommandCompleterTest.cpp, IncludeUtilTest.cpp) are part of the sources.

Only the header of `WorldRenderer` is part of the sources: its data members and their in-class
initialisers are taken from the header, the bodies of its member functions follow the written
specification and are marked as such. The same holds for `fileCompleter` and `handleIncludes`,
whose models are checked against the expectations of their tests.
-/

namespace frontend

/-- Integer vector `glm::ivec3`. -/
structure IVec3 where
  x : Int
  y : Int
  z : Int
deriving DecidableEq, Repr

/-- Float vector `glm::vec3`; the components are kept as exact rationals. -/
structure Vec3 where
  x : ℚ
  y : ℚ
  z : ℚ
deriving DecidableEq

/-- Value of `std::numeric_limits<int32_t>::min()`. -/
def INT32_MIN : Int := -2147483648

/-- Modelled from the spec: `video::GLMeshData` (video/GLMeshData.h is not among the sources).
A chunk mesh is identified by its integer grid position and owns GPU buffer handles and a
vertex count; its category is the list of the renderer that holds it. -/
structure GLMeshData where
  translation : IVec3
  handles : List Nat
  noOfVertices : Nat
deriving DecidableEq, Repr

/-- Modelled from the spec: the voxel volume collaborator `voxel::World` (voxel/World.h is not
among the sources). It maps a world position to the grid cell containing it and tells whether
voxel data is available for a cell. -/
structure World where
  getMeshPos : Vec3 → IVec3
  hasData : IVec3 → Bool

/-- Data members of `frontend::WorldRenderer` that take part in mesh streaming
(WorldRenderer.h, lines 44-47, 52-54 and 66). The two `float` thresholds are kept as exact
rationals. `pending` is the list of grid positions with an extraction in flight (held by the
world in the program) and `released` records the GPU handles that were given back; both make
the effects of scheduling and deleting visible in the state. -/
structure WorldRenderer where
  _meshDataOpaque : List GLMeshData
  _meshDataWater : List GLMeshData
  _meshDataPlant : List GLMeshData
  _fogRange : ℚ
  _viewDistance : ℚ
  _lastGridPosition : IVec3
  pending : List IVec3
  released : List Nat
deriving DecidableEq

/-- The in-class initialisers of WorldRenderer.h: `_fogRange = 250.0f`, `_viewDistance = 0.1f`,
`_lastGridPosition` all `INT32_MIN`, empty mesh lists. -/
def WorldRenderer.construct : WorldRenderer where
  _meshDataOpaque := []
  _meshDataWater := []
  _meshDataPlant := []
  _fogRange := 250
  _viewDistance := 1 / 10
  _lastGridPosition := ⟨INT32_MIN, INT32_MIN, INT32_MIN⟩
  pending := []
  released := []

/-- Modelled from the spec: body of `WorldRenderer::isDistanceCulled` (WorldRenderer.cpp is not
among the sources). The squared distance is compared against the squared threshold that matches
the query: the fog/draw cutoff `_fogRange` when asked for rendering, the view/cache-retention
distance `_viewDistance` when asked whether to create or destroy the mesh. -/
def isDistanceCulled (r : WorldRenderer) (distance2 : Int) (queryForRendering : Bool) : Bool :=
  if queryForRendering then
    decide (r._fogRange * r._fogRange < (distance2 : ℚ))
  else
    decide (r._viewDistance * r._viewDistance < (distance2 : ℚ))

/-- Modelled from the spec: body of `WorldRenderer::getDistance2` (WorldRenderer.cpp is not
among the sources). Squared distance of a grid position from the camera grid cell
`_lastGridPosition`; as the header notes for that member, only x and z are taken into account. -/
def getDistance2 (r : WorldRenderer) (pos : IVec3) : Int :=
  (pos.x - r._lastGridPosition.x) * (pos.x - r._lastGridPosition.x)
    + (pos.z - r._lastGridPosition.z) * (pos.z - r._lastGridPosition.z)

/-- One pass over a `std::list<GLMeshData>` that erases every element at `pos` and collects the
GPU handles of the erased elements. -/
def eraseMeshesAt (pos : IVec3) : List GLMeshData → List GLMeshData × List Nat
  | [] => ([], [])
  | m :: ms =>
    let rest := eraseMeshesAt pos ms
    if m.translation = pos then (rest.1, m.handles ++ rest.2) else (m :: rest.1, rest.2)

/-- Modelled from the spec: body of `WorldRenderer::deleteMesh` (WorldRenderer.cpp is not among
the sources). Removes the entries at `pos` from the three category lists and releases their GPU
resources. -/
def deleteMesh (r : WorldRenderer) (pos : IVec3) : WorldRenderer :=
  let o := eraseMeshesAt pos r._meshDataOpaque
  let w := eraseMeshesAt pos r._meshDataWater
  let p := eraseMeshesAt pos r._meshDataPlant
  { r with
    _meshDataOpaque := o.1
    _meshDataWater := w.1
    _meshDataPlant := p.1
    released := r.released ++ (o.2 ++ (w.2 ++ p.2)) }

/-- Positions of all cached meshes, category by category. -/
def cachedPositions (r : WorldRenderer) : List IVec3 :=
  (r._meshDataOpaque ++ (r._meshDataWater ++ r._meshDataPlant)).map GLMeshData.translation

/-- Whether one of the three lists holds a mesh at `pos`. -/
def hasMeshAt (r : WorldRenderer) (pos : IVec3) : Bool :=
  (cachedPositions r).contains pos

/-- The offsets `-radius, ..., radius`. -/
def offsets (radius : Nat) : List Int :=
  (List.range (2 * radius + 1)).map (fun i => (i : Int) - (radius : Int))

/-- Grid cells in the x/z plane within Chebyshev distance `radius` of `gridPos`. -/
def cellsAround (gridPos : IVec3) (radius : Nat) : List IVec3 :=
  (offsets radius).flatMap (fun dx =>
    (offsets radius).map (fun dz => ⟨gridPos.x + dx, gridPos.y, gridPos.z + dz⟩))

/-- Modelled from the spec: body of `WorldRenderer::extractMeshAroundCamera` (WorldRenderer.cpp
is not among the sources). Every cell within `radius` of `gridPos` that has voxel data, is not
cached and has no extraction in flight gets one pending extraction. -/
def extractMeshAroundCamera (w : World) (r : WorldRenderer) (gridPos : IVec3) (radius : Nat) :
    WorldRenderer :=
  (cellsAround gridPos radius).foldl
    (fun s c =>
      if w.hasData c && !hasMeshAt s c && !s.pending.contains c then
        { s with pending := s.pending ++ [c] }
      else s)
    r

/-- Modelled from the spec: the eviction pass that runs when the camera grid cell changes
(WorldRenderer.cpp is not among the sources). Every cached position whose squared distance from
the camera grid cell is culled for retention is removed through `deleteMesh`. -/
def evictDistantMeshes (r : WorldRenderer) : WorldRenderer :=
  (cachedPositions r).foldl
    (fun s p => if isDistanceCulled s (getDistance2 s p) false then deleteMesh s p else s)
    r

/-- The meshes of the three category lists together. -/
def allMeshes (r : WorldRenderer) : List GLMeshData :=
  r._meshDataOpaque ++ (r._meshDataWater ++ r._meshDataPlant)

/-- Two renderer states with the same thresholds and the same camera grid cell. -/
def SameView (s r : WorldRenderer) : Prop :=
  s._fogRange = r._fogRange ∧ s._viewDistance = r._viewDistance
    ∧ s._lastGridPosition = r._lastGridPosition

/-- Modelled from the spec: body of `WorldRenderer::extractNewMeshes` (WorldRenderer.cpp is not
among the sources). When `force` is false and the grid cell of `position` is the last processed
one the call returns at once; otherwise the cell becomes `_lastGridPosition`, extraction is
scheduled around it (radius 1, the default argument of `extractMeshAroundCamera` in the header)
and eviction runs. The result tells whether a scheduling pass took place. -/
def extractNewMeshes (w : World) (r : WorldRenderer) (position : Vec3) (force : Bool) :
    Bool × WorldRenderer :=
  let gridPos := w.getMeshPos position
  if !force && decide (gridPos = r._lastGridPosition) then
    (false, r)
  else
    let r1 := { r with _lastGridPosition := gridPos }
    let r2 := extractMeshAroundCamera w r1 gridPos 1
    (true, evictDistantMeshes r2)

/-- A world with unit cells: the grid cell of a position is its componentwise floor; voxel data
is available everywhere. -/
def unitWorld : World where
  getMeshPos := fun v => ⟨v.x.floor, v.y.floor, v.z.floor⟩
  hasData := fun _ => true

/-- A mesh at grid position `(x, 0, 0)` owning the single GPU handle `h`. -/
def meshAtX (x : Int) (h : Nat) : GLMeshData :=
  { translation := ⟨x, 0, 0⟩, handles := [h], noOfVertices := 36 }

/-- The scenario of the specification: camera grid cell `(0,0,0)`, retention radius 2, and
meshes cached along the x axis. -/
def scenarioRenderer : WorldRenderer where
  _meshDataOpaque := [meshAtX 0 10, meshAtX 3 11, meshAtX 4 12, meshAtX 8 13]
  _meshDataWater := [meshAtX 1 20, meshAtX 7 21]
  _meshDataPlant := [meshAtX 2 30, meshAtX 5 31, meshAtX 8 32]
  _fogRange := 250
  _viewDistance := 2
  _lastGridPosition := ⟨0, 0, 0⟩
  pending := []
  released := []

/-- A camera position inside grid cell `(5,0,0)`. -/
def scenarioPosition : Vec3 := ⟨11 / 2, 0, 1 / 4⟩

end frontend

namespace voxelformat

/-- The constant `SUPPORTED_VOXEL_FORMATS_LOAD` (Loader.cpp, line 19). -/
def SUPPORTED_VOXEL_FORMATS_LOAD : String := "vox,qbt,qb,vxm,binvox,cub,kvx,kv6,vxl"

/-- The constant `SUPPORTED_VOXEL_FORMATS_SAVE` (Loader.cpp, line 21). -/
def SUPPORTED_VOXEL_FORMATS_SAVE : String := "vox,qbt,qb,binvox,cub,vxl"

/-- Fields of a comma-separated character sequence. -/
def csvFields : List Char → List (List Char)
  | [] => [[]]
  | c :: cs =>
    match csvFields cs with
    | [] => if c = ',' then [[], []] else [[c]]
    | f :: fs => if c = ',' then [] :: f :: fs else (c :: f) :: fs

/-- The comma-separated entries of a format list such as `SUPPORTED_VOXEL_FORMATS_LOAD`. -/
def csvEntries (s : String) : List String :=
  (csvFields s.data).map String.mk

/-- The format classes instantiated by Loader.cpp (`voxel::QBTFormat`, `voxel::VoxFormat`, ...). -/
inductive Format
  | QBT | Vox | QB | KVX | KV6 | Cub | VXM | VXL | BinVox
deriving DecidableEq, Repr

/-- What Loader.cpp uses of `io::FilePtr`: `exists()`, `name()` and `extension()`. -/
structure File where
  fileExists : Bool
  name : String
  extension : String
deriving DecidableEq, Repr

/-- One element of `voxel::VoxelVolumes`; `volume` is the owning raw pointer that
`clearVolumes` hands to `delete`. -/
structure VoxelVolume where
  volume : Nat
deriving DecidableEq, Repr

/-- The container `voxel::VoxelVolumes` with its member `volumes`. -/
structure VoxelVolumes where
  volumes : List VoxelVolume
deriving DecidableEq, Repr

/-- The member functions of the format classes, which live outside Loader.cpp:
`loadGroups(filePtr, newVolumes)` reports success and may change `newVolumes`,
`saveGroups(volumes, filePtr)` reports success. -/
structure Formats where
  loadGroups : Format → File → VoxelVolumes → Bool × VoxelVolumes
  saveGroups : Format → VoxelVolumes → File → Bool

/-- The log lines written by Loader.cpp. -/
inductive LogEntry
  | errorFailedToLoad (name : String)
  | errorUnsupportedFormat (name : String) (ext : String)
  | infoLoaded (name : String) (layers : Nat)
  | errorNoVolumes (name : String)
  | warnUnknownType (ext : String)
deriving DecidableEq, Repr

/-- State touched by `loadVolumeFormat`: the out-parameter `newVolumes`, the volume pointers
that were handed to `delete`, and the log. -/
structure LoadState where
  newVolumes : VoxelVolumes
  deleted : List Nat
  log : List LogEntry
deriving DecidableEq, Repr

/-- The function `clearVolumes` (Loader.cpp, lines 121-126): delete every volume, then clear the list. -/
def clearVolumes (st : LoadState) : LoadState :=
  { st with
    deleted := st.deleted ++ st.newVolumes.volumes.map VoxelVolume.volume
    newVolumes := { volumes := [] } }

/-- The extension dispatch of `loadVolumeFormat` (Loader.cpp, lines 29-78), in source order;
`none` is the final `else` branch. -/
def loadFormatFor (ext : String) : Option Format :=
  if ext == "qbt" then some Format.QBT
  else if ext == "vox" then some Format.Vox
  else if ext == "qb" then some Format.QB
  else if ext == "kvx" then some Format.KVX
  else if ext == "kv6" then some Format.KV6
  else if ext == "cub" then some Format.Cub
  else if ext == "vxm" then some Format.VXM
  else if ext == "vxl" then some Format.VXL
  else if ext == "binvox" then some Format.BinVox
  else none

/-- The body shared by every supported branch of `loadVolumeFormat`:
`if (!f.loadGroups(filePtr, newVolumes)) clearVolumes(newVolumes);`. -/
def loadWith (fm : Formats) (f : Format) (file : File) (st : LoadState) : LoadState :=
  let res := fm.loadGroups f file st.newVolumes
  let st1 := { st with newVolumes := res.2 }
  if !res.1 then clearVolumes st1 else st1

/-- The function `loadVolumeFormat` (Loader.cpp, lines 23-85). -/
def loadVolumeFormat (fm : Formats) (file : File) (st : LoadState) : Bool × LoadState :=
  if !file.fileExists then
    (false, { st with log := st.log ++ [LogEntry.errorFailedToLoad file.name] })
  else
    match loadFormatFor file.extension with
    | none =>
      (false, { st with
        log := st.log ++ [LogEntry.errorUnsupportedFormat file.name file.extension] })
    | some f =>
      let st1 := loadWith fm f file st
      if st1.newVolumes.volumes.isEmpty then
        (false, { st1 with log := st1.log ++ [LogEntry.errorFailedToLoad file.name] })
      else
        (true, { st1 with
          log := st1.log ++ [LogEntry.infoLoaded file.name st1.newVolumes.volumes.length] })

/-- The extension dispatch of `saveVolumeFormat` (Loader.cpp, lines 94-116), in source order;
the second component tells whether the final `else` branch (the fallback) was taken. -/
def saveFormatFor (ext : String) : Format × Bool :=
  if ext == "qbt" then (Format.QBT, false)
  else if ext == "vox" then (Format.Vox, false)
  else if ext == "qb" then (Format.QB, false)
  else if ext == "cub" then (Format.Cub, false)
  else if ext == "vxl" then (Format.VXL, false)
  else if ext == "binvox" then (Format.BinVox, false)
  else (Format.Vox, true)

/-- Outcome of `saveVolumeFormat`: the returned value, the writers whose `saveGroups` ran, and
the log lines written. -/
structure SaveResult where
  ret : Bool
  writers : List Format
  log : List LogEntry
deriving DecidableEq, Repr

/-- The function `saveVolumeFormat` (Loader.cpp, lines 87-119). -/
def saveVolumeFormat (fm : Formats) (file : File) (volumes : VoxelVolumes) : SaveResult :=
  if volumes.volumes.isEmpty then
    { ret := false, writers := [], log := [LogEntry.errorNoVolumes file.name] }
  else
    let sel := saveFormatFor file.extension
    { ret := fm.saveGroups sel.1 volumes file
      writers := [sel.1]
      log := if sel.2 then [LogEntry.warnUnknownType file.extension] else [] }

/-- Format classes whose loader adds one volume and reports failure, and whose writers succeed
exactly for the vox format. -/
def failingFormats : Formats where
  loadGroups := fun _ _ v => (false, { volumes := v.volumes ++ [{ volume := 7 }] })
  saveGroups := fun f _ _ => decide (f = Format.Vox)

/-- An existing file `model.vox`. -/
def voxFile : File := { fileExists := true, name := "model.vox", extension := "vox" }

/-- A load state whose `newVolumes` already holds one volume. -/
def oneVolumeState : LoadState :=
  { newVolumes := { volumes := [{ volume := 3 }] }, deleted := [], log := [] }

end voxelformat

namespace video

/-- Number of colour textures: `SDL_arraysize(_textures)`. GBuffer.cpp pins it to 3 by the
`static_assert` against the three entries of `drawBuffers` in `init`. -/
def GBUFFER_NUM_TEXTURES : Nat := 3

/-- OpenGL enumerant `GL_FRAMEBUFFER_COMPLETE` (0x8CD5). -/
def GL_FRAMEBUFFER_COMPLETE : Nat := 0x8CD5

/-- OpenGL enumerant `GL_COLOR_ATTACHMENT0` (0x8CE0). -/
def GL_COLOR_ATTACHMENT0 : Nat := 0x8CE0

/-- OpenGL enumerant `GL_DEPTH_ATTACHMENT` (0x8D00). -/
def GL_DEPTH_ATTACHMENT : Nat := 0x8D00

/-- OpenGL enumerant `GL_TEXTURE0` (0x84C0). -/
def GL_TEXTURE0 : Nat := 0x84C0

/-- Framebuffer binding targets used by GBuffer.cpp. -/
inductive FBTarget
  | framebuffer | drawFramebuffer | readFramebuffer
deriving DecidableEq, Repr

/-- The OpenGL calls issued by GBuffer.cpp, with the arguments that depend on the object.
`scopedBind`/`scopedRelease` stand for the constructor and destructor of the
`ScopedFrameBuffer` local of `init`. -/
inductive GLCall
  | genFramebuffers (n : Nat)
  | deleteFramebuffers (names : List Nat)
  | genTextures (n : Nat)
  | deleteTextures (names : List Nat)
  | scopedBind (fbo : Nat)
  | scopedRelease
  | bindTexture (name : Nat)
  | texImage2D (depthFormat : Bool) (width height : Int)
  | framebufferTexture2D (attachment : Nat) (texture : Nat)
  | texParameterf
  | drawBuffers (n : Nat)
  | checkFramebufferStatus
  | getDrawFramebufferBinding
  | getReadFramebufferBinding
  | bindFramebuffer (target : FBTarget) (name : Int)
  | activeTexture (unit : Nat)
  | readBuffer (attachment : Nat)
deriving DecidableEq, Repr

/-- Data members of `video::GBuffer` as GBuffer.cpp uses them. GBuffer.h is not among the
sources: `_textures` has `GBUFFER_NUM_TEXTURES` elements and is directly followed by
`_depthTexture`, which is what `glGenTextures(SDL_arraysize(_textures) + 1, _textures)` with its
comment "+1 for the depth texture" relies on; the two saved bindings start at -1, the value
`bindForWriting`, `bindForReading`, `unbind` and `shutdown` test for. -/
structure GBuffer where
  _fbo : Nat
  _textures : List Nat
  _depthTexture : Nat
  _oldDrawFramebuffer : Int
  _oldReadFramebuffer : Int
deriving DecidableEq, Repr

/-- The constructor `GBuffer::GBuffer` (GBuffer.cpp, lines 13-18). -/
def GBuffer.construct : GBuffer where
  _fbo := 0
  _textures := List.replicate GBUFFER_NUM_TEXTURES 0
  _depthTexture := 0
  _oldDrawFramebuffer := -1
  _oldReadFramebuffer := -1

/-- What the GL driver hands back during one call of `init`: the framebuffer name, the i-th
texture name written by `glGenTextures`, and the framebuffer status. -/
structure InitReply where
  fbo : Nat
  texture : Nat → Nat
  status : Nat

/-- Outcome of a member function: the GL calls it issued, and the object afterwards, or `none`
when a `core_assert` failed. -/
structure Outcome where
  calls : List GLCall
  after : Option GBuffer
deriving DecidableEq, Repr

/-- The function `GBuffer::shutdown` (GBuffer.cpp, lines 25-44). -/
def GBuffer.shutdown (g : GBuffer) : Outcome :=
  let c1 := if g._fbo ≠ 0 then [GLCall.deleteFramebuffers [g._fbo]] else []
  let c2 := if g._textures.getD 0 0 ≠ 0 then [GLCall.deleteTextures g._textures] else []
  let t2 := if g._textures.getD 0 0 ≠ 0 then g._textures.map (fun _ => 0) else g._textures
  let c3 := if g._depthTexture ≠ 0 then [GLCall.deleteTextures [g._depthTexture]] else []
  let g1 : GBuffer := { g with _fbo := 0, _textures := t2, _depthTexture := 0 }
  { calls := c1 ++ c2 ++ c3
    after := if g._oldDrawFramebuffer = -1 ∧ g._oldReadFramebuffer = -1 then some g1 else none }

/-- The GL calls of one round of the colour-texture loop of `init` (GBuffer.cpp, lines 53-62). -/
def initTextureCalls (width height : Int) (i : Nat) (name : Nat) : List GLCall :=
  [GLCall.bindTexture name, GLCall.texImage2D false width height,
   GLCall.framebufferTexture2D (GL_COLOR_ATTACHMENT0 + i) name,
   GLCall.texParameterf, GLCall.texParameterf]

/-- The function `GBuffer::init` (GBuffer.cpp, lines 46-82); `width`/`height` are
`dimension.x`/`dimension.y`. The debug helpers `GL_setName` and `GL_checkError` do not touch the
object and are left out. -/
def GBuffer.init (reply : InitReply) (width height : Int) (g : GBuffer) : Bool × Outcome :=
  let textures := (List.range GBUFFER_NUM_TEXTURES).map reply.texture
  let depth := reply.texture GBUFFER_NUM_TEXTURES
  let g1 : GBuffer := { g with _fbo := reply.fbo, _textures := textures, _depthTexture := depth }
  let setup :=
    [GLCall.genFramebuffers 1, GLCall.scopedBind reply.fbo,
     GLCall.genTextures (GBUFFER_NUM_TEXTURES + 1)]
    ++ (textures.enum.flatMap (fun p => initTextureCalls width height p.1 p.2))
    ++ [GLCall.bindTexture depth, GLCall.texImage2D true width height,
        GLCall.framebufferTexture2D GL_DEPTH_ATTACHMENT depth,
        GLCall.drawBuffers GBUFFER_NUM_TEXTURES, GLCall.checkFramebufferStatus]
  if reply.status ≠ GL_FRAMEBUFFER_COMPLETE then
    (false, { calls := setup ++ [GLCall.scopedRelease], after := some g1 })
  else
    (true, { calls := setup ++ [GLCall.scopedRelease], after := some g1 })

/-- The function `GBuffer::bindForWriting` (GBuffer.cpp, lines 84-92); `binding` is what
`glGetIntegerv(GL_DRAW_FRAMEBUFFER_BINDING, ..)` stores when it is called. -/
def GBuffer.bindForWriting (binding : Int) (g : GBuffer) : Outcome :=
  let c1 := if g._oldDrawFramebuffer = -1 then [GLCall.getDrawFramebufferBinding] else []
  let g1 := if g._oldDrawFramebuffer = -1 then { g with _oldDrawFramebuffer := binding } else g
  { calls := c1 ++ [GLCall.bindFramebuffer FBTarget.drawFramebuffer g._fbo]
    after := some g1 }

/-- The texture loop of `bindForReading` (GBuffer.cpp, lines 111-115) from index `i` on: the
calls issued, and whether every `core_assert(_textures[i] != 0)` held. The loop stops at the
first failed assertion. -/
def bindTextureLoop : Nat → List Nat → List GLCall × Bool
  | _, [] => ([], true)
  | i, t :: ts =>
    if t ≠ 0 then
      let rest := bindTextureLoop (i + 1) ts
      (GLCall.activeTexture (GL_TEXTURE0 + i) :: GLCall.bindTexture t :: rest.1, rest.2)
    else
      ([GLCall.activeTexture (GL_TEXTURE0 + i)], false)

/-- The function `GBuffer::bindForReading` (GBuffer.cpp, lines 94-117); `binding` is what
`glGetIntegerv` stores when it is called. -/
def GBuffer.bindForReading (binding : Int) (gbuffer : Bool) (g : GBuffer) : Outcome :=
  if gbuffer then
    let c1 := if g._oldReadFramebuffer = -1 then [GLCall.getReadFramebufferBinding] else []
    let g1 := if g._oldReadFramebuffer = -1 then { g with _oldReadFramebuffer := binding } else g
    { calls := c1 ++ [GLCall.bindFramebuffer FBTarget.readFramebuffer g._fbo]
      after := some g1 }
  else
    let c1 := if g._oldDrawFramebuffer = -1 then [GLCall.getDrawFramebufferBinding] else []
    let g1 := if g._oldDrawFramebuffer = -1 then { g with _oldDrawFramebuffer := binding } else g
    let loop := bindTextureLoop 0 g._textures
    if loop.2 then
      { calls := c1 ++ [GLCall.bindFramebuffer FBTarget.drawFramebuffer 0] ++ loop.1
                  ++ [GLCall.activeTexture GL_TEXTURE0]
        after := some g1 }
    else
      { calls := c1 ++ [GLCall.bindFramebuffer FBTarget.drawFramebuffer 0] ++ loop.1
        after := none }

/-- The function `GBuffer::unbind` (GBuffer.cpp, lines 119-135). -/
def GBuffer.unbind (g : GBuffer) : Outcome :=
  let c1 := if g._oldDrawFramebuffer ≠ -1 then
      [GLCall.bindFramebuffer FBTarget.drawFramebuffer g._oldDrawFramebuffer] else []
  let c2 := if g._oldReadFramebuffer ≠ -1 then
      [GLCall.bindFramebuffer FBTarget.readFramebuffer g._oldReadFramebuffer] else []
  let c3 := (List.range GBUFFER_NUM_TEXTURES).flatMap
      (fun i => [GLCall.activeTexture (GL_TEXTURE0 + i), GLCall.bindTexture 0])
  { calls := c1 ++ c2 ++ c3 ++ [GLCall.activeTexture GL_TEXTURE0]
    after := some { g with _oldDrawFramebuffer := -1, _oldReadFramebuffer := -1 } }

/-- The function `GBuffer::setReadBuffer` (GBuffer.cpp, lines 137-140). -/
def GBuffer.setReadBuffer (textureType : Nat) (g : GBuffer) : Outcome :=
  { calls := [GLCall.readBuffer (GL_COLOR_ATTACHMENT0 + textureType)], after := some g }

/-- A call of a member function, with what the driver replies. -/
inductive Op
  | init (reply : InitReply) (width height : Int)
  | bindForWriting (binding : Int)
  | bindForReading (binding : Int) (gbuffer : Bool)
  | unbind
  | setReadBuffer (textureType : Nat)
  | shutdown

/-- Runs one member function. -/
def Op.run : Op → GBuffer → Outcome
  | Op.init reply width height, g => (GBuffer.init reply width height g).2
  | Op.bindForWriting binding, g => GBuffer.bindForWriting binding g
  | Op.bindForReading binding gbuffer, g => GBuffer.bindForReading binding gbuffer g
  | Op.unbind, g => GBuffer.unbind g
  | Op.setReadBuffer textureType, g => GBuffer.setReadBuffer textureType g
  | Op.shutdown, g => GBuffer.shutdown g

/-- Runs member functions one after the other; a failed assertion ends the run with `none`. -/
def runOps : List Op → GBuffer → Option GBuffer
  | [], g => some g
  | op :: ops, g =>
    match (op.run g).after with
    | none => none
    | some g1 => runOps ops g1

/-- The texture names a GL driver generates are non-zero. -/
def InitReply.texturesNonZero (reply : InitReply) : Bool :=
  (List.range (GBUFFER_NUM_TEXTURES + 1)).all (fun i => reply.texture i != 0)

/-- Every `init` in a sequence of calls gets non-zero texture names. -/
def opsWellBehaved : List Op → Bool
  | [] => true
  | Op.init reply _ _ :: ops => reply.texturesNonZero && opsWellBehaved ops
  | _ :: ops => opsWellBehaved ops

/-- No call in the sequence is `shutdown`. -/
def noShutdown : List Op → Bool
  | [] => true
  | Op.shutdown :: _ => false
  | _ :: ops => noShutdown ops

/-- The colour texture handles are either all 0 or all non-zero, and there are
`GBUFFER_NUM_TEXTURES` of them. -/
def GBuffer.texturesUniform (g : GBuffer) : Bool :=
  g._textures.length == GBUFFER_NUM_TEXTURES
    && (g._textures.all (fun t => t == 0) || g._textures.all (fun t => t != 0))

/-- A driver reply with the framebuffer name 1, the texture names 2, 3, 4, 5 and the given
status. -/
def sampleReply (status : Nat) : InitReply :=
  { fbo := 1, texture := fun i => i + 2, status := status }

/-- The condition of `core_assert(_textures[i] != 0)` for every colour texture. -/
def GBuffer.texturesBound (g : GBuffer) : Bool :=
  g._textures.all (fun t => t != 0)

/-- The destructor `GBuffer::~GBuffer` (GBuffer.cpp, lines 20-23): asserts `_fbo == 0`, then
calls `shutdown`. -/
def GBuffer.destruct (g : GBuffer) : Outcome :=
  if g._fbo = 0 then GBuffer.shutdown g else { calls := [], after := none }

/-- No bind is pending: both saved framebuffer bindings are -1. -/
def GBuffer.noBindPending (g : GBuffer) : Bool :=
  g._oldDrawFramebuffer == -1 && g._oldReadFramebuffer == -1

/-- The object after `init` with the names of `sampleReply` and no bind pending. -/
def initialisedGBuffer : GBuffer where
  _fbo := 1
  _textures := [2, 3, 4]
  _depthTexture := 5
  _oldDrawFramebuffer := -1
  _oldReadFramebuffer := -1

end video

namespace testcamera

/-- The steps of `TestCamera::onInit` (TestCamera.cpp, lines 13-58) in program order. -/
inductive InitStep
  | superOnInit
  | colorShaderSetup
  | renderCameraConfigure
  | cameraSetTarget
  | frustumCorners
  | frustumBufferCreate (slot : Nat)
  | frustumBufferAddAttribute (slot : Nat)
deriving DecidableEq, Repr

/-- The function `TestCamera::onInit` (TestCamera.cpp, lines 13-58) over any type of
application states with its value `core::AppState::Cleanup`: `superState` is what
`Super::onInit()` returned, `setupOk` what `_colorShader.setup()` returned. The result is the
returned state and the steps that ran. -/
def onInit {AppState : Type} (Cleanup : AppState) (superState : AppState) (setupOk : Bool) :
    AppState × List InitStep :=
  if !setupOk then
    (Cleanup, [InitStep.superOnInit, InitStep.colorShaderSetup])
  else
    (superState,
      [InitStep.superOnInit, InitStep.colorShaderSetup, InitStep.renderCameraConfigure,
       InitStep.cameraSetTarget, InitStep.frustumCorners,
       InitStep.frustumBufferCreate 0, InitStep.frustumBufferCreate 1,
       InitStep.frustumBufferCreate 2,
       InitStep.frustumBufferAddAttribute 0, InitStep.frustumBufferAddAttribute 1])

end testcamera

namespace persistence

/-- The enumerators of `persistence::FieldType`, as listed by the `switch` of `getDbType`
(SQLGenerator.cpp, lines 110-131) together with the two string types tested before it. -/
inductive FieldType
  | STRING | TEXT | LONG | INT | PASSWORD | TIMESTAMP | BOOLEAN | SHORT | BYTE | DOUBLE | MAX
deriving DecidableEq, Repr

/-- The enumerators of `persistence::Operator` below `MAX`, in the order of `OperatorStrings`
(SQLGenerator.cpp, lines 17-22); the file names only `SET`. -/
inductive Operator
  | ADD | SUBTRACT | SET
deriving DecidableEq, Repr

/-- The table `OperatorStrings` (SQLGenerator.cpp, lines 17-21). -/
def OperatorStrings : Operator → String
  | Operator.ADD => " + "
  | Operator.SUBTRACT => " - "
  | Operator.SET => " = "

/-- What SQLGenerator.cpp reads of a `persistence::Field` (Model.h is not among the sources):
the data members `name`, `type`, `length`, `defaultVal`, `updateOperator`, the results of the
accessors `isNotNull()`, `isPrimaryKey()`, `isUnique()`, `isAutoincrement()`, `isIndex()`, and
`autoincrementBit`, the value of the test
`(contraintMask & (int)ConstraintType::AUTOINCREMENT) != 0`. -/
structure Field where
  name : String
  type : FieldType
  length : Int
  defaultVal : String
  updateOperator : Operator
  isNotNull : Bool
  isPrimaryKey : Bool
  isUnique : Bool
  isAutoincrement : Bool
  isIndex : Bool
  autoincrementBit : Bool
deriving DecidableEq, Repr

/-- A value of the map `Constraints`: the names of the fields the constraint lists. -/
structure Constraint where
  fields : List String
deriving DecidableEq, Repr

/-- A value of the map returned by `foreignKeys()`. -/
structure ForeignKey where
  table : String
  field : String
deriving DecidableEq, Repr

/-- What SQLGenerator.cpp reads of a `persistence::Model` (Model.h is not among the sources).
The maps are lists of key/value pairs in iteration order, a unique key is the list of its field
names in iteration order, and `isNow f` is `getValue<Timestamp>(f).isNow()`. -/
structure Model where
  schema : String
  tableName : String
  fields : List Field
  primaryKeys : Int
  constraints : List (String × Constraint)
  uniqueKeys : List (List String)
  foreignKeys : List (String × ForeignKey)
  autoIncrementStart : Int
  isValid : Field → Bool
  isNull : Field → Bool
  isNow : Field → Bool

/-- A piece written to a `std::stringstream`: literal text, or the placeholder `$count` that
`placeholder` writes for `field`. -/
inductive Chunk
  | text (s : String)
  | bind (count : Int) (field : Field)
deriving DecidableEq, Repr

/-- The characters of a piece. -/
def Chunk.render : Chunk → String
  | Chunk.text s => s
  | Chunk.bind count _ => "$" ++ toString count

/-- The string held by a stream: `str()`. -/
def render (chunks : List Chunk) : String :=
  String.join (chunks.map Chunk.render)

/-- The placeholders of a stream, left to right, each with the field it stands for. -/
def placeholders : List Chunk → List (Int × Field)
  | [] => []
  | Chunk.text _ :: rest => placeholders rest
  | Chunk.bind count field :: rest => (count, field) :: placeholders rest

/-- The helper `core::string::join(begin, end, delimiter)` (core/String.h is not among the
sources): the elements with the delimiter between neighbours. -/
def join (delimiter : String) : List String → String
  | [] => ""
  | [a] => a
  | a :: b :: rest => a ++ delimiter ++ join delimiter (b :: rest)

/-- A name between double quotes. -/
def quoted (name : String) : String :=
  "\"" ++ name ++ "\""

/-- Outcome of one call of `placeholder`: what it wrote, what it returned, and whether its
`core_assert` held. -/
structure Placeholder where
  written : List Chunk
  result : Bool
  asserted : Bool
deriving DecidableEq, Repr

/-- The function `placeholder` (SQLGenerator.cpp, lines 30-47). -/
def placeholder (model : Model) (field : Field) (count : Int) : Placeholder :=
  if model.isNull field then
    { written := [Chunk.text "NULL"], result := false, asserted := !field.isNotNull }
  else if field.type = FieldType.TIMESTAMP then
    if model.isNow field then
      { written := [Chunk.text "NOW()"], result := false, asserted := true }
    else
      { written := [Chunk.text "to_timestamp(", Chunk.bind count field, Chunk.text ")"]
        result := true, asserted := true }
  else
    { written := [Chunk.bind count field], result := true, asserted := true }

/-- A statement under construction: the stream, the parameters pushed to `BindParam* params`
(`none` for `nullptr`), and whether every `core_assert` met so far held. -/
structure Statement where
  stmt : List Chunk
  params : Option (List Field)
  assertsHeld : Bool
deriving DecidableEq, Repr

/-- Writes to the stream: `stmt << ...`. -/
def Statement.write (st : Statement) (chunks : List Chunk) : Statement :=
  { st with stmt := st.stmt ++ chunks }

/-- The recurring block
`if (placeholder(model, f, stmt, index)) { ++index; if (params != nullptr) params->push(model, f); }`
(SQLGenerator.cpp, lines 267-272, 295-300, 340-345, 368-373, 400-405): the statement and the
index afterwards. -/
def placeAndBind (model : Model) (f : Field) (st : Statement) (index : Int) : Statement × Int :=
  let p := placeholder model f index
  let st1 : Statement :=
    { st with stmt := st.stmt ++ p.written, assertsHeld := st.assertsHeld && p.asserted }
  if p.result then
    ({ st1 with params := st1.params.map (fun ps => ps ++ [f]) }, index + 1)
  else
    (st1, index)

/-- The loop of `createWhereStatementsForKeys` (SQLGenerator.cpp, lines 247-273) over the
remaining fields, with the current values of `index` and `where`. -/
def whereLoop (model : Model) : List Field → Statement → Int → Int → Statement
  | [], st, _, _ => st
  | f :: fs, st, index, wh =>
    if !model.isValid f then whereLoop model fs st index wh
    else if !f.isPrimaryKey then whereLoop model fs st index wh
    else
      let st1 := st.write [Chunk.text (if wh > 0 then " AND " else " WHERE ")]
      let st2 := st1.write [Chunk.text "\"", Chunk.text f.name, Chunk.text "\""]
      let st3 := st2.write [Chunk.text (if model.isNull f then " IS " else " = ")]
      let r := placeAndBind model f st3 index
      whereLoop model fs r.1 r.2 (wh + 1)

/-- The function `createWhereStatementsForKeys` (SQLGenerator.cpp, lines 244-274). -/
def createWhereStatementsForKeys (st : Statement) (index : Int) (model : Model) : Statement :=
  whereLoop model model.fields st index 0

/-- The loop of `createUpdateStatement` (SQLGenerator.cpp, lines 283-302) over the remaining
fields, with the current values of `index` and `updateFields`; returns the final `index` too. -/
def updateLoop (model : Model) : List Field → Statement → Int → Int → Statement × Int
  | [], st, index, _ => (st, index)
  | f :: fs, st, index, updateFields =>
    if !model.isValid f then updateLoop model fs st index updateFields
    else if f.isPrimaryKey then updateLoop model fs st index updateFields
    else
      let st1 := if updateFields > 0 then st.write [Chunk.text ", "] else st
      let st2 := st1.write [Chunk.text "\"", Chunk.text f.name, Chunk.text "\" = "]
      let r := placeAndBind model f st2 index
      updateLoop model fs r.1 r.2 (updateFields + 1)

/-- The function `createUpdateStatement` (SQLGenerator.cpp, lines 276-307); the returned string
is `render` of the stream. -/
def createUpdateStatement (model : Model) (params : Option (List Field)) : Statement :=
  let update : Statement :=
    { stmt := [Chunk.text "UPDATE \"", Chunk.text model.schema, Chunk.text "\".\"",
               Chunk.text model.tableName, Chunk.text "\" SET "]
      params := params
      assertsHeld := true }
  let r := updateLoop model model.fields update 1 0
  createWhereStatementsForKeys r.1 r.2 model

/-- The function `createDeleteStatement` (SQLGenerator.cpp, lines 309-314). -/
def createDeleteStatement (table : Model) (params : Option (List Field)) : Statement :=
  let stmt : Statement :=
    { stmt := [Chunk.text "DELETE FROM \"", Chunk.text table.schema, Chunk.text "\".\"",
               Chunk.text table.tableName, Chunk.text "\""]
      params := params
      assertsHeld := true }
  createWhereStatementsForKeys stmt 1 table

/-- Local state of the first loop of `createInsertStatement`: the streams `insert` and `values`
(the latter with the parameters and the assertion flag), the strings `autoincrement` and
`primaryKey`, and the counters. -/
structure InsertState where
  insert : List Chunk
  values : Statement
  autoincrement : String
  primaryKey : String
  insertValueIndex : Int
  inserted : Int
deriving DecidableEq, Repr

/-- The first loop of `createInsertStatement` (SQLGenerator.cpp, lines 324-346) over the
remaining fields. -/
def insertColumnsLoop (model : Model) : List Field → InsertState → InsertState
  | [], s => s
  | f :: fs, s =>
    let s1 := if f.isAutoincrement then { s with autoincrement := f.name } else s
    if !model.isValid f then insertColumnsLoop model fs s1
    else
      let s2 := if f.isPrimaryKey then { s1 with primaryKey := f.name } else s1
      let s3 := if s2.inserted > 0 then
          { s2 with values := s2.values.write [Chunk.text ", "]
                    insert := s2.insert ++ [Chunk.text ", "] }
        else s2
      let s4 := { s3 with
          insert := s3.insert ++ [Chunk.text "\"", Chunk.text f.name, Chunk.text "\""]
          inserted := s3.inserted + 1 }
      let r := placeAndBind model f s4.values s4.insertValueIndex
      insertColumnsLoop model fs { s4 with values := r.1, insertValueIndex := r.2 }

/-- The body shared by the two `DO UPDATE SET` loops of `createInsertStatement`
(SQLGenerator.cpp, lines 360-373 and 392-405): separator, assignment target, update operator
and placeholder for one field. -/
def conflictAssignment (model : Model) (f : Field) (st : Statement) (index fieldIndex : Int) :
    Statement × Int :=
  let st1 := if fieldIndex > 0 then st.write [Chunk.text ", "] else st
  let st2 := st1.write [Chunk.text "\"", Chunk.text f.name, Chunk.text "\" = "]
  let st3 := if f.updateOperator ≠ Operator.SET then
      st2.write [Chunk.text "\"", Chunk.text model.schema, Chunk.text "\".\"",
                 Chunk.text model.tableName, Chunk.text "\".\"", Chunk.text f.name,
                 Chunk.text "\"", Chunk.text (OperatorStrings f.updateOperator)]
    else st2
  placeAndBind model f st3 index

/-- The loop of the primary-key conflict clause (SQLGenerator.cpp, lines 353-375) over the
remaining fields, with the current `insertValueIndex` and `fieldIndex`. -/
def primaryKeyConflictLoop (model : Model) :
    List Field → Statement → Int → Int → Statement × Int
  | [], st, index, _ => (st, index)
  | f :: fs, st, index, fieldIndex =>
    if !model.isValid f then primaryKeyConflictLoop model fs st index fieldIndex
    else if f.isPrimaryKey || f.isAutoincrement then
      primaryKeyConflictLoop model fs st index fieldIndex
    else
      let r := conflictAssignment model f st index fieldIndex
      primaryKeyConflictLoop model fs r.1 r.2 (fieldIndex + 1)

/-- The inner loop of a unique-key conflict clause (SQLGenerator.cpp, lines 385-407) over the
remaining fields, for the unique key `set`. -/
def uniqueKeyConflictLoop (model : Model) (set : List String) :
    List Field → Statement → Int → Int → Statement × Int
  | [], st, index, _ => (st, index)
  | f :: fs, st, index, fieldIndex =>
    if f.isPrimaryKey || f.isAutoincrement then
      uniqueKeyConflictLoop model set fs st index fieldIndex
    else if set.contains f.name then
      uniqueKeyConflictLoop model set fs st index fieldIndex
    else
      let r := conflictAssignment model f st index fieldIndex
      uniqueKeyConflictLoop model set fs r.1 r.2 (fieldIndex + 1)

/-- The loop over the unique keys of `createInsertStatement` (SQLGenerator.cpp, lines 378-408)
over the remaining keys. -/
def uniqueKeysConflictLoop (model : Model) :
    List (List String) → Statement → Int → Statement × Int
  | [], st, index => (st, index)
  | set :: sets, st, index =>
    let st1 := st.write [Chunk.text " ON CONFLICT (", Chunk.text (join ", " (set.map quoted)),
                         Chunk.text ") DO UPDATE SET "]
    let r := uniqueKeyConflictLoop model set model.fields st1 index 0
    uniqueKeysConflictLoop model sets r.1 r.2

/-- The function `createInsertStatement` (SQLGenerator.cpp, lines 316-414); the returned string
is `render` of the stream. -/
def createInsertStatement (model : Model) (params : Option (List Field)) : Statement :=
  let s0 : InsertState :=
    { insert := [Chunk.text "INSERT INTO \"", Chunk.text model.schema, Chunk.text "\".\"",
                 Chunk.text model.tableName, Chunk.text "\" ("]
      values := { stmt := [], params := params, assertsHeld := true }
      autoincrement := ""
      primaryKey := ""
      insertValueIndex := 1
      inserted := 0 }
  let s := insertColumnsLoop model model.fields s0
  let insert1 : Statement :=
    { s.values with
      stmt := s.insert ++ [Chunk.text ") VALUES ("] ++ s.values.stmt ++ [Chunk.text ")"] }
  let r1 := if model.primaryKeys = 1 ∧ s.primaryKey ≠ "" then
      primaryKeyConflictLoop model model.fields
        (insert1.write [Chunk.text " ON CONFLICT (\"", Chunk.text s.primaryKey,
                        Chunk.text "\") DO UPDATE SET "])
        s.insertValueIndex 0
    else (insert1, s.insertValueIndex)
  let r2 := uniqueKeysConflictLoop model model.uniqueKeys r1.1 r1.2
  let insert3 := if s.autoincrement ≠ "" then
      r2.1.write [Chunk.text " RETURNING \"", Chunk.text s.autoincrement, Chunk.text "\""]
    else r2.1
  insert3.write [Chunk.text ";"]

/-- Whether `placeholder` writes a `$n` for the field: the field is not null and is not a
timestamp holding "now". -/
def takesIndex (model : Model) (f : Field) : Bool :=
  !model.isNull f && !(f.type == FieldType.TIMESTAMP && model.isNow f)

/-- The fields numbered consecutively from `index`. -/
def numbered : Int → List Field → List (Int × Field)
  | _, [] => []
  | index, f :: fs => (index, f) :: numbered (index + 1) fs

/-- The step from statement `st` with next index `i` to `st1` with next index `i1` wrote the
placeholders `$i, $(i+1), ...` for exactly the fields `fs`, in this order, and pushed exactly
these fields. -/
def Advances (st : Statement) (i : Int) (st1 : Statement) (i1 : Int) (fs : List Field) : Prop :=
  placeholders st1.stmt = placeholders st.stmt ++ numbered i fs
    ∧ st1.params = st.params.map (fun ps => ps ++ fs)
    ∧ i1 = i + fs.length

/-- The fields of the model that pass `keep` and get a placeholder. -/
def boundFields (model : Model) (keep : Field → Bool) : List Field :=
  (model.fields.filter keep).filter (takesIndex model)

/-- The value of `primaryKey` after the first loop of `createInsertStatement`: the name of the
last valid primary-key field, else the initial value. -/
def lastPrimaryKey (model : Model) : List Field → String → String
  | [], acc => acc
  | f :: fs, acc =>
    lastPrimaryKey model fs (if model.isValid f && f.isPrimaryKey then f.name else acc)

/-- A field with the given name and type and no constraint. -/
def plainField (name : String) (type : FieldType) : Field where
  name := name
  type := type
  length := 0
  defaultVal := ""
  updateOperator := Operator.SET
  isNotNull := false
  isPrimaryKey := false
  isUnique := false
  isAutoincrement := false
  isIndex := false
  autoincrementBit := false

/-- A user table: primary key `id`, then `name`, the timestamp `created` holding "now", and
`note`, which is null. All fields are valid. -/
def userModel : Model where
  schema := "public"
  tableName := "users"
  fields := [{ plainField "id" FieldType.LONG with isPrimaryKey := true, isNotNull := true },
             plainField "name" FieldType.STRING,
             plainField "created" FieldType.TIMESTAMP,
             plainField "note" FieldType.TEXT]
  primaryKeys := 1
  constraints := []
  uniqueKeys := []
  foreignKeys := []
  autoIncrementStart := 1
  isValid := fun _ => true
  isNull := fun f => f.name == "note"
  isNow := fun f => f.name == "created"

/-- The fields that get a placeholder in the statement of `createInsertStatement`, in the order
of the text: those of the VALUES list, those of the primary-key conflict clause when there is
one, and those of the conflict clause of each unique key. -/
def insertBoundFields (model : Model) : List Field :=
  boundFields model model.isValid
    ++ (if model.primaryKeys = 1 ∧ lastPrimaryKey model model.fields "" ≠ "" then
          boundFields model
            (fun f => model.isValid f && !(f.isPrimaryKey || f.isAutoincrement))
        else [])
    ++ model.uniqueKeys.flatMap (fun set =>
          boundFields model
            (fun f => !(f.isPrimaryKey || f.isAutoincrement) && !set.contains f.name))

/-- An account table without primary key and with the unique key `{email}`; the field
`nickname` is not valid (it was never set), `email` is. -/
def accountModel : Model where
  schema := "public"
  tableName := "accounts"
  fields := [{ plainField "email" FieldType.STRING with isUnique := true },
             plainField "nickname" FieldType.STRING]
  primaryKeys := 0
  constraints := [("email", { fields := ["email"] })]
  uniqueKeys := [["email"]]
  foreignKeys := []
  autoIncrementStart := 1
  isValid := fun f => f.name == "email"
  isNull := fun _ => false
  isNow := fun _ => false

/-- What is assumed of the helper `core::string::append(buf, bufsize, string)`, which is not
among the sources and is a parameter of `getDbFlags`: when the string and the terminating NUL
fit into the buffer, the buffer afterwards holds the old content followed by the string. -/
def AppendsWithinCapacity (append : String → Nat → String → String) : Prop :=
  ∀ buf bufsize s, buf.length + s.length < bufsize → append buf bufsize s = buf ++ s

/-- An `append` that leaves the buffer alone when the string does not fit. -/
def boundedAppend (buf : String) (bufsize : Nat) (s : String) : String :=
  if buf.length + s.length < bufsize then buf ++ s else buf

/-- The strings one after the other. -/
def concat : List String → String
  | [] => ""
  | s :: rest => s ++ concat rest

/-- One flag of `getDbFlags`: the separator `if (!empty) append(buf, sizeof(buf), " ")` and
then the `append` calls for the parts of the flag, on the buffer `char buf[1024]`. -/
def appendFlag (append : String → Nat → String → String) (buf : String) (empty : Bool)
    (parts : List String) : String :=
  parts.foldl (fun b s => append b 1024 s) (if !empty then append buf 1024 " " else buf)

/-- The test of `getDbFlags` for the inline UNIQUE flag (SQLGenerator.cpp, lines 66-70): the
field is unique, and `constraints.find(field.name)` finds nothing or a constraint with exactly
one field. -/
def inlineUnique (constraints : List (String × Constraint)) (field : Field) : Bool :=
  field.isUnique &&
    (match constraints.lookup field.name with
     | none => true
     | some c => c.fields.length == 1)

/-- The function `getDbFlags` (SQLGenerator.cpp, lines 49-96). -/
def getDbFlags (append : String → Nat → String → String) (tablename : String)
    (numberPrimaryKeys : Int) (constraints : List (String × Constraint)) (field : Field) :
    String :=
  let buf0 := ""
  let empty0 := true
  let buf1 := if field.isNotNull then appendFlag append buf0 empty0 ["NOT NULL"] else buf0
  let empty1 := if field.isNotNull then false else empty0
  let buf2 := if field.isPrimaryKey && numberPrimaryKeys == 1 then
      appendFlag append buf1 empty1 ["PRIMARY KEY"] else buf1
  let empty2 := if field.isPrimaryKey && numberPrimaryKeys == 1 then false else empty1
  let buf3 := if inlineUnique constraints field then
      appendFlag append buf2 empty2 ["UNIQUE"] else buf2
  let empty3 := if inlineUnique constraints field then false else empty2
  if field.defaultVal ≠ "" then
    appendFlag append buf3 empty3 ["DEFAULT ", field.defaultVal]
  else if field.autoincrementBit then
    appendFlag append buf3 empty3
      ["DEFAULT nextval('", tablename, "_", field.name, "_seq'::regclass)"]
  else buf3

/-- The flags of a column as the specification lists them: NOT NULL, PRIMARY KEY, UNIQUE and DEFAULT,
those that are present, in this order. -/
def flagItems (tablename : String) (numberPrimaryKeys : Int)
    (constraints : List (String × Constraint)) (field : Field) : List String :=
  (if field.isNotNull then ["NOT NULL"] else [])
    ++ (if field.isPrimaryKey && numberPrimaryKeys == 1 then ["PRIMARY KEY"] else [])
    ++ (if inlineUnique constraints field then ["UNIQUE"] else [])
    ++ (if field.defaultVal ≠ "" then ["DEFAULT " ++ field.defaultVal]
        else if field.autoincrementBit then
          ["DEFAULT nextval('" ++ tablename ++ "_" ++ field.name ++ "_seq'::regclass)"]
        else [])

/-- The strings `getDbFlags` appends to its buffer, in order. -/
def flagPieces (tablename : String) (numberPrimaryKeys : Int)
    (constraints : List (String × Constraint)) (field : Field) : List String :=
  (if field.isNotNull then ["NOT NULL"] else [])
    ++ (if field.isPrimaryKey && numberPrimaryKeys == 1 then
          (if field.isNotNull then [" "] else []) ++ ["PRIMARY KEY"]
        else [])
    ++ (if inlineUnique constraints field then
          (if field.isNotNull || (field.isPrimaryKey && numberPrimaryKeys == 1) then [" "]
           else []) ++ ["UNIQUE"]
        else [])
    ++ (if field.defaultVal ≠ "" then
          (if field.isNotNull || (field.isPrimaryKey && numberPrimaryKeys == 1)
              || inlineUnique constraints field then [" "] else [])
            ++ ["DEFAULT ", field.defaultVal]
        else if field.autoincrementBit then
          (if field.isNotNull || (field.isPrimaryKey && numberPrimaryKeys == 1)
              || inlineUnique constraints field then [" "] else [])
            ++ ["DEFAULT nextval('", tablename, "_", field.name, "_seq'::regclass)"]
        else [])

/-- The function `getDbType` (SQLGenerator.cpp, lines 98-133); the warning it logs is left
out. -/
def getDbType (field : Field) : String :=
  if field.type = FieldType.PASSWORD ∨ field.type = FieldType.STRING then
    if field.length > 0 then "VARCHAR(" ++ toString field.length ++ ")" else "VARCHAR(256)"
  else
    match field.type with
    | FieldType.TEXT => "TEXT"
    | FieldType.TIMESTAMP => "TIMESTAMP"
    | FieldType.BOOLEAN => "BOOLEAN"
    | FieldType.LONG => "BIGINT"
    | FieldType.DOUBLE => "DOUBLE PRECISION"
    | FieldType.INT => "INT"
    | FieldType.SHORT => "SMALLINT"
    | FieldType.BYTE => "SMALLINT"
    | FieldType.STRING => ""
    | FieldType.PASSWORD => ""
    | FieldType.MAX => ""

/-- The function `createCreateSequence` (SQLGenerator.cpp, lines 135-138): the text it writes. -/
def createCreateSequence (table : Model) (field : Field) : String :=
  "CREATE SEQUENCE IF NOT EXISTS " ++ table.schema ++ "." ++ table.tableName ++ "_"
    ++ field.name ++ "_seq START " ++ toString table.autoIncrementStart ++ ";"

/-- The text written by the first loop of `createCreateTableStatement` (lines 146-151). -/
def createSequences (table : Model) : List Field → String
  | [] => ""
  | f :: fs =>
    (if !f.autoincrementBit then "" else createCreateSequence table f)
      ++ createSequences table fs

/-- The text written by the column loop of `createCreateTableStatement` (lines 155-169) for
the remaining fields, with the current value of `firstField`. -/
def columnDefinitions (append : String → Nat → String → String) (table : Model) :
    List Field → Bool → String
  | [], _ => ""
  | f :: fs, firstField =>
    (if !firstField then ", " else "")
      ++ "\"" ++ f.name ++ "\""
      ++ (if getDbType f ≠ "" then " " ++ getDbType f else "")
      ++ (if getDbFlags append table.tableName table.primaryKeys table.constraints f ≠ "" then
            " " ++ getDbFlags append table.tableName table.primaryKeys table.constraints f
          else "")
      ++ columnDefinitions append table fs false

/-- The text written by the inner loop over the field names of one unique key (lines 177-183)
for the remaining names, and the value of `firstUniqueKey` afterwards. -/
def uniqueKeyFields : List String → Bool → String × Bool
  | [], firstUniqueKey => ("", firstUniqueKey)
  | fieldName :: rest, firstUniqueKey =>
    ((if !firstUniqueKey then ", " else "") ++ "\"" ++ fieldName ++ "\""
        ++ (uniqueKeyFields rest false).1,
      (uniqueKeyFields rest false).2)

/-- The text written by the loop over the unique keys (lines 173-185) for the remaining keys,
with the current value of `firstUniqueKey`, which is declared before this loop (line 172). -/
def uniqueConstraints (table : Model) : List (List String) → Bool → String
  | [], _ => ""
  | uniqueKey :: rest, firstUniqueKey =>
    ", CONSTRAINT " ++ table.tableName ++ "_" ++ join "_" uniqueKey ++ " UNIQUE("
      ++ (uniqueKeyFields uniqueKey firstUniqueKey).1 ++ ")"
      ++ uniqueConstraints table rest (uniqueKeyFields uniqueKey firstUniqueKey).2

/-- The text written by the loop over the primary-key fields (lines 191-200) for the remaining
fields, with the current value of `firstPrimaryKey`. -/
def primaryKeyFields : List Field → Bool → String
  | [], _ => ""
  | f :: fs, firstPrimaryKey =>
    if !f.isPrimaryKey then primaryKeyFields fs firstPrimaryKey
    else
      (if !firstPrimaryKey then ", " else "") ++ "\"" ++ f.name ++ "\""
        ++ primaryKeyFields fs false

/-- The text written by the block `if (table.primaryKeys() > 1) { ... }` (lines 188-202). -/
def primaryKeyConstraint (table : Model) : String :=
  if table.primaryKeys > 1 then
    ", PRIMARY KEY(" ++ primaryKeyFields table.fields true ++ ")"
  else ""

/-- The text written by the loop over the foreign keys (lines 205-211). -/
def foreignKeyConstraints (table : Model) : List (String × ForeignKey) → String
  | [] => ""
  | foreignKey :: rest =>
    ", CONSTRAINT " ++ table.tableName ++ "_" ++ foreignKey.2.table ++ "_"
      ++ foreignKey.2.field ++ " FOREIGN KEY(\"" ++ foreignKey.1 ++ "\") REFERENCES \""
      ++ foreignKey.2.table ++ "\"(\"" ++ foreignKey.2.field
      ++ "\") MATCH SIMPLE ON UPDATE NO ACTION ON DELETE NO ACTION"
      ++ foreignKeyConstraints table rest

/-- The text written by the index loop (lines 216-222). -/
def createIndexes (table : Model) : List Field → String
  | [] => ""
  | f :: fs =>
    (if !f.isIndex then ""
     else "CREATE INDEX IF NOT EXISTS " ++ table.schema ++ "." ++ table.tableName ++ "_"
        ++ f.name ++ " ON \"" ++ table.tableName ++ "\" USING btree (\"" ++ f.name ++ "\");")
      ++ createIndexes table fs

/-- The function `createCreateTableStatement` (SQLGenerator.cpp, lines 144-225): the writes to
the stream `createTable`, block by block. -/
def createCreateTableStatement (append : String → Nat → String → String) (table : Model)
    (useForeignKeys : Bool) : String :=
  createSequences table table.fields
    ++ "CREATE TABLE IF NOT EXISTS \"" ++ table.schema ++ "\".\"" ++ table.tableName ++ "\" ("
    ++ columnDefinitions append table table.fields true
    ++ (if table.uniqueKeys ≠ [] then uniqueConstraints table table.uniqueKeys true else "")
    ++ primaryKeyConstraint table
    ++ (if useForeignKeys then foreignKeyConstraints table table.foreignKeys else "")
    ++ ");"
    ++ createIndexes table table.fields

/-- The table-level clause the specification expects for one unique key. -/
def uniqueClause (table : Model) (uniqueKey : List String) : String :=
  ", CONSTRAINT " ++ table.tableName ++ "_" ++ join "_" uniqueKey
    ++ " UNIQUE(" ++ join ", " (uniqueKey.map quoted) ++ ")"

/-- A booking table with the two unique keys `{room, slot}` and `{guest, slot}`. -/
def bookingModel : Model where
  schema := "public"
  tableName := "booking"
  fields := [{ plainField "room" FieldType.INT with isUnique := true },
             { plainField "slot" FieldType.INT with isUnique := true },
             { plainField "guest" FieldType.INT with isUnique := true }]
  primaryKeys := 0
  constraints := [("room", { fields := ["room", "slot"] }),
                  ("slot", { fields := ["room", "slot"] }),
                  ("guest", { fields := ["guest", "slot"] })]
  uniqueKeys := [["room", "slot"], ["guest", "slot"]]
  foreignKeys := []
  autoIncrementStart := 1
  isValid := fun _ => true
  isNull := fun _ => false
  isNow := fun _ => false

/-- A column that is not null, unique on its own, and has a default value. -/
def emailField : Field :=
  { plainField "email" FieldType.STRING with
    isNotNull := true, isUnique := true, defaultVal := "'none'" }

/-- The condition of the key filter for the key field `f` when the next placeholder index is
`index`: the quoted name, ` IS ` for a null key and ` = ` otherwise, and what `placeholder`
writes for the field. -/
def keyCondition (model : Model) (f : Field) (index : Int) : String :=
  quoted f.name ++ (if model.isNull f then " IS " else " = ")
    ++ render (placeholder model f index).written

/-- The conditions for the key fields in order; the index moves on after every field that gets
a `$n`. -/
def keyConditions (model : Model) : Int → List Field → List String
  | _, [] => []
  | index, f :: fs =>
    keyCondition model f index
      :: keyConditions model (if takesIndex model f then index + 1 else index) fs

/-- The valid primary-key fields of the model, in field order. -/
def keyFields (model : Model) : List Field :=
  model.fields.filter (fun f => model.isValid f && f.isPrimaryKey)

/-- The key filter as the specification states it: empty without a valid primary-key field,
else ` WHERE ` followed by the conditions with ` AND ` between them, placeholders numbered
from `index`. -/
def keyFilter (model : Model) (index : Int) : String :=
  if keyFields model = [] then ""
  else " WHERE " ++ join " AND " (keyConditions model index (keyFields model))

/-- A table with the primary key `(room, day, slot)` and the column `note`; `day` is null,
`slot` is a timestamp that does not hold "now", and `note` is not valid. -/
def reservationModel : Model where
  schema := "public"
  tableName := "reservation"
  fields := [{ plainField "room" FieldType.INT with isPrimaryKey := true },
             plainField "note" FieldType.TEXT,
             { plainField "day" FieldType.INT with isPrimaryKey := true },
             { plainField "slot" FieldType.TIMESTAMP with isPrimaryKey := true }]
  primaryKeys := 3
  constraints := []
  uniqueKeys := []
  foreignKeys := []
  autoIncrementStart := 1
  isValid := fun f => f.name != "note"
  isNull := fun f => f.name == "day"
  isNow := fun _ => false

/-- A log table without primary key. -/
def logModel : Model where
  schema := "public"
  tableName := "log"
  fields := [plainField "line" FieldType.TEXT]
  primaryKeys := 0
  constraints := []
  uniqueKeys := []
  foreignKeys := []
  autoIncrementStart := 1
  isValid := fun _ => true
  isNull := fun _ => false
  isNow := fun _ => false

/-- The text of one column as the specification states it: the quoted name, the type when
there is one, and the flag items joined by single spaces when there are any. -/
def columnText (table : Model) (f : Field) : String :=
  quoted f.name
    ++ (if getDbType f ≠ "" then " " ++ getDbType f else "")
    ++ (if flagItems table.tableName table.primaryKeys table.constraints f ≠ [] then
          " " ++ join " " (flagItems table.tableName table.primaryKeys table.constraints f)
        else "")

end persistence

namespace voxedit

/-- An entry of `animation::ChrSkeletonAttributeMetaArray`: the attribute name (null in the
terminating entry) and the offset of the `float` member in `CharacterSkeletonAttribute`. -/
structure SkeletonAttributeMeta where
  name : Option String
  offset : Nat
deriving DecidableEq, Repr

/-- What `saveCharacterLua` uses of `animation::CharacterSettings`, over a type `F` of `float`
values: `types()`, `path(type, name)`, and the member `skeletonAttr` read through the offsets of
the meta array. -/
structure CharacterSettings (F : Type) where
  types : List String
  path : String → String → String
  skeletonAttr : Nat → F

/-- The `float` operations of `saveCharacterLua`: the test
`glm::abs(a - b) > glm::epsilon<float>()` and the rendering of a value by `%f`. -/
structure FloatOps (F : Type) where
  differs : F → F → Bool
  format : F → String

/-- What `saveCharacterLua` uses of the non-null `io::FilePtr`: `exists()`. -/
structure LuaFile where
  fileExists : Bool
deriving DecidableEq, Repr

/-- The loop over `characterSettings.types()` (AnimationLuaSaver.cpp, lines 20-23): the stream
content after the remaining types. -/
def writePaths {F : Type} (settings : CharacterSettings F) (name : String) :
    List String → String → String
  | [], stream => stream
  | t :: ts, stream =>
    writePaths settings name ts
      (stream ++ ("  chr.setPath(\"" ++ t ++ "\", \"" ++ settings.path t name ++ "\")\n"))

/-- The loop over the meta array (AnimationLuaSaver.cpp, lines 26-33), which ends at the first
entry with a null name: the stream content after the remaining entries. `dv` is the
default-constructed `CharacterSkeletonAttribute`. -/
def writeAttributes {F : Type} (ops : FloatOps F) (sa dv : Nat → F) :
    List SkeletonAttributeMeta → String → String
  | [], stream => stream
  | m :: rest, stream =>
    match m.name with
    | none => stream
    | some n =>
      if ops.differs (sa m.offset) (dv m.offset) then
        writeAttributes ops sa dv rest
          (stream ++ ("  chr.set" ++ n ++ "(" ++ ops.format (sa m.offset) ++ ")\n"))
      else
        writeAttributes ops sa dv rest stream

/-- The function `saveCharacterLua` (AnimationLuaSaver.cpp, lines 12-36): the returned value
and the text added to the file stream. `file` is `none` for a null pointer; `metaArray` is
`animation::ChrSkeletonAttributeMetaArray` and `dv` the default-constructed attribute set. -/
def saveCharacterLua {F : Type} (ops : FloatOps F) (metaArray : List SkeletonAttributeMeta)
    (dv : Nat → F) (characterSettings : CharacterSettings F) (name : String)
    (file : Option LuaFile) : Bool × String :=
  match file with
  | none => (false, "")
  | some f =>
    if !f.fileExists then (false, "")
    else
      let s1 := "" ++ "function init()"
      let s2 := s1 ++ "  chr.setBasePath(\"human\", \"male\")\n"
      let s3 := writePaths characterSettings name characterSettings.types s2
      let s4 := writeAttributes ops characterSettings.skeletonAttr dv metaArray s3
      (true, s4 ++ "end\n")

/-- The entries of the meta array before the terminating entry, with their names. -/
def namedEntries : List SkeletonAttributeMeta → List (String × Nat)
  | [] => []
  | m :: rest =>
    match m.name with
    | none => []
    | some n => (n, m.offset) :: namedEntries rest

/-- A meta array with three attributes and the terminating entry. -/
def sampleMetaArray : List SkeletonAttributeMeta :=
  [{ name := some "Scaler", offset := 0 }, { name := some "HeadScale", offset := 4 },
   { name := some "NeckHeight", offset := 8 }, { name := none, offset := 0 }]

/-- Float operations over the integers, for a concrete run: values differ when they are
unequal, and are written with six zero decimals. -/
def sampleOps : FloatOps Int where
  differs := fun a b => a != b
  format := fun a => toString a ++ ".000000"

/-- Character settings with two mesh types; only the attribute at offset 4 is changed from the
default 1. -/
def sampleSettings : CharacterSettings Int where
  types := ["head", "foot"]
  path := fun t name => t ++ "/" ++ name
  skeletonAttr := fun offset => if offset = 4 then 2 else 1

end voxedit

namespace core

/-- Modelled from the spec: an entry of a directory listing of `io::Filesystem`
(core/io/Filesystem.h is not among the sources): its name and whether it is a directory. -/
structure DirEntry where
  name : String
  isDir : Bool
deriving DecidableEq, Repr

/-- Whether `f` holds for the text or for one of its proper suffixes. -/
def anySuffix (f : List Char → Bool) : List Char → Bool
  | [] => f []
  | c :: cs => f (c :: cs) || anySuffix f cs

/-- Modelled from the spec: glob matching of a file name against a pattern such as `*.foo`
(the matcher is not among the sources): `*` stands for any run of characters, `?` for one
character, every other character for itself. -/
def globMatch : List Char → List Char → Bool
  | [], t => t.isEmpty
  | p :: ps, t =>
    if p = '*' then anySuffix (globMatch ps) t
    else
      match t with
      | [] => false
      | c :: cs => (p = '?' || p = c) && globMatch ps cs

/-- The directory part of a typed path: everything up to and including the last `/`, empty
when there is none. -/
def extractPath (s : List Char) : List Char :=
  (s.reverse.dropWhile (fun c => c != '/')).reverse

/-- The entries of a listing ordered by name. -/
def sortByName (entries : List DirEntry) : List DirEntry :=
  entries.insertionSort (fun a b => a.name ≤ b.name)

/-- The first loop of the completer: every directory whose name starts with the typed name is
appended with the typed directory part in front and a trailing `/`, and counted. -/
def completeDirs (additionalDir currentMatch : List Char) :
    List DirEntry → List String × Nat → List String × Nat
  | [], acc => acc
  | e :: es, acc =>
    if e.isDir && currentMatch.isPrefixOf e.name.data then
      completeDirs additionalDir currentMatch es
        (acc.1 ++ [String.mk (additionalDir ++ e.name.data ++ ['/'])], acc.2 + 1)
    else completeDirs additionalDir currentMatch es acc

/-- The second loop of the completer: every file whose name starts with the typed name and
matches the pattern is appended with the typed directory part in front, and counted. -/
def completeFiles (pattern additionalDir currentMatch : List Char) :
    List DirEntry → List String × Nat → List String × Nat
  | [], acc => acc
  | e :: es, acc =>
    if !e.isDir && currentMatch.isPrefixOf e.name.data && globMatch pattern e.name.data then
      completeFiles pattern additionalDir currentMatch es
        (acc.1 ++ [String.mk (additionalDir ++ e.name.data)], acc.2 + 1)
    else completeFiles pattern additionalDir currentMatch es acc

/-- Modelled from the spec: the function object returned by `fileCompleter(dir, pattern)`
(core/command/CommandCompleter.h is not among the sources; CommandCompleterTest.cpp calls it),
applied to the typed string `str` and the vector `matches` (here `matches0`). `list` is the directory listing of
the filesystem. The typed string is split into its directory part and the typed name; the
listing of `dir` extended by the directory part is ordered by name; first the matching
directories, then the matching files are appended. The result is the number of appended entries
and the vector afterwards. -/
def fileCompleter (list : String → List DirEntry) (dir pattern str : String)
    (matches0 : List String) : Nat × List String :=
  let additionalDir := extractPath str.data
  let currentMatch := str.data.drop additionalDir.length
  let entries := sortByName (list (dir ++ String.mk additionalDir))
  let r1 := completeDirs additionalDir currentMatch entries (matches0, 0)
  let r2 := completeFiles pattern.data additionalDir currentMatch entries r1
  (r2.2, r2.1)

/-- The directory tree that `CommandCompleterTest::onInitApp` creates
(CommandCompleterTest.cpp, lines 13-26), entries in the order of creation. -/
def testFilesystem (path : String) : List DirEntry :=
  if path = "commandcompletertest/" then
    [{ name := "dir1", isDir := true }, { name := "file1", isDir := false },
     { name := "file2", isDir := false }, { name := "foo1.foo", isDir := false },
     { name := "foo2.foo", isDir := false }, { name := "foo3.foo", isDir := false },
     { name := "foo4.foo", isDir := false }]
  else if path = "commandcompletertest/dir1/" then
    [{ name := "ignored", isDir := false }, { name := "ignoredtoo", isDir := false },
     { name := "foo1.foo", isDir := false }]
  else []

/-- The typed name: what follows the directory part of the typed string. -/
def typedName (str : String) : List Char :=
  str.data.drop (extractPath str.data).length

/-- The listing the completer works on: the entries of `dir` extended by the typed directory
part, ordered by name. -/
def listing (list : String → List DirEntry) (dir str : String) : List DirEntry :=
  sortByName (list (dir ++ String.mk (extractPath str.data)))

/-- The sub-directories whose path starts with the typed string, in sorted order. -/
def matchingDirs (list : String → List DirEntry) (dir str : String) : List DirEntry :=
  (listing list dir str).filter (fun e => e.isDir && (typedName str).isPrefixOf e.name.data)

/-- The files whose path starts with the typed string and whose name matches the pattern, in
sorted order. -/
def matchingFiles (list : String → List DirEntry) (dir pattern str : String) : List DirEntry :=
  (listing list dir str).filter (fun e =>
    !e.isDir && (typedName str).isPrefixOf e.name.data && globMatch pattern.data e.name.data)

end core

namespace util

/-- Where the scanner of `handleIncludes` stands: copying text, past `#include` and looking for
the opening quote, or inside the quoted file name read so far. -/
inductive ScanMode
  | copy
  | skipToQuote
  | name (acc : List Char)
deriving DecidableEq, Repr

/-- What a scan yields: the output text, the files included, and whether every directive was
resolved. -/
structure Scan where
  out : List Char
  included : List String
  success : Bool
deriving DecidableEq, Repr

/-- The content of an include file: the first include directory in which `load` finds the file
decides. -/
def resolve (load : String → String → Option String) (includeDirs : List String)
    (file : String) : Option String :=
  includeDirs.findSome? (fun d => load d file)

/-- Modelled from the spec: the scan of `util::handleIncludes` (util/IncludeUtil.h is not among
the sources; IncludeUtilTest.cpp calls it). Text is copied; at `#include` the scanner moves to
the next `"`, reads the file name up to the closing `"` and puts the content of that file in
place of the directive, without scanning the inserted content; a file that is not found leaves
nothing in place of the directive and clears the success flag. -/
def scan (load : String → String → Option String) (includeDirs : List String) :
    ScanMode → List Char → Scan
  | _, [] => { out := [], included := [], success := true }
  | ScanMode.copy, c :: rest =>
    if "#include".data.isPrefixOf (c :: rest) then
      scan load includeDirs ScanMode.skipToQuote rest
    else
      { scan load includeDirs ScanMode.copy rest with
        out := c :: (scan load includeDirs ScanMode.copy rest).out }
  | ScanMode.skipToQuote, c :: rest =>
    if c = '"' then scan load includeDirs (ScanMode.name []) rest
    else scan load includeDirs ScanMode.skipToQuote rest
  | ScanMode.name acc, c :: rest =>
    if c = '"' then
      match resolve load includeDirs (String.mk acc) with
      | some content =>
        { out := content.data ++ (scan load includeDirs ScanMode.copy rest).out
          included := String.mk acc :: (scan load includeDirs ScanMode.copy rest).included
          success := (scan load includeDirs ScanMode.copy rest).success }
      | none =>
        { scan load includeDirs ScanMode.copy rest with success := false }
    else scan load includeDirs (ScanMode.name (acc ++ [c])) rest

/-- Modelled from the spec: `util::handleIncludes(buffer, includeDirs, &includedFiles)`
(util/IncludeUtil.h is not among the sources): the pair of output text and success flag, and
the vector `includedFiles` afterwards. `load dir file` is the content of `file` in the
directory `dir`, when it exists. -/
def handleIncludes (load : String → String → Option String) (buffer : String)
    (includeDirs : List String) (includedFiles : List String) :
    (String × Bool) × List String :=
  ((String.mk (scan load includeDirs ScanMode.copy buffer.data).out,
    (scan load includeDirs ScanMode.copy buffer.data).success),
   includedFiles ++ (scan load includeDirs ScanMode.copy buffer.data).included)

/-- The include files of IncludeUtilTest in the directory `.`: `one.h` includes `two.h`. The
files themselves are not among the sources; their content is what the two expected outputs of
the test (IncludeUtilTest.cpp, lines 21 and 25) are made of. -/
def testIncludeFiles (dir file : String) : Option String :=
  if dir = "." ∧ file = "one.h" then some "#error \"one\"\n#include \"two.h\"\n"
  else if dir = "." ∧ file = "two.h" then some "#error \"two\"\n"
  else none

/-- The file `main.h` of IncludeUtilTest: it includes `one.h` and `two.h`. -/
def testMainHeader : String := "#include \"one.h\"\n#include \"two.h\"\n"

/-- A piece of a buffer as the claim reads it: plain text, or a directive
`#include<gap>"<file>"`, where `gap` is what stands between the keyword and the opening quote. -/
inductive Seg
  | text (t : String)
  | directive (gap file : String)
deriving DecidableEq, Repr

/-- The characters of one piece. -/
def Seg.source : Seg → String
  | Seg.text t => t
  | Seg.directive gap file => "#include" ++ gap ++ "\"" ++ file ++ "\""

/-- The buffer that a list of pieces spells. -/
def source : List Seg → String
  | [] => ""
  | s :: rest => s.source ++ source rest

/-- No position of `text`, read with `rest` after it, starts with `#include`. -/
def noIncludeIn : List Char → List Char → Bool
  | [], _ => true
  | c :: cs, rest => !("#include".data.isPrefixOf (c :: (cs ++ rest))) && noIncludeIn cs rest

/-- The pieces are a reading of the buffer they spell: no position inside a text piece starts
with `#include` in that buffer, and neither the gap nor the file name of a directive holds a
quote. -/
def wellRead : List Seg → Bool
  | [] => true
  | Seg.text t :: rest => noIncludeIn t.data (source rest).data && wellRead rest
  | Seg.directive gap file :: rest =>
    decide ('"' ∉ gap.data) && decide ('"' ∉ file.data) && wellRead rest

/-- The file names of the directives, in order. -/
def directiveFiles : List Seg → List String
  | [] => []
  | Seg.text _ :: rest => directiveFiles rest
  | Seg.directive _ file :: rest => file :: directiveFiles rest

/-- The file names of the directives whose file is found in the include directories. -/
def replaced (load : String → String → Option String) (includeDirs : List String)
    (segs : List Seg) : List String :=
  (directiveFiles segs).filter (fun file => (resolve load includeDirs file).isSome)

/-- Every directive names a file that is found in the include directories. -/
def allResolved (load : String → String → Option String) (includeDirs : List String)
    (segs : List Seg) : Bool :=
  (directiveFiles segs).all (fun file => (resolve load includeDirs file).isSome)

/-- The text the claim states for one call: text pieces stay, a directive gives way to the
content of its file as it is, and to nothing when the file is not found. -/
def expansion (load : String → String → Option String) (includeDirs : List String) :
    List Seg → String
  | [] => ""
  | Seg.text t :: rest => t ++ expansion load includeDirs rest
  | Seg.directive _ file :: rest =>
    (resolve load includeDirs file).getD "" ++ expansion load includeDirs rest

/-- The pieces after one level of expansion, when `doc file` are the pieces of the content of
`file`: the pieces of the content stand in place of the directive, its own directives
included. -/
def insertContents (doc : String → List Seg) : List Seg → List Seg
  | [] => []
  | Seg.text t :: rest => Seg.text t :: insertContents doc rest
  | Seg.directive _ file :: rest => doc file ++ insertContents doc rest

/-- The pieces of `main.h` of IncludeUtilTest. -/
def testMainSegs : List Seg :=
  [Seg.directive " " "one.h", Seg.text "\n", Seg.directive " " "two.h", Seg.text "\n"]

/-- The pieces of the include files of IncludeUtilTest. -/
def testDoc (file : String) : List Seg :=
  if file = "one.h" then
    [Seg.text "#error \"one\"\n", Seg.directive " " "two.h", Seg.text "\n"]
  else if file = "two.h" then [Seg.text "#error \"two\"\n"]
  else []

end util

/-! ## WorldRenderer: mesh cache, culling and eviction -/

namespace frontend

theorem eraseMeshesAt_fst (pos : IVec3) (l : List GLMeshData) :
    (eraseMeshesAt pos l).1 = l.filter (fun m => decide (m.translation ≠ pos)) := by
  induction l with
  | nil => rfl
  | cons m ms ih =>
    by_cases h : m.translation = pos <;> simp [eraseMeshesAt, h, ih]

theorem eraseMeshesAt_absent (pos : IVec3) (l : List GLMeshData)
    (h : ∀ m ∈ l, m.translation ≠ pos) : eraseMeshesAt pos l = (l, []) := by
  induction l with
  | nil => rfl
  | cons m ms ih =>
    have hm : m.translation ≠ pos := h m (List.mem_cons_self _ _)
    have hms : ∀ x ∈ ms, x.translation ≠ pos := fun x hx => h x (List.mem_cons_of_mem _ hx)
    simp [eraseMeshesAt, hm, ih hms]

theorem allMeshes_deleteMesh (r : WorldRenderer) (pos : IVec3) :
    allMeshes (deleteMesh r pos)
      = (allMeshes r).filter (fun m => decide (m.translation ≠ pos)) := by
  simp [allMeshes, deleteMesh, eraseMeshesAt_fst, List.filter_append]

theorem mem_allMeshes (r : WorldRenderer) (m : GLMeshData) :
    m ∈ allMeshes r ↔
      (m ∈ r._meshDataOpaque ∨ m ∈ r._meshDataWater ∨ m ∈ r._meshDataPlant) := by
  simp [allMeshes]

theorem SameView.culled {s r : WorldRenderer} (h : SameView s r) (p : IVec3) (q : Bool) :
    isDistanceCulled s (getDistance2 s p) q = isDistanceCulled r (getDistance2 r p) q := by
  obtain ⟨h1, h2, h3⟩ := h
  simp [isDistanceCulled, getDistance2, h1, h2, h3]

theorem deleteMesh_sameView (r : WorldRenderer) (pos : IVec3) : SameView (deleteMesh r pos) r :=
  ⟨rfl, rfl, rfl⟩

/-- Folding the eviction step over a list of positions keeps thresholds, camera cell and pending
extractions, only removes meshes, and leaves no mesh at a listed position that is culled for
retention. -/
theorem evictFold_spec (ps : List IVec3) (r : WorldRenderer) :
    SameView (ps.foldl
        (fun s p => if isDistanceCulled s (getDistance2 s p) false then deleteMesh s p else s) r) r
    ∧ (ps.foldl
        (fun s p => if isDistanceCulled s (getDistance2 s p) false then deleteMesh s p else s)
        r).pending = r.pending
    ∧ ∀ m, m ∈ allMeshes (ps.foldl
        (fun s p => if isDistanceCulled s (getDistance2 s p) false then deleteMesh s p else s) r) →
        m ∈ allMeshes r ∧
          (m.translation ∈ ps → isDistanceCulled r (getDistance2 r m.translation) false = false) := by
  induction ps generalizing r with
  | nil => exact ⟨⟨rfl, rfl, rfl⟩, rfl, fun m hm => ⟨hm, fun h => absurd h (List.not_mem_nil _)⟩⟩
  | cons p ps ih =>
    simp only [List.foldl_cons]
    by_cases hc : isDistanceCulled r (getDistance2 r p) false = true
    · simp only [hc, if_true]
      obtain ⟨hv, hp, hm⟩ := ih (deleteMesh r p)
      have hv1 : SameView (deleteMesh r p) r := deleteMesh_sameView r p
      refine ⟨⟨hv.1.trans hv1.1, hv.2.1.trans hv1.2.1, hv.2.2.trans hv1.2.2⟩, hp.trans rfl, ?_⟩
      intro m hmem
      obtain ⟨h1, h2⟩ := hm m hmem
      rw [allMeshes_deleteMesh] at h1
      have h3 := List.mem_filter.mp h1
      have hne : m.translation ≠ p := by simpa using h3.2
      refine ⟨h3.1, fun hin => ?_⟩
      rcases List.mem_cons.mp hin with heq | htail
      · exact absurd heq hne
      · rw [← hv1.culled]; exact h2 htail
    · have hc2 : isDistanceCulled r (getDistance2 r p) false = false := by
        simpa using hc
      simp only [hc2]
      obtain ⟨hv, hp, hm⟩ := ih r
      refine ⟨hv, hp, ?_⟩
      intro m hmem
      obtain ⟨h1, h2⟩ := hm m hmem
      refine ⟨h1, fun hin => ?_⟩
      rcases List.mem_cons.mp hin with heq | htail
      · rw [heq]; exact hc2
      · exact h2 htail

theorem evictDistantMeshes_sameView (r : WorldRenderer) : SameView (evictDistantMeshes r) r :=
  (evictFold_spec (cachedPositions r) r).1

theorem evictDistantMeshes_spec (r : WorldRenderer) (m : GLMeshData)
    (hm : m ∈ allMeshes (evictDistantMeshes r)) :
    m ∈ allMeshes r ∧ isDistanceCulled r (getDistance2 r m.translation) false = false := by
  obtain ⟨h1, h2⟩ := (evictFold_spec (cachedPositions r) r).2.2 m hm
  refine ⟨h1, h2 ?_⟩
  exact List.mem_map_of_mem GLMeshData.translation h1

theorem extractMeshAroundCamera_sameView (w : World) (r : WorldRenderer) (gridPos : IVec3)
    (radius : Nat) : SameView (extractMeshAroundCamera w r gridPos radius) r := by
  unfold extractMeshAroundCamera
  induction cellsAround gridPos radius generalizing r with
  | nil => exact ⟨rfl, rfl, rfl⟩
  | cons c cs ih =>
    simp only [List.foldl_cons]
    split
    · exact ih _
    · exact ih r

/-- C1: when the grid cell of the camera position differs from the last processed cell,
`extractNewMeshes` makes that cell the camera grid cell, and afterwards no mesh of the opaque,
water or plant list lies at a grid position `p` whose squared distance from the new camera grid
cell is culled for retention. -/
theorem extractNewMeshes_evicts (w : World) (r : WorldRenderer) (position : Vec3) (force : Bool)
    (hmoved : w.getMeshPos position ≠ r._lastGridPosition) (p : IVec3)
    (hculled : isDistanceCulled (extractNewMeshes w r position force).2
        (getDistance2 (extractNewMeshes w r position force).2 p) false = true) :
    (extractNewMeshes w r position force).2._lastGridPosition = w.getMeshPos position
    ∧ ∀ m, (m ∈ (extractNewMeshes w r position force).2._meshDataOpaque
          ∨ m ∈ (extractNewMeshes w r position force).2._meshDataWater
          ∨ m ∈ (extractNewMeshes w r position force).2._meshDataPlant) →
        m.translation ≠ p := by
  have hrun : extractNewMeshes w r position force
      = (true, evictDistantMeshes (extractMeshAroundCamera w
          { r with _lastGridPosition := w.getMeshPos position } (w.getMeshPos position) 1)) := by
    simp [extractNewMeshes, hmoved]
  rw [hrun] at hculled ⊢
  simp only at hculled ⊢
  have hv := evictDistantMeshes_sameView (extractMeshAroundCamera w
      { r with _lastGridPosition := w.getMeshPos position } (w.getMeshPos position) 1)
  have hv2 := extractMeshAroundCamera_sameView w
      { r with _lastGridPosition := w.getMeshPos position } (w.getMeshPos position) 1
  refine ⟨hv.2.2.trans hv2.2.2, ?_⟩
  intro m hm heq
  have hmem := (mem_allMeshes _ m).mpr hm
  have hkept := (evictDistantMeshes_spec _ m hmem).2
  rw [← hv.culled, heq, hculled] at hkept
  exact Bool.noConfusion hkept

/-- C1, the scenario of the specification: the camera moves from grid cell `(0,0,0)` to
`(5,0,0)` with retention radius 2; the position `(8,0,0)` is culled for retention and no list
holds a mesh there afterwards. -/
theorem extractNewMeshes_evicts_witness :
    unitWorld.getMeshPos scenarioPosition = ⟨5, 0, 0⟩
    ∧ scenarioRenderer._lastGridPosition = ⟨0, 0, 0⟩
    ∧ (extractNewMeshes unitWorld scenarioRenderer scenarioPosition false).2._lastGridPosition
        = unitWorld.getMeshPos scenarioPosition
    ∧ ∀ m, (m ∈ (extractNewMeshes unitWorld scenarioRenderer scenarioPosition false).2._meshDataOpaque
          ∨ m ∈ (extractNewMeshes unitWorld scenarioRenderer scenarioPosition false).2._meshDataWater
          ∨ m ∈ (extractNewMeshes unitWorld scenarioRenderer scenarioPosition false).2._meshDataPlant) →
        m.translation ≠ ⟨8, 0, 0⟩ :=
  ⟨by decide!, by decide,
    extractNewMeshes_evicts unitWorld scenarioRenderer scenarioPosition false (by decide!)
      ⟨8, 0, 0⟩ (by decide!)⟩

/-- C2: `extractNewMeshes(pos, false)` called while `pos` lies in the last processed grid cell
returns without any effect: the whole renderer state (mesh lists, pending extractions, released
handles, `_lastGridPosition`) is unchanged. Hence a second call with the same position leaves
the state the first call produced. -/
theorem extractNewMeshes_same_cell_noop (w : World) (r : WorldRenderer) (position : Vec3) :
    (w.getMeshPos position = r._lastGridPosition →
        extractNewMeshes w r position false = (false, r))
    ∧ extractNewMeshes w (extractNewMeshes w r position false).2 position false
        = (false, (extractNewMeshes w r position false).2) := by
  have hsame : ∀ s : WorldRenderer, w.getMeshPos position = s._lastGridPosition →
      extractNewMeshes w s position false = (false, s) := by
    intro s hs
    simp [extractNewMeshes, hs]
  refine ⟨hsame r, hsame _ ?_⟩
  by_cases h : w.getMeshPos position = r._lastGridPosition
  · rw [hsame r h]; exact h
  · have hrun : extractNewMeshes w r position false
        = (true, evictDistantMeshes (extractMeshAroundCamera w
            { r with _lastGridPosition := w.getMeshPos position } (w.getMeshPos position) 1)) := by
      simp [extractNewMeshes, h]
    rw [hrun]
    have hv := evictDistantMeshes_sameView (extractMeshAroundCamera w
        { r with _lastGridPosition := w.getMeshPos position } (w.getMeshPos position) 1)
    have hv2 := extractMeshAroundCamera_sameView w
        { r with _lastGridPosition := w.getMeshPos position } (w.getMeshPos position) 1
    exact (hv.2.2.trans hv2.2.2).symm

/-- C2 at the scenario: the camera stays inside grid cell `(0,0,0)`. -/
theorem extractNewMeshes_same_cell_noop_witness :
    unitWorld.getMeshPos ⟨1 / 2, 0, 1 / 4⟩ = scenarioRenderer._lastGridPosition
    ∧ extractNewMeshes unitWorld scenarioRenderer ⟨1 / 2, 0, 1 / 4⟩ false
        = (false, scenarioRenderer) :=
  ⟨by decide!,
    (extractNewMeshes_same_cell_noop unitWorld scenarioRenderer ⟨1 / 2, 0, 1 / 4⟩).1 (by decide!)⟩

/-- C3, refutation: in the default-constructed renderer the render threshold `_fogRange = 250`
exceeds the retention threshold `_viewDistance = 0.1`, and the squared distance 1 is culled for
retention but not for rendering. -/
theorem default_thresholds_not_ordered :
    ¬ (WorldRenderer.construct._fogRange ≤ WorldRenderer.construct._viewDistance)
    ∧ isDistanceCulled WorldRenderer.construct 1 false = true
    ∧ isDistanceCulled WorldRenderer.construct 1 true = false := by
  refine ⟨?_, ?_, ?_⟩ <;> norm_num [WorldRenderer.construct, isDistanceCulled]

/-- C3, amended: in every configuration with `0 ≤ _fogRange ≤ _viewDistance` a squared distance
that is culled for retention is also culled for rendering. -/
theorem retention_culled_is_render_culled (r : WorldRenderer) (hfog : 0 ≤ r._fogRange)
    (hle : r._fogRange ≤ r._viewDistance) (d : Int)
    (hculled : isDistanceCulled r d false = true) : isDistanceCulled r d true = true := by
  simp only [isDistanceCulled, if_true, Bool.false_eq_true, if_false, decide_eq_true_eq]
    at hculled ⊢
  have hsq : r._fogRange * r._fogRange ≤ r._viewDistance * r._viewDistance :=
    mul_le_mul hle hle hfog (hfog.trans hle)
  exact lt_of_le_of_lt hsq hculled

/-- C3, amended, at a configuration with fog range 2 and view distance 3 and squared
distance 10. -/
theorem retention_culled_is_render_culled_witness :
    isDistanceCulled { scenarioRenderer with _fogRange := 2, _viewDistance := 3 } 10 false = true
    ∧ isDistanceCulled { scenarioRenderer with _fogRange := 2, _viewDistance := 3 } 10 true
        = true :=
  ⟨by decide!,
    retention_culled_is_render_culled
      { scenarioRenderer with _fogRange := 2, _viewDistance := 3 } (by decide!) (by decide!) 10
      (by decide!)⟩

/-- C4: `deleteMesh(pos)` leaves in each of the three lists exactly the entries at other
positions, in their order, so no entry at `pos` remains; when no list holds a mesh at `pos`
the renderer state is unchanged. -/
theorem deleteMesh_removes_exactly (r : WorldRenderer) (pos : IVec3) :
    (deleteMesh r pos)._meshDataOpaque
        = r._meshDataOpaque.filter (fun m => decide (m.translation ≠ pos))
    ∧ (deleteMesh r pos)._meshDataWater
        = r._meshDataWater.filter (fun m => decide (m.translation ≠ pos))
    ∧ (deleteMesh r pos)._meshDataPlant
        = r._meshDataPlant.filter (fun m => decide (m.translation ≠ pos))
    ∧ (∀ m, m ∈ allMeshes (deleteMesh r pos) → m.translation ≠ pos)
    ∧ ((∀ m, m ∈ allMeshes r → m.translation ≠ pos) → deleteMesh r pos = r) := by
  refine ⟨eraseMeshesAt_fst _ _, eraseMeshesAt_fst _ _, eraseMeshesAt_fst _ _, ?_, ?_⟩
  · intro m hm
    rw [allMeshes_deleteMesh] at hm
    simpa using (List.mem_filter.mp hm).2
  · intro h
    have ho := eraseMeshesAt_absent pos r._meshDataOpaque
      (fun m hm => h m ((mem_allMeshes r m).mpr (Or.inl hm)))
    have hw := eraseMeshesAt_absent pos r._meshDataWater
      (fun m hm => h m ((mem_allMeshes r m).mpr (Or.inr (Or.inl hm))))
    have hp := eraseMeshesAt_absent pos r._meshDataPlant
      (fun m hm => h m ((mem_allMeshes r m).mpr (Or.inr (Or.inr hm))))
    simp [deleteMesh, ho, hw, hp]

/-- C4 at the scenario: no list holds a mesh at `(6,0,0)`, and deleting there changes
nothing. -/
theorem deleteMesh_removes_exactly_witness :
    (∀ m, m ∈ allMeshes scenarioRenderer → m.translation ≠ ⟨6, 0, 0⟩)
    ∧ deleteMesh scenarioRenderer ⟨6, 0, 0⟩ = scenarioRenderer :=
  ⟨by decide,
    (deleteMesh_removes_exactly scenarioRenderer ⟨6, 0, 0⟩).2.2.2.2 (by decide)⟩

end frontend

/-! ## Loader: format dispatch -/

namespace voxelformat

theorem csvEntries_load :
    csvEntries SUPPORTED_VOXEL_FORMATS_LOAD
      = ["vox", "qbt", "qb", "vxm", "binvox", "cub", "kvx", "kv6", "vxl"] := by
  decide

theorem csvEntries_save :
    csvEntries SUPPORTED_VOXEL_FORMATS_SAVE = ["vox", "qbt", "qb", "binvox", "cub", "vxl"] := by
  decide

theorem loadFormatFor_eq_none_iff (ext : String) :
    loadFormatFor ext = none ↔ ext ∉ csvEntries SUPPORTED_VOXEL_FORMATS_LOAD := by
  rw [csvEntries_load]
  unfold loadFormatFor
  constructor
  · intro h
    split_ifs at h
    simp_all
  · intro h
    simp only [List.mem_cons, List.mem_singleton, List.not_mem_nil, not_or, or_false] at h
    simp [h]

theorem saveFormatFor_fallback_iff (ext : String) :
    (saveFormatFor ext).2 = true ↔ ext ∉ csvEntries SUPPORTED_VOXEL_FORMATS_SAVE := by
  rw [csvEntries_save]
  unfold saveFormatFor
  constructor
  · intro h
    split_ifs at h
    simp_all
  · intro h
    simp only [List.mem_cons, List.mem_singleton, List.not_mem_nil, not_or, or_false] at h
    simp [h]

/-- C5: the advertised lists agree with the dispatch. For an existing file, `loadVolumeFormat`
takes the "unsupported file format" branch (returns false after logging that error, nothing else
changed) exactly when the extension is not an entry of `SUPPORTED_VOXEL_FORMATS_LOAD`; for a
non-empty volume list, `saveVolumeFormat` takes the fallback branch (logs the "unknown type"
warning) exactly when the extension is not an entry of `SUPPORTED_VOXEL_FORMATS_SAVE`. -/
theorem format_lists_agree_with_dispatch (fm : Formats) (name ext : String) (st : LoadState)
    (v : VoxelVolume) (vs : List VoxelVolume) :
    (loadFormatFor ext ≠ none ↔ ext ∈ csvEntries SUPPORTED_VOXEL_FORMATS_LOAD)
    ∧ (loadVolumeFormat fm { fileExists := true, name := name, extension := ext } st
          = (false, { st with log := st.log ++ [LogEntry.errorUnsupportedFormat name ext] })
        ↔ ext ∉ csvEntries SUPPORTED_VOXEL_FORMATS_LOAD)
    ∧ ((saveFormatFor ext).2 = false ↔ ext ∈ csvEntries SUPPORTED_VOXEL_FORMATS_SAVE)
    ∧ ((saveVolumeFormat fm { fileExists := true, name := name, extension := ext }
            { volumes := v :: vs }).log = [LogEntry.warnUnknownType ext]
        ↔ ext ∉ csvEntries SUPPORTED_VOXEL_FORMATS_SAVE) := by
  refine ⟨?_, ?_, ?_, ?_⟩
  · rw [Ne, loadFormatFor_eq_none_iff, not_not]
  · rw [← loadFormatFor_eq_none_iff]
    cases hf : loadFormatFor ext with
    | none => simp [loadVolumeFormat, hf]
    | some f =>
      simp only [loadVolumeFormat, hf, Bool.not_true, Bool.false_eq_true, if_false,
        reduceCtorEq, iff_false]
      split
      · intro h
        have h2 := congrArg (fun q => q.2.log.getLast?) h
        simp at h2
      · intro h
        simp at h
  · rw [← not_iff_not, Bool.not_eq_false, saveFormatFor_fallback_iff]
  · rw [← saveFormatFor_fallback_iff]
    cases hsel : (saveFormatFor ext).2 <;> simp [saveVolumeFormat, hsel]

/-- C6: `loadVolumeFormat` fails as logged. A missing file and an unsupported extension give
false and leave `newVolumes` (and the deleted pointers) untouched; a supported extension whose
loader reports failure gives false, with every volume the list held at that point deleted and
the list empty; and the result is true exactly when the file exists, the extension is supported
and `newVolumes` is non-empty after the load attempt. -/
theorem loadVolumeFormat_failure_modes (fm : Formats) (file : File) (st : LoadState) :
    (file.fileExists = false →
        (loadVolumeFormat fm file st).1 = false
        ∧ (loadVolumeFormat fm file st).2.newVolumes = st.newVolumes
        ∧ (loadVolumeFormat fm file st).2.deleted = st.deleted)
    ∧ (loadFormatFor file.extension = none →
        (loadVolumeFormat fm file st).1 = false
        ∧ (loadVolumeFormat fm file st).2.newVolumes = st.newVolumes
        ∧ (loadVolumeFormat fm file st).2.deleted = st.deleted)
    ∧ (∀ f, file.fileExists = true → loadFormatFor file.extension = some f →
        (fm.loadGroups f file st.newVolumes).1 = false →
        (loadVolumeFormat fm file st).1 = false
        ∧ (loadVolumeFormat fm file st).2.newVolumes.volumes = []
        ∧ (loadVolumeFormat fm file st).2.deleted
            = st.deleted ++ (fm.loadGroups f file st.newVolumes).2.volumes.map VoxelVolume.volume)
    ∧ ((loadVolumeFormat fm file st).1 = true ↔
        (file.fileExists = true ∧ loadFormatFor file.extension ≠ none
          ∧ (loadVolumeFormat fm file st).2.newVolumes.volumes ≠ [])) := by
  refine ⟨?_, ?_, ?_, ?_⟩
  · intro h
    simp [loadVolumeFormat, h]
  · intro h
    cases he : file.fileExists <;> simp [loadVolumeFormat, h, he]
  · intro f he hf hfail
    simp [loadVolumeFormat, he, hf, loadWith, hfail, clearVolumes]
  · cases he : file.fileExists
    · simp [loadVolumeFormat, he]
    · cases hf : loadFormatFor file.extension with
      | none => simp [loadVolumeFormat, he, hf]
      | some f =>
        simp only [loadVolumeFormat, he, hf, Bool.not_true, Bool.false_eq_true, if_false]
        split
        · rename_i hempty
          simp only [List.isEmpty_iff] at hempty
          simp [hempty]
        · rename_i hempty
          simp only [List.isEmpty_iff] at hempty
          simp [hempty]

/-- C6 at a concrete input: the vox loader adds a volume to a list that holds one and reports
failure; both volumes are deleted, the list is empty and the result is false. -/
theorem loadVolumeFormat_failure_modes_witness :
    (loadVolumeFormat failingFormats voxFile oneVolumeState).1 = false
    ∧ (loadVolumeFormat failingFormats voxFile oneVolumeState).2.newVolumes.volumes = []
    ∧ (loadVolumeFormat failingFormats voxFile oneVolumeState).2.deleted
        = oneVolumeState.deleted
          ++ (failingFormats.loadGroups Format.Vox voxFile
                oneVolumeState.newVolumes).2.volumes.map VoxelVolume.volume :=
  (loadVolumeFormat_failure_modes failingFormats voxFile oneVolumeState).2.2.1
    Format.Vox (by decide) (by decide) (by decide)

/-- C7: with no volumes `saveVolumeFormat` returns false and runs no writer; otherwise it runs
exactly one writer and returns what its `saveGroups` returns. The writer is the one of the
extension for qbt, vox, qb, cub, vxl and binvox, and the vox writer for every other
extension. -/
theorem saveVolumeFormat_result (fm : Formats) (file : File) (volumes : VoxelVolumes) :
    (volumes.volumes = [] →
        (saveVolumeFormat fm file volumes).ret = false
        ∧ (saveVolumeFormat fm file volumes).writers = [])
    ∧ (volumes.volumes ≠ [] →
        (saveVolumeFormat fm file volumes).ret
            = fm.saveGroups (saveFormatFor file.extension).1 volumes file
        ∧ (saveVolumeFormat fm file volumes).writers = [(saveFormatFor file.extension).1])
    ∧ (saveFormatFor "qbt").1 = Format.QBT ∧ (saveFormatFor "vox").1 = Format.Vox
    ∧ (saveFormatFor "qb").1 = Format.QB ∧ (saveFormatFor "cub").1 = Format.Cub
    ∧ (saveFormatFor "vxl").1 = Format.VXL ∧ (saveFormatFor "binvox").1 = Format.BinVox
    ∧ (file.extension ∉ ["qbt", "vox", "qb", "cub", "vxl", "binvox"] →
        (saveFormatFor file.extension).1 = Format.Vox) := by
  refine ⟨?_, ?_, by decide, by decide, by decide, by decide, by decide, by decide, ?_⟩
  · intro h
    simp [saveVolumeFormat, h]
  · intro h
    simp [saveVolumeFormat, h]
  · intro h
    simp only [List.mem_cons, List.mem_singleton, List.not_mem_nil, not_or, or_false] at h
    simp [saveFormatFor, h]

/-- C7 at a concrete input: a file with the extension `kvx`, which has no writer, is saved with
the vox writer and the result is that writer's result. -/
theorem saveVolumeFormat_result_witness :
    (saveVolumeFormat failingFormats
        { fileExists := true, name := "model.kvx", extension := "kvx" }
        { volumes := [{ volume := 3 }] }).ret = true
    ∧ (saveVolumeFormat failingFormats
        { fileExists := true, name := "model.kvx", extension := "kvx" }
        { volumes := [{ volume := 3 }] }).writers = [Format.Vox] :=
  ⟨by decide,
    ((saveVolumeFormat_result failingFormats
        { fileExists := true, name := "model.kvx", extension := "kvx" }
        { volumes := [{ volume := 3 }] }).2.1 (by decide)).2.trans
      (congrArg (fun f => [f])
        ((saveVolumeFormat_result failingFormats
          { fileExists := true, name := "model.kvx", extension := "kvx" }
          { volumes := [{ volume := 3 }] }).2.2.2.2.2.2.2.2 (by decide)))⟩

end voxelformat

/-! ## GBuffer -/

namespace video

theorem bindTextureLoop_snd (i : Nat) (ts : List Nat) :
    (bindTextureLoop i ts).2 = ts.all (fun t => t != 0) := by
  induction ts generalizing i with
  | nil => rfl
  | cons t ts ih =>
    by_cases h : t = 0
    · simp [bindTextureLoop, h]
    · simp [bindTextureLoop, h, ih]

theorem bindForReading_after (binding : Int) (g : GBuffer) :
    ((GBuffer.bindForReading binding false g).after).isSome = g.texturesBound := by
  have h := bindTextureLoop_snd 0 g._textures
  unfold GBuffer.bindForReading GBuffer.texturesBound
  cases hl : (bindTextureLoop 0 g._textures).2
  · rw [hl] at h
    simp [hl, ← h]
  · rw [hl] at h
    simp [hl, ← h]

theorem init_after (reply : InitReply) (width height : Int) (g : GBuffer) :
    (GBuffer.init reply width height g).2.after
      = some { g with
          _fbo := reply.fbo
          _textures := [reply.texture 0, reply.texture 1, reply.texture 2]
          _depthTexture := reply.texture 3 } := by
  unfold GBuffer.init
  split <;> rfl

theorem init_texturesBound (reply : InitReply) (width height : Int) (g g1 : GBuffer)
    (hnz : reply.texturesNonZero = true)
    (h : (GBuffer.init reply width height g).2.after = some g1) :
    g1.texturesBound = true ∧ g1._textures.length = GBUFFER_NUM_TEXTURES := by
  rw [init_after] at h
  cases h
  have h4 : List.range (GBUFFER_NUM_TEXTURES + 1) = [0, 1, 2, 3] := by decide
  simp only [InitReply.texturesNonZero, h4, List.all_cons, List.all_nil, Bool.and_true,
    Bool.and_eq_true, bne_iff_ne, ne_eq] at hnz
  simp [GBuffer.texturesBound, hnz, GBUFFER_NUM_TEXTURES]

theorem bindForWriting_textures (binding : Int) (g g1 : GBuffer)
    (h : (GBuffer.bindForWriting binding g).after = some g1) : g1._textures = g._textures := by
  unfold GBuffer.bindForWriting at h
  simp only [Option.some.injEq] at h
  subst h
  split <;> rfl

theorem bindForReading_textures (binding : Int) (gbuffer : Bool) (g g1 : GBuffer)
    (h : (GBuffer.bindForReading binding gbuffer g).after = some g1) :
    g1._textures = g._textures := by
  cases gbuffer with
  | true =>
    simp only [GBuffer.bindForReading, if_true, Option.some.injEq] at h
    subst h
    split <;> rfl
  | false =>
    cases hl : (bindTextureLoop 0 g._textures).2 with
    | false => simp [GBuffer.bindForReading, hl] at h
    | true =>
      simp only [GBuffer.bindForReading, hl, if_true, Bool.false_eq_true, if_false,
        Option.some.injEq] at h
      subst h
      split <;> rfl

theorem unbind_textures (g g1 : GBuffer) (h : (GBuffer.unbind g).after = some g1) :
    g1._textures = g._textures := by
  unfold GBuffer.unbind at h
  simp only [Option.some.injEq] at h
  subst h
  rfl

theorem shutdown_textures (g g1 : GBuffer) (hu : g.texturesUniform = true)
    (h : (GBuffer.shutdown g).after = some g1) :
    g1._textures = List.replicate GBUFFER_NUM_TEXTURES 0 := by
  have hsome : ∀ x : GBuffer,
      (if g._oldDrawFramebuffer = -1 ∧ g._oldReadFramebuffer = -1 then some x else none)
        = some g1 → x = g1 := by
    intro x hx
    split at hx
    · exact Option.some.inj hx
    · simp at hx
  have hg := hsome _ h
  subst hg
  simp only [GBuffer.texturesUniform, GBUFFER_NUM_TEXTURES, Bool.and_eq_true, beq_iff_eq,
    Bool.or_eq_true, List.all_eq_true, bne_iff_ne, ne_eq] at hu
  obtain ⟨hlen, hall⟩ := hu
  match hts : g._textures, hlen with
  | [a, b, c], _ =>
    rw [hts] at hall
    by_cases ha : a = 0
    · rcases hall with h0 | h1
      · have hb := h0 b (by simp)
        have hc := h0 c (by simp)
        simp [hts, ha, hb, hc, GBUFFER_NUM_TEXTURES]
      · exact absurd ha (h1 a (by simp))
    · simp [hts, ha, GBUFFER_NUM_TEXTURES]

/-- With non-zero texture names and no `shutdown`, a run from a state with bound textures never
hits an assertion and ends with bound textures. -/
theorem runOps_texturesBound (ops : List Op) (g : GBuffer) (hb : g.texturesBound = true)
    (hw : opsWellBehaved ops = true) (hn : noShutdown ops = true) :
    ∃ g1, runOps ops g = some g1 ∧ g1.texturesBound = true := by
  induction ops generalizing g with
  | nil => exact ⟨g, rfl, hb⟩
  | cons op ops ih =>
    cases op with
    | init reply width height =>
      simp only [opsWellBehaved, Bool.and_eq_true] at hw
      simp only [noShutdown] at hn
      have hafter := init_after reply width height g
      have hb1 := (init_texturesBound reply width height g _ hw.1 hafter).1
      obtain ⟨g2, h2, h3⟩ := ih _ hb1 hw.2 hn
      exact ⟨g2, by simp only [runOps, Op.run, hafter]; exact h2, h3⟩
    | bindForWriting binding =>
      simp only [opsWellBehaved] at hw
      simp only [noShutdown] at hn
      cases hafter : (GBuffer.bindForWriting binding g).after with
      | none => simp [GBuffer.bindForWriting] at hafter
      | some g1 =>
        have ht := bindForWriting_textures binding g g1 hafter
        have hb1 : g1.texturesBound = true := by
          simpa [GBuffer.texturesBound, ht] using hb
        obtain ⟨g2, h2, h3⟩ := ih g1 hb1 hw hn
        exact ⟨g2, by simp only [runOps, Op.run, hafter]; exact h2, h3⟩
    | bindForReading binding gbuffer =>
      simp only [opsWellBehaved] at hw
      simp only [noShutdown] at hn
      cases hafter : (GBuffer.bindForReading binding gbuffer g).after with
      | none =>
        cases gbuffer with
        | true => simp [GBuffer.bindForReading] at hafter
        | false =>
          have h := bindForReading_after binding g
          rw [hafter, hb] at h
          simp at h
      | some g1 =>
        have ht := bindForReading_textures binding gbuffer g g1 hafter
        have hb1 : g1.texturesBound = true := by
          simpa [GBuffer.texturesBound, ht] using hb
        obtain ⟨g2, h2, h3⟩ := ih g1 hb1 hw hn
        exact ⟨g2, by simp only [runOps, Op.run, hafter]; exact h2, h3⟩
    | unbind =>
      simp only [opsWellBehaved] at hw
      simp only [noShutdown] at hn
      cases hafter : (GBuffer.unbind g).after with
      | none => simp [GBuffer.unbind] at hafter
      | some g1 =>
        have ht := unbind_textures g g1 hafter
        have hb1 : g1.texturesBound = true := by
          simpa [GBuffer.texturesBound, ht] using hb
        obtain ⟨g2, h2, h3⟩ := ih g1 hb1 hw hn
        exact ⟨g2, by simp only [runOps, Op.run, hafter]; exact h2, h3⟩
    | setReadBuffer textureType =>
      simp only [opsWellBehaved] at hw
      simp only [noShutdown] at hn
      obtain ⟨g2, h2, h3⟩ := ih g hb hw hn
      exact ⟨g2, by simp only [runOps, Op.run, GBuffer.setReadBuffer]; exact h2, h3⟩
    | shutdown => simp [noShutdown] at hn

/-- With non-zero texture names, every run keeps the colour texture handles uniform. -/
theorem runOps_texturesUniform (ops : List Op) (g g1 : GBuffer)
    (hu : g.texturesUniform = true) (hw : opsWellBehaved ops = true)
    (hrun : runOps ops g = some g1) : g1.texturesUniform = true := by
  induction ops generalizing g with
  | nil =>
    simp only [runOps, Option.some.injEq] at hrun
    subst hrun
    exact hu
  | cons op ops ih =>
    simp only [runOps] at hrun
    cases hafter : (op.run g).after with
    | none => simp [hafter] at hrun
    | some g2 =>
      simp only [hafter] at hrun
      have hw2 : opsWellBehaved ops = true := by
        cases op <;> simp_all [opsWellBehaved]
      refine ih g2 ?_ hw2 hrun
      cases op with
      | init reply width height =>
        simp only [opsWellBehaved, Bool.and_eq_true] at hw
        have h := init_texturesBound reply width height g g2 hw.1 hafter
        simp only [GBuffer.texturesBound] at h
        simp [GBuffer.texturesUniform, h.1, h.2]
      | bindForWriting binding =>
        have ht := bindForWriting_textures binding g g2 hafter
        simpa [GBuffer.texturesUniform, ht] using hu
      | bindForReading binding gbuffer =>
        have ht := bindForReading_textures binding gbuffer g g2 hafter
        simpa [GBuffer.texturesUniform, ht] using hu
      | unbind =>
        have ht := unbind_textures g g2 hafter
        simpa [GBuffer.texturesUniform, ht] using hu
      | setReadBuffer textureType =>
        simp only [Op.run, GBuffer.setReadBuffer, Option.some.injEq] at hafter
        subst hafter
        exact hu
      | shutdown =>
        have ht := shutdown_textures g g2 hu hafter
        simp [GBuffer.texturesUniform, ht, GBUFFER_NUM_TEXTURES]

/-- C8: for every dimension and every driver reply, `GBuffer::init` returns true exactly when
`glCheckFramebufferStatus` yields `GL_FRAMEBUFFER_COMPLETE`, and false otherwise; the status
is queried once, after the three colour attachments and the depth attachment were made. -/
theorem init_reports_framebuffer_status (reply : InitReply) (width height : Int) (g : GBuffer) :
    ((GBuffer.init reply width height g).1 = true ↔ reply.status = GL_FRAMEBUFFER_COMPLETE)
    ∧ ((GBuffer.init reply width height g).1 = false ↔ reply.status ≠ GL_FRAMEBUFFER_COMPLETE)
    ∧ ∃ pre, (GBuffer.init reply width height g).2.calls
          = pre ++ [GLCall.checkFramebufferStatus, GLCall.scopedRelease]
        ∧ GLCall.framebufferTexture2D GL_COLOR_ATTACHMENT0 (reply.texture 0) ∈ pre
        ∧ GLCall.framebufferTexture2D (GL_COLOR_ATTACHMENT0 + 1) (reply.texture 1) ∈ pre
        ∧ GLCall.framebufferTexture2D (GL_COLOR_ATTACHMENT0 + 2) (reply.texture 2) ∈ pre
        ∧ GLCall.framebufferTexture2D GL_DEPTH_ATTACHMENT (reply.texture 3) ∈ pre
        ∧ GLCall.checkFramebufferStatus ∉ pre := by
  have hr : List.range GBUFFER_NUM_TEXTURES = [0, 1, 2] := by decide
  by_cases hs : reply.status = GL_FRAMEBUFFER_COMPLETE
  · refine ⟨by simp [GBuffer.init, hs], by simp [GBuffer.init, hs], ?_⟩
    refine ⟨[GLCall.genFramebuffers 1, GLCall.scopedBind reply.fbo,
        GLCall.genTextures (GBUFFER_NUM_TEXTURES + 1)]
      ++ initTextureCalls width height 0 (reply.texture 0)
      ++ initTextureCalls width height 1 (reply.texture 1)
      ++ initTextureCalls width height 2 (reply.texture 2)
      ++ [GLCall.bindTexture (reply.texture 3), GLCall.texImage2D true width height,
          GLCall.framebufferTexture2D GL_DEPTH_ATTACHMENT (reply.texture 3),
          GLCall.drawBuffers GBUFFER_NUM_TEXTURES], ?_, ?_⟩
    · simp [GBuffer.init, hs, hr, List.enum, List.enumFrom, GBUFFER_NUM_TEXTURES]
    · simp [initTextureCalls]
  · refine ⟨by simp [GBuffer.init, hs], by simp [GBuffer.init, hs], ?_⟩
    refine ⟨[GLCall.genFramebuffers 1, GLCall.scopedBind reply.fbo,
        GLCall.genTextures (GBUFFER_NUM_TEXTURES + 1)]
      ++ initTextureCalls width height 0 (reply.texture 0)
      ++ initTextureCalls width height 1 (reply.texture 1)
      ++ initTextureCalls width height 2 (reply.texture 2)
      ++ [GLCall.bindTexture (reply.texture 3), GLCall.texImage2D true width height,
          GLCall.framebufferTexture2D GL_DEPTH_ATTACHMENT (reply.texture 3),
          GLCall.drawBuffers GBUFFER_NUM_TEXTURES], ?_, ?_⟩
    · simp [GBuffer.init, hs, hr, List.enum, List.enumFrom, GBUFFER_NUM_TEXTURES]
    · simp [initTextureCalls]

/-- C10: `bindForReading(false)` passes its assertions exactly when every colour texture handle
is non-zero. That is the case after `init` (texture names from GL being non-zero) followed by
any calls other than `shutdown`, from any state; it is not the case for the freshly constructed
object nor after `shutdown` on an object reached from construction, whose colour texture
handles are all 0. -/
theorem bindForReading_assertion (g : GBuffer) (binding : Int) :
    (((GBuffer.bindForReading binding false g).after).isSome = g.texturesBound)
    ∧ (∀ reply width height ops, reply.texturesNonZero = true → opsWellBehaved ops = true →
        noShutdown ops = true →
        ∃ g1, runOps (Op.init reply width height :: ops) g = some g1
          ∧ g1.texturesBound = true
          ∧ (GBuffer.bindForReading binding false g1).after ≠ none)
    ∧ (GBuffer.construct._textures = [0, 0, 0]
        ∧ (GBuffer.bindForReading binding false GBuffer.construct).after = none)
    ∧ (∀ ops g1 g2, opsWellBehaved ops = true → runOps ops GBuffer.construct = some g1 →
        (GBuffer.shutdown g1).after = some g2 →
        g2._textures = [0, 0, 0]
          ∧ (GBuffer.bindForReading binding false g2).after = none) := by
  have hfail : ∀ x : GBuffer, x._textures = [0, 0, 0] →
      (GBuffer.bindForReading binding false x).after = none := by
    intro x hx
    have h := bindForReading_after binding x
    have hb : x.texturesBound = false := by simp [GBuffer.texturesBound, hx]
    rw [hb] at h
    cases hafter : (GBuffer.bindForReading binding false x).after with
    | none => rfl
    | some y => rw [hafter] at h; simp at h
  refine ⟨bindForReading_after binding g, ?_, ⟨rfl, hfail _ rfl⟩, ?_⟩
  · intro reply width height ops hnz hw hn
    have hw2 : opsWellBehaved (Op.init reply width height :: ops) = true := by
      simp [opsWellBehaved, hnz, hw]
    have hafter := init_after reply width height g
    have hb1 := (init_texturesBound reply width height g _ hnz hafter).1
    obtain ⟨g1, h1, h2⟩ := runOps_texturesBound ops _ hb1 hw hn
    refine ⟨g1, by simp only [runOps, Op.run, hafter]; exact h1, h2, ?_⟩
    have h := bindForReading_after binding g1
    rw [h2] at h
    intro hnone
    rw [hnone] at h
    simp at h
  · intro ops g1 g2 hw hrun hsd
    have hu := runOps_texturesUniform ops GBuffer.construct g1 (by decide) hw hrun
    have ht := shutdown_textures g1 g2 hu hsd
    have ht2 : g2._textures = [0, 0, 0] := by simpa [GBUFFER_NUM_TEXTURES] using ht
    exact ⟨ht2, hfail g2 ht2⟩

/-- C10 at a concrete run: `init` on the fresh object with texture names 2, 3, 4 and an
incomplete framebuffer, then `bindForWriting` and `unbind`; the textures are bound and
`bindForReading(false)` passes its assertions. -/
theorem bindForReading_assertion_witness :
    ∃ g1, runOps (Op.init (sampleReply 0) 800 600 :: [Op.bindForWriting 0, Op.unbind])
          GBuffer.construct = some g1
      ∧ g1.texturesBound = true
      ∧ (GBuffer.bindForReading 0 false g1).after ≠ none :=
  (bindForReading_assertion GBuffer.construct 0).2.1 (sampleReply 0) 800 600
    [Op.bindForWriting 0, Op.unbind] (by decide) (by decide) (by decide)

/-- C11: for every state reached from construction by member function calls (texture names
from GL being non-zero) in which no bind is pending, `shutdown()` passes its assertions and
leaves the freshly constructed state: `_fbo`, every `_textures[i]` and `_depthTexture` are 0.
On that state the destructor's assertion `_fbo == 0` holds, and a further `shutdown()` (also the
one of the destructor) issues no GL call and changes nothing. -/
theorem shutdown_restores_constructed_state (ops : List Op) (g : GBuffer)
    (hw : opsWellBehaved ops = true) (hrun : runOps ops GBuffer.construct = some g)
    (hnb : g.noBindPending = true) :
    (GBuffer.shutdown g).after = some GBuffer.construct
    ∧ GBuffer.construct._fbo = 0
    ∧ GBuffer.construct._textures = [0, 0, 0]
    ∧ GBuffer.construct._depthTexture = 0
    ∧ GBuffer.shutdown GBuffer.construct = { calls := [], after := some GBuffer.construct }
    ∧ GBuffer.destruct GBuffer.construct = { calls := [], after := some GBuffer.construct } := by
  refine ⟨?_, rfl, rfl, rfl, by decide, by decide⟩
  have hu := runOps_texturesUniform ops GBuffer.construct g (by decide) hw hrun
  simp only [GBuffer.noBindPending, Bool.and_eq_true, beq_iff_eq] at hnb
  have hsome : (GBuffer.shutdown g).after
      = some { g with
          _fbo := 0
          _textures := if g._textures.getD 0 0 ≠ 0 then g._textures.map (fun _ => 0)
            else g._textures
          _depthTexture := 0 } := by
    simp [GBuffer.shutdown, hnb.1, hnb.2]
  have ht := shutdown_textures g _ hu hsome
  rw [hsome]
  simp only [] at ht
  rw [ht, hnb.1, hnb.2]
  rfl

/-- C11 at a concrete run: `init`, `bindForWriting`, `unbind` on the fresh object; no bind is
pending and `shutdown()` gives back the constructed state. -/
theorem shutdown_restores_constructed_state_witness :
    runOps [Op.init (sampleReply 36053) 800 600, Op.bindForWriting 0, Op.unbind]
        GBuffer.construct = some initialisedGBuffer
    ∧ (GBuffer.shutdown initialisedGBuffer).after = some GBuffer.construct :=
  ⟨by decide,
    (shutdown_restores_constructed_state
      [Op.init (sampleReply 36053) 800 600, Op.bindForWriting 0, Op.unbind]
      initialisedGBuffer (by decide) (by decide) (by decide)).1⟩

end video

/-! ## TestCamera -/

namespace testcamera

/-- C9: when `_colorShader.setup()` fails, `TestCamera::onInit` returns
`core::AppState::Cleanup` whatever `Super::onInit` returned, and only `Super::onInit` and the
shader setup ran: the render camera is not configured, no frustum buffer is created and no
shader attribute is added. -/
theorem onInit_shader_failure_is_fatal {AppState : Type} (Cleanup superState : AppState) :
    (onInit Cleanup superState false).1 = Cleanup
    ∧ (onInit Cleanup superState false).2 = [InitStep.superOnInit, InitStep.colorShaderSetup]
    ∧ InitStep.renderCameraConfigure ∉ (onInit Cleanup superState false).2
    ∧ (∀ slot, InitStep.frustumBufferCreate slot ∉ (onInit Cleanup superState false).2)
    ∧ (∀ slot, InitStep.frustumBufferAddAttribute slot ∉ (onInit Cleanup superState false).2) := by
  simp [onInit]

end testcamera

/-! ## SQL statements: placeholders and bind parameters -/

namespace persistence

theorem placeholders_append (a b : List Chunk) :
    placeholders (a ++ b) = placeholders a ++ placeholders b := by
  induction a with
  | nil => rfl
  | cons c cs ih => cases c <;> simp [placeholders, ih]

theorem numbered_append (i : Int) (a b : List Field) :
    numbered i (a ++ b) = numbered i a ++ numbered (i + a.length) b := by
  induction a generalizing i with
  | nil => simp [numbered]
  | cons f fs ih =>
    have h : i + 1 + (fs.length : Int) = i + ((fs.length + 1 : Nat) : Int) := by
      push_cast
      ring
    show (i, f) :: numbered (i + 1) (fs ++ b)
      = (i, f) :: numbered (i + 1) fs ++ numbered (i + ((fs.length + 1 : Nat) : Int)) b
    rw [ih, h, List.cons_append]

theorem numbered_fst (i : Int) (fs : List Field) :
    (numbered i fs).map Prod.fst
      = (List.range fs.length).map (fun (n : Nat) => i + (n : Int)) := by
  induction fs generalizing i with
  | nil => rfl
  | cons f fs ih =>
    simp only [numbered, List.map_cons, List.length_cons, List.range_succ_eq_map, ih,
      List.map_map]
    refine congrArg₂ _ (by simp) (List.map_congr_left fun n _ => ?_)
    simp only [Function.comp, Nat.succ_eq_add_one, Nat.cast_add, Nat.cast_one]
    ring

theorem numbered_snd (i : Int) (fs : List Field) : (numbered i fs).map Prod.snd = fs := by
  induction fs generalizing i with
  | nil => rfl
  | cons f fs ih => simp [numbered, ih]

theorem Advances.refl (st : Statement) (i : Int) : Advances st i st i [] := by
  refine ⟨by simp [numbered], ?_, by simp⟩
  cases st.params <;> simp

theorem Advances.trans {st st1 st2 : Statement} {i i1 i2 : Int} {fs gs : List Field}
    (h1 : Advances st i st1 i1 fs) (h2 : Advances st1 i1 st2 i2 gs) :
    Advances st i st2 i2 (fs ++ gs) := by
  obtain ⟨a1, b1, c1⟩ := h1
  obtain ⟨a2, b2, c2⟩ := h2
  refine ⟨?_, ?_, ?_⟩
  · rw [a2, a1, numbered_append, c1, List.append_assoc]
  · rw [b2, b1]
    cases st.params <;> simp
  · rw [c2, c1, List.length_append, Nat.cast_add]
    ring

/-- Writing literal text adds no placeholder and pushes nothing. -/
theorem Advances.write (st : Statement) (i : Int) (texts : List String) :
    Advances st i (st.write (texts.map Chunk.text)) i [] := by
  refine ⟨?_, ?_, by simp⟩
  · have h : placeholders (texts.map Chunk.text) = [] := by
      induction texts with
      | nil => rfl
      | cons t ts ih => simpa [placeholders] using ih
    simp [Statement.write, placeholders_append, h, numbered]
  · simp only [Statement.write]
    cases st.params <;> simp

theorem placeholder_result (model : Model) (f : Field) (count : Int) :
    (placeholder model f count).result = takesIndex model f := by
  unfold placeholder takesIndex
  by_cases h1 : model.isNull f = true
  · simp [h1]
  · by_cases h2 : f.type = FieldType.TIMESTAMP
    · by_cases h3 : model.isNow f = true
      · simp [h1, h2, h3]
      · simp [h1, h2, h3]
    · simp [h1, h2]

theorem placeholder_written (model : Model) (f : Field) (count : Int) :
    placeholders (placeholder model f count).written
      = if takesIndex model f then [(count, f)] else [] := by
  unfold placeholder takesIndex
  by_cases h1 : model.isNull f = true
  · simp [h1, placeholders]
  · by_cases h2 : f.type = FieldType.TIMESTAMP
    · by_cases h3 : model.isNow f = true
      · simp [h1, h2, h3, placeholders]
      · simp [h1, h2, h3, placeholders]
    · simp [h1, h2, placeholders]

theorem placeAndBind_advances (model : Model) (f : Field) (st : Statement) (i : Int) :
    Advances st i (placeAndBind model f st i).1 (placeAndBind model f st i).2
      (if takesIndex model f then [f] else []) := by
  have hr := placeholder_result model f i
  have hw := placeholder_written model f i
  unfold placeAndBind
  by_cases ht : takesIndex model f = true
  · rw [ht] at hr
    simp only [ht, if_true] at hw
    simp only [hr, if_true, ht]
    refine ⟨?_, rfl, by simp⟩
    simp [placeholders_append, hw, numbered]
  · have ht2 : takesIndex model f = false := by simpa using ht
    rw [ht2] at hr
    simp only [ht2, Bool.false_eq_true, if_false] at hw
    simp only [hr, Bool.false_eq_true, if_false, ht2]
    refine ⟨?_, ?_, by simp⟩
    · simp [placeholders_append, hw, numbered]
    · cases st.params <;> simp

theorem filter_takes_cons (model : Model) (keep : Field → Bool) (f : Field) (fs : List Field)
    (hk : keep f = true) :
    ((f :: fs).filter keep).filter (takesIndex model)
      = (if takesIndex model f then [f] else []) ++ (fs.filter keep).filter (takesIndex model) := by
  by_cases ht : takesIndex model f = true <;> simp [List.filter_cons, hk, ht]

theorem filter_takes_skip (model : Model) (keep : Field → Bool) (f : Field) (fs : List Field)
    (hk : keep f = false) :
    ((f :: fs).filter keep).filter (takesIndex model)
      = (fs.filter keep).filter (takesIndex model) := by
  simp [List.filter_cons, hk]

theorem updateLoop_advances (model : Model) (fs : List Field) (st : Statement) (i c : Int) :
    Advances st i (updateLoop model fs st i c).1 (updateLoop model fs st i c).2
      ((fs.filter (fun f => model.isValid f && !f.isPrimaryKey)).filter (takesIndex model)) := by
  induction fs generalizing st i c with
  | nil => exact Advances.refl st i
  | cons f fs ih =>
    by_cases hv : model.isValid f = true
    · by_cases hp : f.isPrimaryKey = true
      · rw [filter_takes_skip model _ f fs (by simp [hv, hp])]
        simpa [updateLoop, hv, hp] using ih st i c
      · rw [filter_takes_cons model _ f fs (by simp [hv, hp])]
        have hstep : Advances st i
            (placeAndBind model f
              ((if c > 0 then st.write [Chunk.text ", "] else st).write
                [Chunk.text "\"", Chunk.text f.name, Chunk.text "\" = "]) i).1
            (placeAndBind model f
              ((if c > 0 then st.write [Chunk.text ", "] else st).write
                [Chunk.text "\"", Chunk.text f.name, Chunk.text "\" = "]) i).2
            (if takesIndex model f then [f] else []) := by
          have h1 : Advances st i (if c > 0 then st.write [Chunk.text ", "] else st) i [] := by
            split
            · exact Advances.write st i [", "]
            · exact Advances.refl st i
          have h2 := Advances.write (if c > 0 then st.write [Chunk.text ", "] else st) i
            ["\"", f.name, "\" = "]
          have h3 := placeAndBind_advances model f
            ((if c > 0 then st.write [Chunk.text ", "] else st).write
              [Chunk.text "\"", Chunk.text f.name, Chunk.text "\" = "]) i
          simpa using (h1.trans h2).trans h3
        have hrest := ih
          (placeAndBind model f
            ((if c > 0 then st.write [Chunk.text ", "] else st).write
              [Chunk.text "\"", Chunk.text f.name, Chunk.text "\" = "]) i).1
          (placeAndBind model f
            ((if c > 0 then st.write [Chunk.text ", "] else st).write
              [Chunk.text "\"", Chunk.text f.name, Chunk.text "\" = "]) i).2 (c + 1)
        simpa [updateLoop, hv, hp] using hstep.trans hrest
    · rw [filter_takes_skip model _ f fs (by simp [hv])]
      simpa [updateLoop, hv] using ih st i c

theorem whereLoop_advances (model : Model) (fs : List Field) (st : Statement) (i c : Int) :
    ∃ i1, Advances st i (whereLoop model fs st i c) i1
      ((fs.filter (fun f => model.isValid f && f.isPrimaryKey)).filter (takesIndex model)) := by
  induction fs generalizing st i c with
  | nil => exact ⟨i, Advances.refl st i⟩
  | cons f fs ih =>
    by_cases hv : model.isValid f = true
    · by_cases hp : f.isPrimaryKey = true
      · rw [filter_takes_cons model _ f fs (by simp [hv, hp])]
        have h1 := Advances.write st i [if c > 0 then " AND " else " WHERE "]
        have h2 := Advances.write
          (st.write [Chunk.text (if c > 0 then " AND " else " WHERE ")]) i ["\"", f.name, "\""]
        have h3 := Advances.write
          ((st.write [Chunk.text (if c > 0 then " AND " else " WHERE ")]).write
            [Chunk.text "\"", Chunk.text f.name, Chunk.text "\""]) i
          [if model.isNull f then " IS " else " = "]
        have h4 := placeAndBind_advances model f
          (((st.write [Chunk.text (if c > 0 then " AND " else " WHERE ")]).write
            [Chunk.text "\"", Chunk.text f.name, Chunk.text "\""]).write
            [Chunk.text (if model.isNull f then " IS " else " = ")]) i
        obtain ⟨i1, hrest⟩ := ih
          (placeAndBind model f
            (((st.write [Chunk.text (if c > 0 then " AND " else " WHERE ")]).write
              [Chunk.text "\"", Chunk.text f.name, Chunk.text "\""]).write
              [Chunk.text (if model.isNull f then " IS " else " = ")]) i).1
          (placeAndBind model f
            (((st.write [Chunk.text (if c > 0 then " AND " else " WHERE ")]).write
              [Chunk.text "\"", Chunk.text f.name, Chunk.text "\""]).write
              [Chunk.text (if model.isNull f then " IS " else " = ")]) i).2 (c + 1)
        refine ⟨i1, ?_⟩
        have hall := (((h1.trans h2).trans h3).trans h4).trans hrest
        simpa [whereLoop, hv, hp] using hall
      · rw [filter_takes_skip model _ f fs (by simp [hv, hp])]
        obtain ⟨i1, h⟩ := ih st i c
        exact ⟨i1, by simpa [whereLoop, hv, hp] using h⟩
    · rw [filter_takes_skip model _ f fs (by simp [hv])]
      obtain ⟨i1, h⟩ := ih st i c
      exact ⟨i1, by simpa [whereLoop, hv] using h⟩

/-- C15: in the statement built by `createUpdateStatement` the placeholders, read left to
right, are `$1, $2, ..., $k`, each once: first one for every valid non-primary-key field, in
field order (SET list), then one for every valid primary-key field (WHERE clause), leaving out
the fields that are null or hold a "now" timestamp. The parameters pushed are exactly the
fields these placeholders stand for, in the same order (none when `params` is null). A null
field is written as `NULL` and a "now" timestamp as `NOW()`, without a placeholder. -/
theorem createUpdateStatement_placeholders (model : Model) (params : Option (List Field)) :
    placeholders (createUpdateStatement model params).stmt
      = numbered 1 (boundFields model (fun f => model.isValid f && !f.isPrimaryKey)
          ++ boundFields model (fun f => model.isValid f && f.isPrimaryKey))
    ∧ (createUpdateStatement model params).params
      = params.map (fun ps => ps
          ++ (boundFields model (fun f => model.isValid f && !f.isPrimaryKey)
          ++ boundFields model (fun f => model.isValid f && f.isPrimaryKey)))
    ∧ (placeholders (createUpdateStatement model params).stmt).map Prod.fst
      = (List.range (boundFields model (fun f => model.isValid f && !f.isPrimaryKey)
          ++ boundFields model (fun f => model.isValid f && f.isPrimaryKey)).length).map
          (fun (n : Nat) => 1 + (n : Int))
    ∧ (∀ c f, (Chunk.bind c f).render = "$" ++ toString c)
    ∧ (∀ f count, model.isNull f = true →
        (placeholder model f count).written = [Chunk.text "NULL"]
        ∧ (placeholder model f count).result = false)
    ∧ (∀ f count, model.isNull f = false → f.type = FieldType.TIMESTAMP →
        model.isNow f = true →
        (placeholder model f count).written = [Chunk.text "NOW()"]
        ∧ (placeholder model f count).result = false) := by
  have hupd := updateLoop_advances model model.fields
    { stmt := [Chunk.text "UPDATE \"", Chunk.text model.schema, Chunk.text "\".\"",
               Chunk.text model.tableName, Chunk.text "\" SET "]
      params := params
      assertsHeld := true } 1 0
  obtain ⟨i1, hwh⟩ := whereLoop_advances model model.fields
    (updateLoop model model.fields
      { stmt := [Chunk.text "UPDATE \"", Chunk.text model.schema, Chunk.text "\".\"",
                 Chunk.text model.tableName, Chunk.text "\" SET "]
        params := params
        assertsHeld := true } 1 0).1
    (updateLoop model model.fields
      { stmt := [Chunk.text "UPDATE \"", Chunk.text model.schema, Chunk.text "\".\"",
                 Chunk.text model.tableName, Chunk.text "\" SET "]
        params := params
        assertsHeld := true } 1 0).2 0
  obtain ⟨h1, h2, _⟩ := hupd.trans hwh
  have hp : placeholders (createUpdateStatement model params).stmt
      = numbered 1 (boundFields model (fun f => model.isValid f && !f.isPrimaryKey)
          ++ boundFields model (fun f => model.isValid f && f.isPrimaryKey)) := by
    simpa [createUpdateStatement, createWhereStatementsForKeys, boundFields, placeholders]
      using h1
  refine ⟨hp, ?_, ?_, fun _ _ => rfl, ?_, ?_⟩
  · simpa [createUpdateStatement, createWhereStatementsForKeys, boundFields] using h2
  · rw [hp, numbered_fst]
  · intro f count hn
    simp [placeholder, hn]
  · intro f count hn ht hnow
    simp [placeholder, hn, ht, hnow]

/-- C15 on the user table: `name` gets `$1`, `created` is `NOW()`, `note` is `NULL`, the key
`id` gets `$2`; the parameters pushed are `name` and `id`. -/
theorem createUpdateStatement_placeholders_witness :
    render (createUpdateStatement userModel (some [])).stmt
      = "UPDATE \"public\".\"users\" SET \"name\" = $1, \"created\" = NOW(), \"note\" = NULL WHERE \"id\" = $2"
    ∧ ((createUpdateStatement userModel (some [])).params.map (fun ps => ps.map Field.name))
      = some ["name", "id"]
    ∧ (placeholder userModel (plainField "note" FieldType.TEXT) 3).written = [Chunk.text "NULL"]
    ∧ (placeholder userModel (plainField "note" FieldType.TEXT) 3).result = false :=
  ⟨by decide, by decide,
    (createUpdateStatement_placeholders userModel (some [])).2.2.2.2.1
      (plainField "note" FieldType.TEXT) 3 (by decide)⟩

theorem Advances.writeIf (p : Prop) [Decidable p] (st : Statement) (i : Int)
    (texts : List String) :
    Advances st i (if p then st.write (texts.map Chunk.text) else st) i [] := by
  split
  · exact Advances.write st i texts
  · exact Advances.refl st i

theorem conflictAssignment_advances (model : Model) (f : Field) (st : Statement) (i c : Int) :
    Advances st i (conflictAssignment model f st i c).1 (conflictAssignment model f st i c).2
      (if takesIndex model f then [f] else []) := by
  have h1 := Advances.writeIf (c > 0) st i [", "]
  have h2 := Advances.write (if c > 0 then st.write [Chunk.text ", "] else st) i
    ["\"", f.name, "\" = "]
  have h3 := Advances.writeIf (f.updateOperator ≠ Operator.SET)
    ((if c > 0 then st.write [Chunk.text ", "] else st).write
        [Chunk.text "\"", Chunk.text f.name, Chunk.text "\" = "]) i
    ["\"", model.schema, "\".\"", model.tableName, "\".\"", f.name, "\"",
     OperatorStrings f.updateOperator]
  have h4 := placeAndBind_advances model f
    (if f.updateOperator ≠ Operator.SET then
        ((if c > 0 then st.write [Chunk.text ", "] else st).write
          [Chunk.text "\"", Chunk.text f.name, Chunk.text "\" = "]).write
          [Chunk.text "\"", Chunk.text model.schema, Chunk.text "\".\"",
           Chunk.text model.tableName, Chunk.text "\".\"", Chunk.text f.name,
           Chunk.text "\"", Chunk.text (OperatorStrings f.updateOperator)]
       else
        (if c > 0 then st.write [Chunk.text ", "] else st).write
          [Chunk.text "\"", Chunk.text f.name, Chunk.text "\" = "]) i
  have hall := ((h1.trans h2).trans h3).trans h4
  simpa [conflictAssignment] using hall

theorem primaryKeyConflictLoop_advances (model : Model) (fs : List Field) (st : Statement)
    (i c : Int) :
    Advances st i (primaryKeyConflictLoop model fs st i c).1
      (primaryKeyConflictLoop model fs st i c).2
      ((fs.filter (fun f => model.isValid f && !(f.isPrimaryKey || f.isAutoincrement))).filter
        (takesIndex model)) := by
  induction fs generalizing st i c with
  | nil => exact Advances.refl st i
  | cons f fs ih =>
    by_cases hv : model.isValid f = true
    · by_cases hp : (f.isPrimaryKey || f.isAutoincrement) = true
      · rw [filter_takes_skip model _ f fs (by simp [hv, hp])]
        simpa [primaryKeyConflictLoop, hv, hp] using ih st i c
      · rw [filter_takes_cons model _ f fs (by simp [hv, hp])]
        have hstep := conflictAssignment_advances model f st i c
        have hrest := ih (conflictAssignment model f st i c).1
          (conflictAssignment model f st i c).2 (c + 1)
        simpa [primaryKeyConflictLoop, hv, hp] using hstep.trans hrest
    · rw [filter_takes_skip model _ f fs (by simp [hv])]
      simpa [primaryKeyConflictLoop, hv] using ih st i c

theorem uniqueKeyConflictLoop_advances (model : Model) (set : List String) (fs : List Field)
    (st : Statement) (i c : Int) :
    Advances st i (uniqueKeyConflictLoop model set fs st i c).1
      (uniqueKeyConflictLoop model set fs st i c).2
      ((fs.filter (fun f => !(f.isPrimaryKey || f.isAutoincrement)
          && !set.contains f.name)).filter (takesIndex model)) := by
  induction fs generalizing st i c with
  | nil => exact Advances.refl st i
  | cons f fs ih =>
    by_cases hp : (f.isPrimaryKey || f.isAutoincrement) = true
    · rw [filter_takes_skip model _ f fs (by simp [hp])]
      simpa [uniqueKeyConflictLoop, hp] using ih st i c
    · by_cases hs : f.name ∈ set
      · rw [filter_takes_skip model _ f fs (by simp [hs])]
        simpa [uniqueKeyConflictLoop, hp, hs] using ih st i c
      · rw [filter_takes_cons model _ f fs (by simpa [hs] using hp)]
        have hstep := conflictAssignment_advances model f st i c
        have hrest := ih (conflictAssignment model f st i c).1
          (conflictAssignment model f st i c).2 (c + 1)
        simpa [uniqueKeyConflictLoop, hp, hs] using hstep.trans hrest

theorem uniqueKeysConflictLoop_advances (model : Model) (sets : List (List String))
    (st : Statement) (i : Int) :
    Advances st i (uniqueKeysConflictLoop model sets st i).1
      (uniqueKeysConflictLoop model sets st i).2
      (sets.flatMap (fun set =>
        boundFields model
          (fun f => !(f.isPrimaryKey || f.isAutoincrement) && !set.contains f.name))) := by
  induction sets generalizing st i with
  | nil => exact Advances.refl st i
  | cons set sets ih =>
    have h1 := Advances.write st i
      [" ON CONFLICT (", join ", " (set.map quoted), ") DO UPDATE SET "]
    have h2 := uniqueKeyConflictLoop_advances model set model.fields
      (st.write [Chunk.text " ON CONFLICT (", Chunk.text (join ", " (set.map quoted)),
                 Chunk.text ") DO UPDATE SET "]) i 0
    have h3 := ih
      (uniqueKeyConflictLoop model set model.fields
        (st.write [Chunk.text " ON CONFLICT (", Chunk.text (join ", " (set.map quoted)),
                   Chunk.text ") DO UPDATE SET "]) i 0).1
      (uniqueKeyConflictLoop model set model.fields
        (st.write [Chunk.text " ON CONFLICT (", Chunk.text (join ", " (set.map quoted)),
                   Chunk.text ") DO UPDATE SET "]) i 0).2
    simpa [uniqueKeysConflictLoop, boundFields] using (h1.trans h2).trans h3

/-- The first loop of `createInsertStatement` writes placeholders to `values` only, and leaves
the name of the last valid primary-key field in `primaryKey`. -/
theorem insertColumnsLoop_advances (model : Model) (fs : List Field) (s : InsertState) :
    Advances s.values s.insertValueIndex (insertColumnsLoop model fs s).values
      (insertColumnsLoop model fs s).insertValueIndex
      ((fs.filter model.isValid).filter (takesIndex model))
    ∧ placeholders (insertColumnsLoop model fs s).insert = placeholders s.insert
    ∧ (insertColumnsLoop model fs s).primaryKey = lastPrimaryKey model fs s.primaryKey := by
  induction fs generalizing s with
  | nil => exact ⟨Advances.refl _ _, rfl, rfl⟩
  | cons f fs ih =>
    by_cases hv : model.isValid f = true
    · rw [filter_takes_cons model _ f fs hv]
      simp only [insertColumnsLoop, hv, Bool.not_true, Bool.false_eq_true, if_false]
      refine ⟨?_, ?_, ?_⟩
      · refine Advances.trans ?_ (ih _).1
        refine Advances.trans (?_ : Advances _ _ _ _ []) (placeAndBind_advances model f _ _)
        by_cases ha : f.isAutoincrement = true <;> by_cases hp : f.isPrimaryKey = true <;>
          by_cases hi : s.inserted > 0 <;>
          first
            | simpa [ha, hp, hi] using Advances.write s.values s.insertValueIndex [", "]
            | simpa [ha, hp, hi] using Advances.refl s.values s.insertValueIndex
      · rw [(ih _).2.1]
        by_cases ha : f.isAutoincrement = true <;> by_cases hp : f.isPrimaryKey = true <;>
          by_cases hi : s.inserted > 0 <;>
          simp [ha, hp, hi, placeholders_append, placeholders]
      · rw [(ih _).2.2]
        by_cases ha : f.isAutoincrement = true <;> by_cases hp : f.isPrimaryKey = true <;>
          by_cases hi : s.inserted > 0 <;>
          simp [ha, hp, hi, lastPrimaryKey, hv]
    · rw [filter_takes_skip model _ f fs (by simpa using hv)]
      simp only [insertColumnsLoop, hv, Bool.not_false, if_true]
      refine ⟨?_, ?_, ?_⟩
      · by_cases ha : f.isAutoincrement = true
        · simpa [ha] using (ih { s with autoincrement := f.name }).1
        · simpa [ha] using (ih s).1
      · by_cases ha : f.isAutoincrement = true
        · simpa [ha] using (ih { s with autoincrement := f.name }).2.1
        · simpa [ha] using (ih s).2.1
      · by_cases ha : f.isAutoincrement = true
        · simpa [ha, lastPrimaryKey, hv] using (ih { s with autoincrement := f.name }).2.2
        · simpa [ha, lastPrimaryKey, hv] using (ih s).2.2

/-- The statement of `createInsertStatement` advances from the empty statement with index 1
by exactly `insertBoundFields`. -/
theorem createInsertStatement_advances (model : Model) (params : Option (List Field)) :
    placeholders (createInsertStatement model params).stmt
      = numbered 1 (insertBoundFields model)
    ∧ (createInsertStatement model params).params
      = params.map (fun ps => ps ++ insertBoundFields model) := by
  obtain ⟨hval, hins, hpk⟩ := insertColumnsLoop_advances model model.fields
    { insert := [Chunk.text "INSERT INTO \"", Chunk.text model.schema, Chunk.text "\".\"",
                 Chunk.text model.tableName, Chunk.text "\" ("]
      values := { stmt := [], params := params, assertsHeld := true }
      autoincrement := ""
      primaryKey := ""
      insertValueIndex := 1
      inserted := 0 }
  obtain ⟨s, hs⟩ : ∃ s, insertColumnsLoop model model.fields
      { insert := [Chunk.text "INSERT INTO \"", Chunk.text model.schema, Chunk.text "\".\"",
                   Chunk.text model.tableName, Chunk.text "\" ("]
        values := { stmt := [], params := params, assertsHeld := true }
        autoincrement := ""
        primaryKey := ""
        insertValueIndex := 1
        inserted := 0 } = s := ⟨_, rfl⟩
  rw [hs] at hval hins hpk
  simp only at hval hins hpk
  -- the statement after `insert << ") VALUES (" << values.str() << ")"`
  have h1 : Advances { stmt := [], params := params, assertsHeld := true } 1
      { s.values with
        stmt := s.insert ++ [Chunk.text ") VALUES ("] ++ s.values.stmt ++ [Chunk.text ")"] }
      s.insertValueIndex ((model.fields.filter model.isValid).filter (takesIndex model)) := by
    obtain ⟨a, b, c⟩ := hval
    refine ⟨?_, b, c⟩
    simp only [placeholders_append, hins, a]
    simp [placeholders]
  -- the primary-key conflict clause
  have h2 : Advances
      { s.values with
        stmt := s.insert ++ [Chunk.text ") VALUES ("] ++ s.values.stmt ++ [Chunk.text ")"] }
      s.insertValueIndex
      (if model.primaryKeys = 1 ∧ s.primaryKey ≠ "" then
        primaryKeyConflictLoop model model.fields
          (Statement.write
            { s.values with
              stmt := s.insert ++ [Chunk.text ") VALUES ("] ++ s.values.stmt
                ++ [Chunk.text ")"] }
            [Chunk.text " ON CONFLICT (\"", Chunk.text s.primaryKey,
             Chunk.text "\") DO UPDATE SET "])
          s.insertValueIndex 0
       else
        ({ s.values with
            stmt := s.insert ++ [Chunk.text ") VALUES ("] ++ s.values.stmt
              ++ [Chunk.text ")"] }, s.insertValueIndex)).1
      (if model.primaryKeys = 1 ∧ s.primaryKey ≠ "" then
        primaryKeyConflictLoop model model.fields
          (Statement.write
            { s.values with
              stmt := s.insert ++ [Chunk.text ") VALUES ("] ++ s.values.stmt
                ++ [Chunk.text ")"] }
            [Chunk.text " ON CONFLICT (\"", Chunk.text s.primaryKey,
             Chunk.text "\") DO UPDATE SET "])
          s.insertValueIndex 0
       else
        ({ s.values with
            stmt := s.insert ++ [Chunk.text ") VALUES ("] ++ s.values.stmt
              ++ [Chunk.text ")"] }, s.insertValueIndex)).2
      (if model.primaryKeys = 1 ∧ lastPrimaryKey model model.fields "" ≠ "" then
          boundFields model
            (fun f => model.isValid f && !(f.isPrimaryKey || f.isAutoincrement))
        else []) := by
    rw [← hpk]
    split
    · have hw := Advances.write
        { s.values with
          stmt := s.insert ++ [Chunk.text ") VALUES ("] ++ s.values.stmt ++ [Chunk.text ")"] }
        s.insertValueIndex [" ON CONFLICT (\"", s.primaryKey, "\") DO UPDATE SET "]
      exact hw.trans (primaryKeyConflictLoop_advances model model.fields _ _ 0)
    · exact Advances.refl _ _
  have h3 := uniqueKeysConflictLoop_advances model model.uniqueKeys _ _ |> (h1.trans h2).trans
  have h4 := h3.trans (Advances.writeIf (s.autoincrement ≠ "") _ _
    [" RETURNING \"", s.autoincrement, "\""])
  have h5 := h4.trans (Advances.write _ _ [";"])
  obtain ⟨a, b, _⟩ := h5
  refine ⟨?_, ?_⟩
  · simpa [createInsertStatement, hs, insertBoundFields, boundFields, placeholders] using a
  · simpa [createInsertStatement, hs, insertBoundFields, boundFields] using b

/-- C16: in the statement built by `createInsertStatement` the placeholders of the VALUES list,
of the primary-key conflict clause and of the unique-key conflict clauses share one numbering:
read left to right they are `$1, ..., $k`, each once, standing for the fields of
`insertBoundFields` in this order (a field is listed once per appearance), and the parameters
pushed are exactly these fields in the same order (none when `params` is null). -/
theorem createInsertStatement_placeholders (model : Model) (params : Option (List Field)) :
    placeholders (createInsertStatement model params).stmt
      = numbered 1 (insertBoundFields model)
    ∧ (placeholders (createInsertStatement model params).stmt).map Prod.fst
      = (List.range (insertBoundFields model).length).map (fun (n : Nat) => 1 + (n : Int))
    ∧ (placeholders (createInsertStatement model params).stmt).map Prod.snd
      = insertBoundFields model
    ∧ (createInsertStatement model params).params
      = params.map (fun ps => ps ++ insertBoundFields model)
    ∧ (∀ c f, (Chunk.bind c f).render = "$" ++ toString c) := by
  obtain ⟨h1, h2⟩ := createInsertStatement_advances model params
  refine ⟨h1, ?_, ?_, h2, fun _ _ => rfl⟩
  · rw [h1, numbered_fst]
  · rw [h1, numbered_snd]

/-- C20, the code at the failing input: for the account table, whose field `nickname` is not
valid, the unique-key conflict clause of `createInsertStatement` assigns `nickname`, which is
not in the column list, and pushes it as a parameter. -/
theorem createInsertStatement_assigns_invalid_field :
    accountModel.isValid (plainField "nickname" FieldType.STRING) = false
    ∧ render (createInsertStatement accountModel (some [])).stmt
      = "INSERT INTO \"public\".\"accounts\" (\"email\") VALUES ($1) ON CONFLICT (\"email\") DO UPDATE SET \"nickname\" = $2;"
    ∧ ((createInsertStatement accountModel (some [])).params.map
        (fun ps => ps.map Field.name)) = some ["email", "nickname"] := by
  decide

end persistence

/-! ## SQL statements: CREATE TABLE -/

namespace persistence

theorem foldl_append_within (append : String → Nat → String → String)
    (happ : AppendsWithinCapacity append) (n : Nat) (pieces : List String) (buf : String)
    (hfit : (buf ++ concat pieces).length < n) :
    pieces.foldl (fun b s => append b n s) buf = buf ++ concat pieces := by
  induction pieces generalizing buf with
  | nil => simp [concat]
  | cons p ps ih =>
    simp only [concat, String.length_append] at hfit
    have hp : append buf n p = buf ++ p := happ buf n p (by omega)
    simp only [List.foldl_cons, hp, concat]
    rw [ih (buf ++ p) (by simp only [String.length_append]; omega), String.append_assoc]

theorem getDbFlags_eq_foldl (append : String → Nat → String → String) (tablename : String)
    (numberPrimaryKeys : Int) (constraints : List (String × Constraint)) (field : Field) :
    getDbFlags append tablename numberPrimaryKeys constraints field
      = (flagPieces tablename numberPrimaryKeys constraints field).foldl
          (fun b s => append b 1024 s) "" := by
  unfold getDbFlags flagPieces appendFlag
  cases field.isNotNull <;> cases (field.isPrimaryKey && numberPrimaryKeys == 1) <;>
    cases inlineUnique constraints field <;> by_cases hd : field.defaultVal = "" <;>
    cases field.autoincrementBit <;> simp [hd]

theorem concat_flagPieces (tablename : String) (numberPrimaryKeys : Int)
    (constraints : List (String × Constraint)) (field : Field) :
    concat (flagPieces tablename numberPrimaryKeys constraints field)
      = join " " (flagItems tablename numberPrimaryKeys constraints field) := by
  unfold flagPieces flagItems
  cases field.isNotNull <;> cases (field.isPrimaryKey && numberPrimaryKeys == 1) <;>
    cases inlineUnique constraints field <;> by_cases hd : field.defaultVal = "" <;>
    cases field.autoincrementBit <;> simp [hd, concat, join, ← String.append_assoc]

/-- Closed form of `getDbFlags` when the flags fit into the buffer. -/
theorem getDbFlags_eq_join (append : String → Nat → String → String)
    (happ : AppendsWithinCapacity append) (tablename : String) (numberPrimaryKeys : Int)
    (constraints : List (String × Constraint)) (field : Field)
    (hfit : (join " " (flagItems tablename numberPrimaryKeys constraints field)).length < 1024) :
    getDbFlags append tablename numberPrimaryKeys constraints field
      = join " " (flagItems tablename numberPrimaryKeys constraints field) := by
  rw [getDbFlags_eq_foldl, foldl_append_within append happ 1024 _ ""
    (by simpa [concat_flagPieces] using hfit)]
  simp [concat_flagPieces]

theorem boundedAppend_within : AppendsWithinCapacity boundedAppend := by
  intro buf bufsize s h
  simp [boundedAppend, h]

theorem default_ne_primaryKey (x : String) : "DEFAULT " ++ x ≠ "PRIMARY KEY" := by
  intro h
  have h2 := congrArg String.data h
  simp at h2

theorem default_ne_unique (x : String) : "DEFAULT " ++ x ≠ "UNIQUE" := by
  intro h
  have h2 := congrArg String.data h
  simp at h2

theorem join_cons (d a : String) (rest : List String) :
    join d (a :: rest) = a ++ concat (rest.map (fun s => d ++ s)) := by
  induction rest generalizing a with
  | nil => simp [join, concat]
  | cons b bs ih => simp [join, concat, ih, ← String.append_assoc]

theorem primaryKeyFields_false (fs : List Field) :
    primaryKeyFields fs false
      = concat (((fs.filter (fun f => f.isPrimaryKey)).map (fun f => quoted f.name)).map
          (fun s => ", " ++ s)) := by
  induction fs with
  | nil => rfl
  | cons f fs ih =>
    by_cases hp : f.isPrimaryKey = true
    · simp [primaryKeyFields, hp, ih, concat, quoted, ← String.append_assoc]
    · simp [primaryKeyFields, hp, ih]

theorem primaryKeyFields_true (fs : List Field) :
    primaryKeyFields fs true
      = join ", " ((fs.filter (fun f => f.isPrimaryKey)).map (fun f => quoted f.name)) := by
  induction fs with
  | nil => rfl
  | cons f fs ih =>
    by_cases hp : f.isPrimaryKey = true
    · simp [primaryKeyFields, hp, primaryKeyFields_false, join_cons, quoted,
        ← String.append_assoc]
    · simp [primaryKeyFields, hp, ih]

theorem primaryKey_mem_flagItems (tablename : String) (numberPrimaryKeys : Int)
    (constraints : List (String × Constraint)) (field : Field) :
    "PRIMARY KEY" ∈ flagItems tablename numberPrimaryKeys constraints field
      ↔ (field.isPrimaryKey = true ∧ numberPrimaryKeys = 1) := by
  have h1 := default_ne_primaryKey field.defaultVal
  have h2 := default_ne_primaryKey
    ("nextval('" ++ tablename ++ "_" ++ field.name ++ "_seq'::regclass)")
  have h3 : "DEFAULT nextval('" ++ tablename ++ "_" ++ field.name ++ "_seq'::regclass)"
      = "DEFAULT " ++ ("nextval('" ++ tablename ++ "_" ++ field.name ++ "_seq'::regclass)") := by
    simp [← String.append_assoc]
  rw [← h3] at h2
  unfold flagItems
  cases field.isNotNull <;> cases field.isPrimaryKey <;>
    by_cases hn : numberPrimaryKeys = 1 <;>
    cases inlineUnique constraints field <;> by_cases hd : field.defaultVal = "" <;>
    cases field.autoincrementBit <;> simp [hd, hn, Ne.symm h1, Ne.symm h2]

theorem unique_mem_flagItems (tablename : String) (numberPrimaryKeys : Int)
    (constraints : List (String × Constraint)) (field : Field) :
    "UNIQUE" ∈ flagItems tablename numberPrimaryKeys constraints field
      ↔ inlineUnique constraints field = true := by
  have h1 := default_ne_unique field.defaultVal
  have h2 := default_ne_unique
    ("nextval('" ++ tablename ++ "_" ++ field.name ++ "_seq'::regclass)")
  have h3 : "DEFAULT nextval('" ++ tablename ++ "_" ++ field.name ++ "_seq'::regclass)"
      = "DEFAULT " ++ ("nextval('" ++ tablename ++ "_" ++ field.name ++ "_seq'::regclass)") := by
    simp [← String.append_assoc]
  rw [← h3] at h2
  unfold flagItems
  cases field.isNotNull <;> cases (field.isPrimaryKey && numberPrimaryKeys == 1) <;>
    cases inlineUnique constraints field <;> by_cases hd : field.defaultVal = "" <;>
    cases field.autoincrementBit <;> simp [hd, Ne.symm h1, Ne.symm h2]

/-- C17, the code at the failing input: for the booking table with the unique keys
`{room, slot}` and `{guest, slot}`, `createCreateTableStatement` writes the second constraint as
`UNIQUE(, "guest", "slot")`, with a separator before the first name, where the specification expects
`UNIQUE("guest", "slot")`; the first constraint is written as expected. -/
theorem createCreateTableStatement_second_unique_key :
    createCreateTableStatement boundedAppend bookingModel false
      = "CREATE TABLE IF NOT EXISTS \"public\".\"booking\" (\"room\" INT, \"slot\" INT, \"guest\" INT, CONSTRAINT booking_room_slot UNIQUE(\"room\", \"slot\"), CONSTRAINT booking_guest_slot UNIQUE(, \"guest\", \"slot\"));"
    ∧ uniqueClause bookingModel ["room", "slot"]
      = ", CONSTRAINT booking_room_slot UNIQUE(\"room\", \"slot\")"
    ∧ uniqueClause bookingModel ["guest", "slot"]
      = ", CONSTRAINT booking_guest_slot UNIQUE(\"guest\", \"slot\")"
    ∧ uniqueConstraints bookingModel bookingModel.uniqueKeys true
      ≠ concat (bookingModel.uniqueKeys.map (uniqueClause bookingModel)) :=
  ⟨by decide!, by decide, by decide, by decide!⟩

theorem default_ne_empty (x : String) : "DEFAULT " ++ x ≠ "" := by
  intro h
  have h2 := congrArg String.data h
  simp at h2

theorem join_eq_empty_iff (d : String) (items : List String) (h : ∀ s ∈ items, s ≠ "") :
    join d items = "" ↔ items = [] := by
  cases items with
  | nil => simp [join]
  | cons a rest =>
    simp only [join_cons, reduceCtorEq, iff_false]
    intro he
    have ha : a ≠ "" := h a (List.mem_cons_self _ _)
    have h2 := congrArg String.data he
    simp only [String.data_append] at h2
    have h3 : a.data = [] := (List.append_eq_nil.mp h2).1
    exact ha (String.ext h3)

theorem flagItems_ne_empty (tablename : String) (numberPrimaryKeys : Int)
    (constraints : List (String × Constraint)) (field : Field) :
    ∀ s ∈ flagItems tablename numberPrimaryKeys constraints field, s ≠ "" := by
  have h1 := default_ne_empty field.defaultVal
  have h2 := default_ne_empty
    ("nextval('" ++ tablename ++ "_" ++ field.name ++ "_seq'::regclass)")
  have h3 : "DEFAULT nextval('" ++ tablename ++ "_" ++ field.name ++ "_seq'::regclass)"
      = "DEFAULT " ++ ("nextval('" ++ tablename ++ "_" ++ field.name ++ "_seq'::regclass)") := by
    simp [← String.append_assoc]
  rw [← h3] at h2
  unfold flagItems
  cases field.isNotNull <;> cases (field.isPrimaryKey && numberPrimaryKeys == 1) <;>
    cases inlineUnique constraints field <;> by_cases hd : field.defaultVal = "" <;>
    cases field.autoincrementBit <;> simp [hd, h1, h2]

/-- The text the column loop of `createCreateTableStatement` writes for one field whose flags
fit the buffer, without the separator. -/
theorem column_eq_columnText (append : String → Nat → String → String)
    (happ : AppendsWithinCapacity append) (table : Model) (f : Field)
    (hfit : (join " "
      (flagItems table.tableName table.primaryKeys table.constraints f)).length < 1024) :
    "\"" ++ f.name ++ "\""
      ++ (if getDbType f ≠ "" then " " ++ getDbType f else "")
      ++ (if getDbFlags append table.tableName table.primaryKeys table.constraints f ≠ "" then
            " " ++ getDbFlags append table.tableName table.primaryKeys table.constraints f
          else "")
      = columnText table f := by
  rw [getDbFlags_eq_join append happ _ _ _ f hfit]
  have hiff := join_eq_empty_iff " "
    (flagItems table.tableName table.primaryKeys table.constraints f)
    (flagItems_ne_empty _ _ _ f)
  unfold columnText quoted
  by_cases he : flagItems table.tableName table.primaryKeys table.constraints f = []
  · simp [he, join]
  · have hj : join " " (flagItems table.tableName table.primaryKeys table.constraints f)
        ≠ "" := fun h => he (hiff.mp h)
    simp [he, hj]

theorem columnDefinitions_false (append : String → Nat → String → String)
    (happ : AppendsWithinCapacity append) (table : Model) (fs : List Field)
    (hfit : ∀ f ∈ fs,
      (join " " (flagItems table.tableName table.primaryKeys table.constraints f)).length
        < 1024) :
    columnDefinitions append table fs false
      = concat ((fs.map (columnText table)).map (fun s => ", " ++ s)) := by
  induction fs with
  | nil => rfl
  | cons f fs ih =>
    have hf := column_eq_columnText append happ table f (hfit f (List.mem_cons_self _ _))
    have hrest := ih (fun g hg => hfit g (List.mem_cons_of_mem _ hg))
    simp only [columnDefinitions, Bool.not_false, if_true, List.map_cons, concat, hrest]
    rw [← hf]
    simp only [String.append_assoc]

theorem columnDefinitions_true (append : String → Nat → String → String)
    (happ : AppendsWithinCapacity append) (table : Model) (fs : List Field)
    (hfit : ∀ f ∈ fs,
      (join " " (flagItems table.tableName table.primaryKeys table.constraints f)).length
        < 1024) :
    columnDefinitions append table fs true = join ", " (fs.map (columnText table)) := by
  cases fs with
  | nil => rfl
  | cons f fs =>
    have hf := column_eq_columnText append happ table f (hfit f (List.mem_cons_self _ _))
    have hrest := columnDefinitions_false append happ table fs
      (fun g hg => hfit g (List.mem_cons_of_mem _ hg))
    simp only [columnDefinitions, Bool.not_true, Bool.false_eq_true, if_false, List.map_cons,
      join_cons, hrest]
    rw [← hf]
    simp only [String.append_assoc, String.empty_append]

/-- C18: with `primaryKeys()` equal to the number of primary-key fields (and flags that fit the
buffer), the statement written by `createCreateTableStatement` is the sequences, the head, the
column texts joined by `, `, the unique constraints, the text of `primaryKeyConstraint` once,
the foreign keys, `);` and the indexes, where the text of a column is its quoted name, its type
and its flag items joined by single spaces. With one primary-key field that column, and only
it, has the item PRIMARY KEY in its text and the table-level text is empty; with several, no
column has the item and the table-level text is `, PRIMARY KEY("a", "b", ...)` over all
primary-key fields in field order; with none there is neither. -/
theorem primaryKey_declared_once (append : String → Nat → String → String)
    (happ : AppendsWithinCapacity append) (table : Model) (useForeignKeys : Bool)
    (hcount : table.primaryKeys
      = ((table.fields.filter (fun f => f.isPrimaryKey)).length : Int))
    (hfit : ∀ f ∈ table.fields,
      (join " " (flagItems table.tableName table.primaryKeys table.constraints f)).length
        < 1024) :
    (∀ f ∈ table.fields,
        getDbFlags append table.tableName table.primaryKeys table.constraints f
          = join " " (flagItems table.tableName table.primaryKeys table.constraints f))
    ∧ createCreateTableStatement append table useForeignKeys
      = createSequences table table.fields
        ++ "CREATE TABLE IF NOT EXISTS \"" ++ table.schema ++ "\".\"" ++ table.tableName
        ++ "\" ("
        ++ join ", " (table.fields.map (columnText table))
        ++ (if table.uniqueKeys ≠ [] then uniqueConstraints table table.uniqueKeys true else "")
        ++ primaryKeyConstraint table
        ++ (if useForeignKeys then foreignKeyConstraints table table.foreignKeys else "")
        ++ ");"
        ++ createIndexes table table.fields
    ∧ (∀ f, "PRIMARY KEY" ∈ flagItems table.tableName table.primaryKeys table.constraints f →
        columnText table f
          = quoted f.name ++ (if getDbType f ≠ "" then " " ++ getDbType f else "")
            ++ " "
            ++ join " " (flagItems table.tableName table.primaryKeys table.constraints f))
    ∧ ((table.fields.filter (fun f => f.isPrimaryKey)).length = 1 →
        primaryKeyConstraint table = ""
        ∧ ∀ f, ("PRIMARY KEY" ∈ flagItems table.tableName table.primaryKeys table.constraints f
            ↔ f.isPrimaryKey = true))
    ∧ (1 < (table.fields.filter (fun f => f.isPrimaryKey)).length →
        primaryKeyConstraint table
          = ", PRIMARY KEY("
            ++ join ", " ((table.fields.filter (fun f => f.isPrimaryKey)).map
                (fun f => quoted f.name))
            ++ ")"
        ∧ ∀ f, "PRIMARY KEY" ∉ flagItems table.tableName table.primaryKeys table.constraints f)
    ∧ ((table.fields.filter (fun f => f.isPrimaryKey)).length = 0 →
        primaryKeyConstraint table = ""
        ∧ ∀ f, "PRIMARY KEY" ∉ flagItems table.tableName table.primaryKeys table.constraints f)
    := by
  refine ⟨fun f hf => getDbFlags_eq_join append happ _ _ _ f (hfit f hf), ?_, ?_, ?_, ?_, ?_⟩
  · simp only [createCreateTableStatement,
      columnDefinitions_true append happ table table.fields hfit]
  · intro f hmem
    have hne : flagItems table.tableName table.primaryKeys table.constraints f ≠ [] :=
      List.ne_nil_of_mem hmem
    simp [columnText, hne, String.append_assoc]
  · intro h1
    have hn : table.primaryKeys = 1 := by rw [hcount, h1]; rfl
    refine ⟨by simp [primaryKeyConstraint, hn], fun f => ?_⟩
    rw [primaryKey_mem_flagItems]
    simp [hn]
  · intro h1
    have hn : 1 < table.primaryKeys := by rw [hcount]; exact_mod_cast h1
    refine ⟨by simp [primaryKeyConstraint, hn, primaryKeyFields_true], fun f => ?_⟩
    rw [primaryKey_mem_flagItems]
    intro h
    omega
  · intro h0
    have hn : table.primaryKeys = 0 := by rw [hcount, h0]; rfl
    refine ⟨by simp [primaryKeyConstraint, hn], fun f => ?_⟩
    rw [primaryKey_mem_flagItems]
    intro h
    omega

/-- C18 on the user table, whose only primary-key field is `id`: there is no table-level
clause, the text of the column `id` carries the inline flag, and the statement is the one
built from the column texts. -/
theorem primaryKey_declared_once_witness :
    primaryKeyConstraint userModel = ""
    ∧ userModel.fields.map (columnText userModel)
      = ["\"id\" BIGINT NOT NULL PRIMARY KEY", "\"name\" VARCHAR(256)",
         "\"created\" TIMESTAMP", "\"note\" TEXT"]
    ∧ createCreateTableStatement boundedAppend userModel false
      = "CREATE TABLE IF NOT EXISTS \"public\".\"users\" (\"id\" BIGINT NOT NULL PRIMARY KEY, \"name\" VARCHAR(256), \"created\" TIMESTAMP, \"note\" TEXT);" :=
  ⟨((primaryKey_declared_once boundedAppend boundedAppend_within userModel false
      (by decide) (by decide)).2.2.2.1 (by decide)).1, by decide,
    ((primaryKey_declared_once boundedAppend boundedAppend_within userModel false
      (by decide) (by decide)).2.1).trans (by decide)⟩

/-- C19: when the flags fit the buffer, the string of `getDbFlags` is the list of flag items
joined by single spaces, hence without leading or trailing space; the items are, in this order,
NOT NULL, PRIMARY KEY, UNIQUE and one DEFAULT item, each present or not. UNIQUE is among them
exactly when the field is unique and no constraint is registered under its name or the
registered constraint lists exactly one field; with a registered constraint of two or more
fields it is never among them. -/
theorem getDbFlags_inline_unique (append : String → Nat → String → String)
    (happ : AppendsWithinCapacity append) (tablename : String) (numberPrimaryKeys : Int)
    (constraints : List (String × Constraint)) (field : Field)
    (hfit : (join " " (flagItems tablename numberPrimaryKeys constraints field)).length < 1024) :
    getDbFlags append tablename numberPrimaryKeys constraints field
      = join " " (flagItems tablename numberPrimaryKeys constraints field)
    ∧ (∃ d, (d = [] ∨ ∃ v, d = ["DEFAULT " ++ v])
        ∧ flagItems tablename numberPrimaryKeys constraints field
          = (if field.isNotNull then ["NOT NULL"] else [])
            ++ (if field.isPrimaryKey = true ∧ numberPrimaryKeys = 1 then ["PRIMARY KEY"]
                else [])
            ++ (if "UNIQUE" ∈ flagItems tablename numberPrimaryKeys constraints field then
                  ["UNIQUE"] else [])
            ++ d)
    ∧ ("UNIQUE" ∈ flagItems tablename numberPrimaryKeys constraints field
        ↔ (field.isUnique = true
            ∧ (constraints.lookup field.name = none
                ∨ ∃ c, constraints.lookup field.name = some c ∧ c.fields.length = 1)))
    ∧ (∀ c, constraints.lookup field.name = some c → 2 ≤ c.fields.length →
        "UNIQUE" ∉ flagItems tablename numberPrimaryKeys constraints field) := by
  have hiff : inlineUnique constraints field = true
      ↔ (field.isUnique = true
          ∧ (constraints.lookup field.name = none
              ∨ ∃ c, constraints.lookup field.name = some c ∧ c.fields.length = 1)) := by
    unfold inlineUnique
    cases hl : constraints.lookup field.name with
    | none => simp
    | some c => simp
  refine ⟨getDbFlags_eq_join append happ _ _ _ _ hfit, ?_, ?_, ?_⟩
  · refine ⟨if field.defaultVal ≠ "" then ["DEFAULT " ++ field.defaultVal]
        else if field.autoincrementBit then
          ["DEFAULT " ++ ("nextval('" ++ tablename ++ "_" ++ field.name ++ "_seq'::regclass)")]
        else [], ?_, ?_⟩
    · by_cases hd : field.defaultVal = ""
      · rw [if_neg (not_not.mpr hd)]
        cases field.autoincrementBit
        · exact Or.inl rfl
        · exact Or.inr ⟨_, rfl⟩
      · rw [if_pos hd]
        exact Or.inr ⟨_, rfl⟩
    · simp only [unique_mem_flagItems]
      unfold flagItems
      cases field.isNotNull <;> cases field.isPrimaryKey <;>
        by_cases hn : numberPrimaryKeys = 1 <;>
        cases inlineUnique constraints field <;> by_cases hd : field.defaultVal = "" <;>
        cases field.autoincrementBit <;> simp [hd, hn, ← String.append_assoc]
  · rw [unique_mem_flagItems, hiff]
  · intro c hc hlen
    rw [unique_mem_flagItems]
    simp only [inlineUnique, hc]
    cases field.isUnique
    · simp
    · simp
      omega

/-- C19 on a column that is not null, unique on its own and has a default value. -/
theorem getDbFlags_inline_unique_witness :
    getDbFlags boundedAppend "users" 1 [] emailField
      = join " " (flagItems "users" 1 [] emailField)
    ∧ join " " (flagItems "users" 1 [] emailField) = "NOT NULL UNIQUE DEFAULT 'none'" :=
  ⟨(getDbFlags_inline_unique boundedAppend boundedAppend_within "users" 1 [] emailField
      (by decide)).1, by decide⟩

end persistence

/-! ## Lua export of character settings -/

namespace voxedit

theorem writePaths_eq {F : Type} (settings : CharacterSettings F) (name : String)
    (ts : List String) (stream : String) :
    writePaths settings name ts stream
      = stream ++ persistence.concat (ts.map (fun t =>
          "  chr.setPath(\"" ++ t ++ "\", \"" ++ settings.path t name ++ "\")\n")) := by
  induction ts generalizing stream with
  | nil => simp [writePaths, persistence.concat]
  | cons t ts ih => simp [writePaths, persistence.concat, ih, String.append_assoc]

theorem writeAttributes_eq {F : Type} (ops : FloatOps F) (sa dv : Nat → F)
    (metas : List SkeletonAttributeMeta) (stream : String) :
    writeAttributes ops sa dv metas stream
      = stream ++ persistence.concat
          (((namedEntries metas).filter (fun e => ops.differs (sa e.2) (dv e.2))).map
            (fun e => "  chr.set" ++ e.1 ++ "(" ++ ops.format (sa e.2) ++ ")\n")) := by
  induction metas generalizing stream with
  | nil => simp [writeAttributes, namedEntries, persistence.concat]
  | cons m rest ih =>
    cases hn : m.name with
    | none => simp [writeAttributes, namedEntries, hn, persistence.concat]
    | some n =>
      by_cases hd : ops.differs (sa m.offset) (dv m.offset) = true
      · simp [writeAttributes, namedEntries, hn, hd, ih, persistence.concat,
          String.append_assoc]
      · simp [writeAttributes, namedEntries, hn, hd, ih]

/-- C14: `saveCharacterLua` returns false exactly when the file pointer is null or the file
does not exist, and then nothing is written. Otherwise it returns true and the text written is
`function init()` without line break, the `setBasePath` line, one `setPath` line per type in
order, one `set<Name>(<value>)` line for exactly those entries of the meta array before its
terminating entry whose value differs from the default one by more than the float epsilon, in
array order, and `end`. -/
theorem saveCharacterLua_output {F : Type} (ops : FloatOps F)
    (metaArray : List SkeletonAttributeMeta) (dv : Nat → F)
    (characterSettings : CharacterSettings F) (name : String) (file : Option LuaFile) :
    ((saveCharacterLua ops metaArray dv characterSettings name file).1 = false
        ↔ (file = none ∨ file = some { fileExists := false }))
    ∧ ((saveCharacterLua ops metaArray dv characterSettings name file).1 = false →
        (saveCharacterLua ops metaArray dv characterSettings name file).2 = "")
    ∧ ((saveCharacterLua ops metaArray dv characterSettings name file).1 = true →
        (saveCharacterLua ops metaArray dv characterSettings name file).2
          = "function init()" ++ "  chr.setBasePath(\"human\", \"male\")\n"
            ++ persistence.concat (characterSettings.types.map (fun t =>
                "  chr.setPath(\"" ++ t ++ "\", \"" ++ characterSettings.path t name
                  ++ "\")\n"))
            ++ persistence.concat
                (((namedEntries metaArray).filter (fun e =>
                    ops.differs (characterSettings.skeletonAttr e.2) (dv e.2))).map
                  (fun e => "  chr.set" ++ e.1 ++ "("
                    ++ ops.format (characterSettings.skeletonAttr e.2) ++ ")\n"))
            ++ "end\n") := by
  cases file with
  | none => simp [saveCharacterLua]
  | some f =>
    cases hf : f.fileExists with
    | false =>
      have hf2 : f = { fileExists := false } := by
        cases f
        simp_all
      simp [saveCharacterLua, hf, hf2]
    | true =>
      have hf2 : f ≠ { fileExists := false } := by
        intro h
        rw [h] at hf
        simp at hf
      simp [saveCharacterLua, hf, hf2, writePaths_eq, writeAttributes_eq]

/-- C14 at a concrete run: two mesh types, three attributes of which only `HeadScale` differs
from its default. -/
theorem saveCharacterLua_output_witness :
    (saveCharacterLua sampleOps sampleMetaArray (fun _ => 1) sampleSettings "chr"
        (some { fileExists := true })).1 = true
    ∧ (saveCharacterLua sampleOps sampleMetaArray (fun _ => 1) sampleSettings "chr"
        (some { fileExists := true })).2
      = "function init()  chr.setBasePath(\"human\", \"male\")\n  chr.setPath(\"head\", \"head/chr\")\n  chr.setPath(\"foot\", \"foot/chr\")\n  chr.setHeadScale(2.000000)\nend\n" :=
  ⟨by decide,
    ((saveCharacterLua_output sampleOps sampleMetaArray (fun _ => 1) sampleSettings "chr"
        (some { fileExists := true })).2.2 (by decide)).trans (by decide)⟩

end voxedit

/-! ## Command completion of file names -/

namespace core

theorem completeDirs_eq (additionalDir currentMatch : List Char) (es : List DirEntry)
    (acc : List String × Nat) :
    completeDirs additionalDir currentMatch es acc
      = (acc.1 ++ (es.filter (fun e => e.isDir && currentMatch.isPrefixOf e.name.data)).map
            (fun e => String.mk (additionalDir ++ e.name.data ++ ['/'])),
         acc.2 + (es.filter (fun e => e.isDir && currentMatch.isPrefixOf e.name.data)).length) := by
  induction es generalizing acc with
  | nil => simp [completeDirs]
  | cons e es ih =>
    by_cases h : (e.isDir && currentMatch.isPrefixOf e.name.data) = true
    · simp only [completeDirs, h, if_true, ih, List.filter_cons_of_pos, List.map_cons,
        List.length_cons, List.append_assoc, List.singleton_append]
      congr 1
      omega
    · simp only [completeDirs, h, Bool.false_eq_true, if_false, ih, List.filter_cons]

theorem completeFiles_eq (pattern additionalDir currentMatch : List Char) (es : List DirEntry)
    (acc : List String × Nat) :
    completeFiles pattern additionalDir currentMatch es acc
      = (acc.1 ++ (es.filter (fun e => !e.isDir && currentMatch.isPrefixOf e.name.data
              && globMatch pattern e.name.data)).map
            (fun e => String.mk (additionalDir ++ e.name.data)),
         acc.2 + (es.filter (fun e => !e.isDir && currentMatch.isPrefixOf e.name.data
              && globMatch pattern e.name.data)).length) := by
  induction es generalizing acc with
  | nil => simp [completeFiles]
  | cons e es ih =>
    by_cases h : (!e.isDir && currentMatch.isPrefixOf e.name.data
        && globMatch pattern e.name.data) = true
    · simp only [completeFiles, h, if_true, ih, List.filter_cons_of_pos, List.map_cons,
        List.length_cons, List.append_assoc, List.singleton_append]
      congr 1
      omega
    · simp only [completeFiles, h, Bool.false_eq_true, if_false, ih, List.filter_cons]

theorem extractPath_append_typedName (str : String) :
    extractPath str.data ++ typedName str = str.data := by
  have h1 : extractPath str.data <+: str.data := by
    have h := List.dropWhile_suffix (fun c => c != '/') (l := str.data.reverse)
    have h2 := List.reverse_prefix.mpr h
    rwa [List.reverse_reverse] at h2
  exact List.prefix_iff_eq_append.mp h1

theorem sortByName_sorted (entries : List DirEntry) :
    (sortByName entries).Sorted (fun a b => a.name ≤ b.name) := by
  haveI : IsTotal DirEntry (fun a b => a.name ≤ b.name) := ⟨fun a b => le_total a.name b.name⟩
  haveI : IsTrans DirEntry (fun a b => a.name ≤ b.name) :=
    ⟨fun _ _ _ hab hbc => le_trans hab hbc⟩
  exact List.sorted_insertionSort _ entries

theorem mem_listing (list : String → List DirEntry) (dir str : String) (e : DirEntry) :
    e ∈ listing list dir str ↔ e ∈ list (dir ++ String.mk (extractPath str.data)) :=
  (List.perm_insertionSort _ _).mem_iff

theorem typed_prefix_iff (str : String) (name : List Char) :
    (typedName str).isPrefixOf name = true ↔ str.data <+: extractPath str.data ++ name := by
  rw [List.isPrefixOf_iff_prefix]
  have hs := extractPath_append_typedName str
  constructor
  · intro h
    have h2 := (List.prefix_append_right_inj (extractPath str.data)).mpr h
    rwa [hs] at h2
  · intro h
    apply (List.prefix_append_right_inj (extractPath str.data)).mp
    rwa [hs]

/-- C12: the completer returned by `fileCompleter(dir, pattern)`, applied to a typed string,
appends to `matches` the sub-directories whose path starts with the typed string, each with the
typed directory part in front and a trailing `/`, followed by the files whose path starts with
the typed string and whose name matches the pattern, each with the typed directory part in
front; each group is in the order of the names; the result is the number of appended entries. -/
theorem fileCompleter_completes_typed_path (list : String → List DirEntry)
    (dir pattern str : String) (matches0 : List String) :
    (fileCompleter list dir pattern str matches0).2
      = matches0
        ++ (matchingDirs list dir str).map
            (fun e => String.mk (extractPath str.data ++ e.name.data ++ ['/']))
        ++ (matchingFiles list dir pattern str).map
            (fun e => String.mk (extractPath str.data ++ e.name.data))
    ∧ (fileCompleter list dir pattern str matches0).1
      = (matchingDirs list dir str).length + (matchingFiles list dir pattern str).length
    ∧ (matchingDirs list dir str).Sorted (fun a b => a.name ≤ b.name)
    ∧ (matchingFiles list dir pattern str).Sorted (fun a b => a.name ≤ b.name)
    ∧ (∀ e, e ∈ matchingDirs list dir str
        ↔ (e ∈ list (dir ++ String.mk (extractPath str.data)) ∧ e.isDir = true
            ∧ str.data <+: extractPath str.data ++ e.name.data))
    ∧ (∀ e, e ∈ matchingFiles list dir pattern str
        ↔ (e ∈ list (dir ++ String.mk (extractPath str.data)) ∧ e.isDir = false
            ∧ str.data <+: extractPath str.data ++ e.name.data
            ∧ globMatch pattern.data e.name.data = true)) := by
  refine ⟨?_, ?_, ?_, ?_, ?_, ?_⟩
  · simp [fileCompleter, completeFiles_eq, completeDirs_eq, matchingDirs, matchingFiles,
      listing, typedName]
  · simp [fileCompleter, completeFiles_eq, completeDirs_eq, matchingDirs, matchingFiles,
      listing, typedName]
  · exact (sortByName_sorted _).filter _
  · exact (sortByName_sorted _).filter _
  · intro e
    simp only [matchingDirs, List.mem_filter, mem_listing, Bool.and_eq_true, typed_prefix_iff]
  · intro e
    simp only [matchingFiles, List.mem_filter, mem_listing, Bool.and_eq_true, typed_prefix_iff,
      Bool.not_eq_true']
    tauto

/-- C12 on the directory of CommandCompleterTest with the pattern `*.foo`: the five test cases
(typed strings "", "f", "dir1", "f" inside `dir1/`, and "dir1/f"). -/
theorem fileCompleter_completes_typed_path_witness :
    fileCompleter testFilesystem "commandcompletertest/" "*.foo" "" []
      = (5, ["dir1/", "foo1.foo", "foo2.foo", "foo3.foo", "foo4.foo"])
    ∧ fileCompleter testFilesystem "commandcompletertest/" "*.foo" "f" []
      = (4, ["foo1.foo", "foo2.foo", "foo3.foo", "foo4.foo"])
    ∧ fileCompleter testFilesystem "commandcompletertest/" "*.foo" "dir1" [] = (1, ["dir1/"])
    ∧ fileCompleter testFilesystem "commandcompletertest/dir1/" "*.foo" "f" []
      = (1, ["foo1.foo"])
    ∧ fileCompleter testFilesystem "commandcompletertest/" "*.foo" "dir1/f" []
      = (1, ["dir1/foo1.foo"])
    ∧ (fileCompleter testFilesystem "commandcompletertest/" "*.foo" "" []).1
      = (matchingDirs testFilesystem "commandcompletertest/" "").length
        + (matchingFiles testFilesystem "commandcompletertest/" "*.foo" "").length :=
  ⟨by decide!, by decide!, by decide!, by decide!, by decide!,
    (fileCompleter_completes_typed_path testFilesystem "commandcompletertest/" "*.foo" ""
      []).2.1⟩

end core

/-! ## Expansion of include directives -/

namespace util

theorem noIncludeIn_iff (text rest : List Char) :
    noIncludeIn text rest = true
      ↔ ∀ a b, text = a ++ b → b ≠ [] → ¬ "#include".data <+: b ++ rest := by
  induction text with
  | nil =>
    simp only [noIncludeIn, true_iff]
    intro a b h hb
    exact absurd (List.append_eq_nil.mp h.symm).2 hb
  | cons c cs ih =>
    simp only [noIncludeIn, Bool.and_eq_true, Bool.not_eq_true', ih]
    constructor
    · rintro ⟨h1, h2⟩ a b h hb
      cases a with
      | nil =>
        rw [List.nil_append] at h
        rw [← h, List.cons_append, ← List.isPrefixOf_iff_prefix, h1]
        exact Bool.false_ne_true
      | cons x xs =>
        rw [List.cons_append, List.cons.injEq] at h
        exact h2 xs b h.2 hb
    · intro h
      refine ⟨?_, fun a b hab hb => h (c :: a) b (by rw [hab, List.cons_append]) hb⟩
      have h0 := h [] (c :: cs) rfl (List.cons_ne_nil _ _)
      rw [List.cons_append, ← List.isPrefixOf_iff_prefix] at h0
      exact Bool.eq_false_iff.mpr h0

theorem scan_copy_text (load : String → String → Option String) (includeDirs : List String)
    (pre rest : List Char) (hpre : noIncludeIn pre rest = true) :
    scan load includeDirs ScanMode.copy (pre ++ rest)
      = { scan load includeDirs ScanMode.copy rest with
          out := pre ++ (scan load includeDirs ScanMode.copy rest).out } := by
  induction pre with
  | nil => rfl
  | cons c cs ih =>
    simp only [noIncludeIn, Bool.and_eq_true, Bool.not_eq_true'] at hpre
    rw [List.cons_append]
    simp only [scan, hpre.1, Bool.false_eq_true, if_false, ih hpre.2]
    rfl

theorem scan_copy_include (load : String → String → Option String) (includeDirs : List String)
    (c : Char) (rest : List Char) (h : "#include".data.isPrefixOf (c :: rest) = true) :
    scan load includeDirs ScanMode.copy (c :: rest)
      = scan load includeDirs ScanMode.skipToQuote rest := by
  simp only [scan, h, if_true]

theorem scan_skipToQuote (load : String → String → Option String) (includeDirs : List String)
    (xs rest : List Char) (hxs : '"' ∉ xs) :
    scan load includeDirs ScanMode.skipToQuote (xs ++ '"' :: rest)
      = scan load includeDirs (ScanMode.name []) rest := by
  induction xs with
  | nil => simp [scan]
  | cons c cs ih =>
    have hc : c ≠ '"' := fun h => hxs (by simp [h])
    have hcs : '"' ∉ cs := fun h => hxs (List.mem_cons_of_mem _ h)
    rw [List.cons_append]
    simp only [scan, hc, if_false, ih hcs]

theorem scan_name (load : String → String → Option String) (includeDirs : List String)
    (acc n rest : List Char) (hn : '"' ∉ n) :
    scan load includeDirs (ScanMode.name acc) (n ++ '"' :: rest)
      = match resolve load includeDirs (String.mk (acc ++ n)) with
        | some content =>
          { out := content.data ++ (scan load includeDirs ScanMode.copy rest).out
            included := String.mk (acc ++ n)
              :: (scan load includeDirs ScanMode.copy rest).included
            success := (scan load includeDirs ScanMode.copy rest).success }
        | none => { scan load includeDirs ScanMode.copy rest with success := false } := by
  induction n generalizing acc with
  | nil => simp [scan]
  | cons c cs ih =>
    have hc : c ≠ '"' := fun h => hn (by simp [h])
    have hcs : '"' ∉ cs := fun h => hn (List.mem_cons_of_mem _ h)
    rw [List.cons_append]
    simp only [scan, hc, if_false, ih (acc ++ [c]) hcs, List.append_assoc,
      List.singleton_append]

theorem scan_copy_directive (load : String → String → Option String)
    (includeDirs : List String) (gap file rest : List Char)
    (hgap : '"' ∉ gap) (hfile : '"' ∉ file) :
    scan load includeDirs ScanMode.copy
        ("#include".data ++ (gap ++ '"' :: (file ++ '"' :: rest)))
      = match resolve load includeDirs (String.mk file) with
        | some content =>
          { out := content.data ++ (scan load includeDirs ScanMode.copy rest).out
            included := String.mk file :: (scan load includeDirs ScanMode.copy rest).included
            success := (scan load includeDirs ScanMode.copy rest).success }
        | none => { scan load includeDirs ScanMode.copy rest with success := false } := by
  have h2 : "#include".data.isPrefixOf
      ('#' :: ("include".data ++ (gap ++ '"' :: (file ++ '"' :: rest)))) = true := by
    show List.isPrefixOf ('#' :: "include".data)
      ('#' :: ("include".data ++ (gap ++ '"' :: (file ++ '"' :: rest)))) = true
    rw [List.isPrefixOf_iff_prefix]
    exact ⟨_, rfl⟩
  have hq : '"' ∉ "include".data ++ gap := by
    rw [List.mem_append, not_or]
    exact ⟨by decide, hgap⟩
  show scan load includeDirs ScanMode.copy
    ('#' :: ("include".data ++ (gap ++ '"' :: (file ++ '"' :: rest)))) = _
  rw [scan_copy_include load includeDirs _ _ h2, ← List.append_assoc,
    scan_skipToQuote load includeDirs _ _ hq]
  simpa using scan_name load includeDirs [] file rest hfile

theorem source_text_data (t : String) (rest : List Seg) :
    (source (Seg.text t :: rest)).data = t.data ++ (source rest).data := by
  simp [source, Seg.source, String.data_append]

theorem source_directive_data (gap file : String) (rest : List Seg) :
    (source (Seg.directive gap file :: rest)).data
      = "#include".data ++ (gap.data ++ '"' :: (file.data ++ '"' :: (source rest).data)) := by
  simp [source, Seg.source, String.data_append]

theorem source_append (a b : List Seg) : source (a ++ b) = source a ++ source b := by
  induction a with
  | nil => simp [source]
  | cons s rest ih => simp [source, ih, String.append_assoc]

theorem scan_source (load : String → String → Option String) (includeDirs : List String)
    (segs : List Seg) (h : wellRead segs = true) :
    scan load includeDirs ScanMode.copy (source segs).data
      = { out := (expansion load includeDirs segs).data
          included := replaced load includeDirs segs
          success := allResolved load includeDirs segs } := by
  induction segs with
  | nil => simp [source, scan, expansion, replaced, allResolved, directiveFiles]
  | cons s rest ih =>
    cases s with
    | text t =>
      simp only [wellRead, Bool.and_eq_true] at h
      rw [source_text_data, scan_copy_text load includeDirs _ _ h.1, ih h.2]
      simp [expansion, replaced, allResolved, directiveFiles, String.data_append]
    | directive gap file =>
      simp only [wellRead, Bool.and_eq_true, decide_eq_true_eq] at h
      rw [source_directive_data, scan_copy_directive load includeDirs _ _ _ h.1.1 h.1.2,
        ih h.2]
      cases hr : resolve load includeDirs file <;>
        simp [expansion, replaced, allResolved, directiveFiles, hr, String.data_append]

theorem handleIncludes_source (load : String → String → Option String)
    (includeDirs includedFiles : List String) (segs : List Seg) (h : wellRead segs = true) :
    handleIncludes load (source segs) includeDirs includedFiles
      = ((expansion load includeDirs segs, allResolved load includeDirs segs),
         includedFiles ++ replaced load includeDirs segs) := by
  simp [handleIncludes, scan_source load includeDirs segs h]

theorem expansion_eq_source (load : String → String → Option String)
    (includeDirs : List String) (doc : String → List Seg) (segs : List Seg)
    (h : ∀ gap file, Seg.directive gap file ∈ segs →
      resolve load includeDirs file = some (source (doc file))) :
    expansion load includeDirs segs = source (insertContents doc segs)
    ∧ replaced load includeDirs segs = directiveFiles segs
    ∧ allResolved load includeDirs segs = true := by
  induction segs with
  | nil => simp [expansion, insertContents, source, replaced, allResolved, directiveFiles]
  | cons s rest ih =>
    have ih2 := ih (fun gap file hm => h gap file (List.mem_cons_of_mem _ hm))
    simp only [replaced, allResolved] at ih2
    cases s with
    | text t =>
      simp [expansion, insertContents, source, Seg.source, replaced, allResolved,
        directiveFiles, ih2]
    | directive gap file =>
      have hr := h gap file (List.mem_cons_self _ _)
      simp [expansion, insertContents, source_append, replaced, allResolved,
        directiveFiles, hr, ih2]

theorem resolve_eq_some_iff (load : String → String → Option String) (dirs : List String)
    (file content : String) :
    resolve load dirs file = some content
      ↔ ∃ before d after, dirs = before ++ d :: after
          ∧ (∀ x ∈ before, load x file = none) ∧ load d file = some content := by
  induction dirs with
  | nil => simp [resolve]
  | cons a as ih =>
    unfold resolve at ih ⊢
    rw [List.findSome?_cons]
    cases ha : load a file with
    | some c =>
      constructor
      · intro h
        exact ⟨[], a, as, rfl, by simp, by rw [ha]; exact h⟩
      · rintro ⟨before, d, after, hd, hb, hl⟩
        cases before with
        | nil =>
          simp only [List.nil_append, List.cons.injEq] at hd
          obtain ⟨rfl, rfl⟩ := hd
          rw [ha] at hl
          exact hl
        | cons b bs =>
          simp only [List.cons_append, List.cons.injEq] at hd
          obtain ⟨rfl, rfl⟩ := hd
          have hn := hb a (by simp)
          rw [ha] at hn
          cases hn
    | none =>
      show List.findSome? (fun d => load d file) as = some content ↔ _
      rw [ih]
      constructor
      · rintro ⟨before, d, after, rfl, hb, hl⟩
        refine ⟨a :: before, d, after, rfl, ?_, hl⟩
        intro x hx
        rcases List.mem_cons.mp hx with rfl | hx
        · exact ha
        · exact hb x hx
      · rintro ⟨before, d, after, hd, hb, hl⟩
        cases before with
        | nil =>
          simp only [List.nil_append, List.cons.injEq] at hd
          obtain ⟨rfl, rfl⟩ := hd
          rw [ha] at hl
          cases hl
        | cons b bs =>
          simp only [List.cons_append, List.cons.injEq] at hd
          obtain ⟨rfl, rfl⟩ := hd
          exact ⟨bs, d, after, rfl, fun x hx => hb x (List.mem_cons_of_mem _ hx), hl⟩

theorem every_buffer_read_aux (n : Nat) : ∀ l : List Char, l.length ≤ n →
    (∃ segs, wellRead segs = true ∧ (source segs).data = l)
    ∨ (∃ a b, l = a ++ "#include".data ++ b ∧ b.count '"' < 2) := by
  induction n with
  | zero =>
    intro l hl
    have h0 : l = [] := List.length_eq_zero.mp (Nat.le_zero.mp hl)
    subst h0
    exact Or.inl ⟨[], rfl, rfl⟩
  | succ n ih =>
    intro l hl
    cases l with
    | nil => exact Or.inl ⟨[], rfl, rfl⟩
    | cons c cs =>
      by_cases hp : "#include".data.isPrefixOf (c :: cs) = true
      · obtain ⟨r, hr⟩ := List.isPrefixOf_iff_prefix.mp hp
        by_cases hq : r.count '"' < 2
        · exact Or.inr ⟨[], r, by rw [List.nil_append, hr], hq⟩
        · have hm : '"' ∈ r := List.count_pos_iff.mp (by omega)
          obtain ⟨gap, r1, hr1, hgap⟩ := List.eq_append_cons_of_mem hm
          have hm1 : '"' ∈ r1 := by
            apply List.count_pos_iff.mp
            have hc := congrArg (List.count '"') hr1
            rw [List.count_append, List.count_cons_self,
              List.count_eq_zero_of_not_mem hgap] at hc
            omega
          obtain ⟨file, r2, hr2, hfile⟩ := List.eq_append_cons_of_mem hm1
          have hlen : r2.length ≤ n := by
            have hc := congrArg List.length hr
            rw [hr1, hr2] at hc
            simp only [List.length_append, List.length_cons] at hc hl
            omega
          rcases ih r2 hlen with ⟨segs, hw, hs⟩ | ⟨a, b, hab, hb⟩
          · refine Or.inl ⟨Seg.directive (String.mk gap) (String.mk file) :: segs, ?_, ?_⟩
            · simp [wellRead, hgap, hfile, hw]
            · rw [source_directive_data, hs, ← hr, hr1, hr2]
          · refine Or.inr ⟨"#include".data ++ (gap ++ '"' :: (file ++ '"' :: a)), b, ?_, hb⟩
            rw [← hr, hr1, hr2, hab]
            simp
      · have hlen : cs.length ≤ n := by
          simp only [List.length_cons] at hl
          omega
        rcases ih cs hlen with ⟨segs, hw, hs⟩ | ⟨a, b, hab, hb⟩
        · refine Or.inl ⟨Seg.text (String.mk [c]) :: segs, ?_, ?_⟩
          · simp only [wellRead, noIncludeIn, hs, List.nil_append, Bool.and_true,
              Bool.and_eq_true, Bool.not_eq_true']
            exact ⟨Bool.eq_false_iff.mpr hp, hw⟩
          · rw [source_text_data, hs]
            rfl
        · exact Or.inr ⟨c :: a, b, by rw [hab]; simp, hb⟩

theorem every_buffer_read (buffer : String) :
    (∃ segs, wellRead segs = true ∧ source segs = buffer)
    ∨ (∃ a b : String, buffer = a ++ "#include" ++ b ∧ b.data.count '"' < 2) := by
  rcases every_buffer_read_aux buffer.data.length buffer.data (Nat.le_refl _) with
    ⟨segs, hw, hs⟩ | ⟨a, b, hab, hb⟩
  · exact Or.inl ⟨segs, hw, String.ext hs⟩
  · exact Or.inr ⟨String.mk a, String.mk b, String.ext (by simp [String.data_append, hab]), hb⟩

/-- C13: `util::handleIncludes` expands one level of includes per call. The content of a file
is the one from the first include directory that has it. Every buffer reads as text pieces
and directives `#include<gap>"<file>"`, where the text may hold any other `#`, unless some
`#include` in it has fewer than two quotes after it. For every buffer so read the output is
the text pieces with the content of its file in place of every directive, the content put in
as it is; the names of the replaced directives are appended to `includedFiles` after the
entries already there, one for each; the flag is true exactly when every file was found.
Applying it again expands the next level: when the content of every file reads as the pieces
`doc file`, the first output spells the pieces of the contents in place of the directives,
with their directives unexpanded, and the call on that output, given the `includedFiles` of
the first call, replaces those directives in turn and appends their names. -/
theorem handleIncludes_one_level (load : String → String → Option String)
    (includeDirs : List String) (includedFiles : List String) :
    (∀ file content : String,
        resolve load includeDirs file = some content
          ↔ ∃ before d after, includeDirs = before ++ d :: after
              ∧ (∀ x ∈ before, load x file = none) ∧ load d file = some content)
    ∧ (∀ buffer : String,
        (∃ segs, wellRead segs = true ∧ source segs = buffer)
        ∨ (∃ a b : String, buffer = a ++ "#include" ++ b ∧ b.data.count '"' < 2))
    ∧ (∀ segs : List Seg, wellRead segs = true →
        handleIncludes load (source segs) includeDirs includedFiles
          = ((expansion load includeDirs segs, allResolved load includeDirs segs),
             includedFiles ++ replaced load includeDirs segs))
    ∧ (∀ (segs : List Seg) (doc : String → List Seg), wellRead segs = true →
        (∀ gap file, Seg.directive gap file ∈ segs →
          resolve load includeDirs file = some (source (doc file))) →
        wellRead (insertContents doc segs) = true →
        handleIncludes load (source segs) includeDirs includedFiles
          = ((source (insertContents doc segs), true),
             includedFiles ++ directiveFiles segs)
        ∧ handleIncludes load
            (handleIncludes load (source segs) includeDirs includedFiles).1.1 includeDirs
            (handleIncludes load (source segs) includeDirs includedFiles).2
          = ((expansion load includeDirs (insertContents doc segs),
              allResolved load includeDirs (insertContents doc segs)),
             includedFiles ++ directiveFiles segs
               ++ replaced load includeDirs (insertContents doc segs))) := by
  refine ⟨fun file content => resolve_eq_some_iff load includeDirs file content,
    every_buffer_read,
    fun segs h => handleIncludes_source load includeDirs includedFiles segs h, ?_⟩
  intro segs doc hsegs hdoc hnext
  obtain ⟨he, hr, ha⟩ := expansion_eq_source load includeDirs doc segs hdoc
  have h1 : handleIncludes load (source segs) includeDirs includedFiles
      = ((source (insertContents doc segs), true), includedFiles ++ directiveFiles segs) := by
    rw [handleIncludes_source load includeDirs includedFiles segs hsegs, he, hr, ha]
  refine ⟨h1, ?_⟩
  rw [h1]
  exact handleIncludes_source load includeDirs _ _ hnext

/-- C13 on the files of IncludeUtilTest: `main.h` includes `one.h` and `two.h`, and `one.h`
includes `two.h`. The first call replaces both directives of `main.h` and leaves the
directive that came with `one.h` (2 included files); the call on that output replaces it
(3 included files). -/
theorem handleIncludes_one_level_witness :
    source testMainSegs = testMainHeader
    ∧ handleIncludes testIncludeFiles testMainHeader ["."] []
      = (("#error \"one\"\n#include \"two.h\"\n\n#error \"two\"\n\n", true),
         ["one.h", "two.h"])
    ∧ handleIncludes testIncludeFiles
        (handleIncludes testIncludeFiles testMainHeader ["."] []).1.1 ["."]
        (handleIncludes testIncludeFiles testMainHeader ["."] []).2
      = (("#error \"one\"\n#error \"two\"\n\n\n#error \"two\"\n\n", true),
         ["one.h", "two.h", "two.h"]) := by
  have hsrc : source testMainSegs = testMainHeader := by decide
  have hdoc : ∀ gap file, Seg.directive gap file ∈ testMainSegs →
      resolve testIncludeFiles ["."] file = some (source (testDoc file)) := by
    intro gap file hm
    simp [testMainSegs] at hm
    rcases hm with ⟨rfl, rfl⟩ | ⟨rfl, rfl⟩ <;> decide
  have h := (handleIncludes_one_level testIncludeFiles ["."] []).2.2.2 testMainSegs testDoc
    (by decide) hdoc (by decide)
  rw [hsrc] at h
  exact ⟨hsrc, h.1.trans (by decide), h.2.trans (by decide)⟩

end util

/-! ## SQL statements: the key filter -/

namespace persistence

theorem foldl_append_eq (l : List String) (acc : String) :
    l.foldl (fun r s => r ++ s) acc = acc ++ concat l := by
  induction l generalizing acc with
  | nil => simp [concat]
  | cons s rest ih => simp [concat, ih, String.append_assoc]

theorem render_eq_concat (chunks : List Chunk) :
    render chunks = concat (chunks.map Chunk.render) := by
  simp [render, String.join, foldl_append_eq]

theorem concat_append (a b : List String) : concat (a ++ b) = concat a ++ concat b := by
  induction a with
  | nil => simp [concat]
  | cons s rest ih => simp [concat, ih, String.append_assoc]

theorem render_append (a b : List Chunk) : render (a ++ b) = render a ++ render b := by
  simp [render_eq_concat, concat_append]

theorem placeAndBind_stmt (model : Model) (f : Field) (st : Statement) (i : Int) :
    (placeAndBind model f st i).1.stmt = st.stmt ++ (placeholder model f i).written := by
  by_cases h : (placeholder model f i).result = true <;> simp [placeAndBind, h]

theorem placeAndBind_index (model : Model) (f : Field) (st : Statement) (i : Int) :
    (placeAndBind model f st i).2 = if takesIndex model f then i + 1 else i := by
  have hr := placeholder_result model f i
  unfold placeAndBind
  by_cases ht : takesIndex model f = true
  · rw [ht] at hr
    simp [hr, ht]
  · have ht2 : takesIndex model f = false := by simpa using ht
    rw [ht2] at hr
    simp [hr, ht2]

/-- The text one round of the loop of `createWhereStatementsForKeys` adds for a valid
primary-key field. -/
theorem whereLoop_step_render (model : Model) (f : Field) (st : Statement) (i c : Int) :
    render (placeAndBind model f
        (((st.write [Chunk.text (if c > 0 then " AND " else " WHERE ")]).write
          [Chunk.text "\"", Chunk.text f.name, Chunk.text "\""]).write
          [Chunk.text (if model.isNull f then " IS " else " = ")]) i).1.stmt
      = render st.stmt ++ ((if c > 0 then " AND " else " WHERE ") ++ keyCondition model f i) := by
  rw [placeAndBind_stmt]
  simp only [Statement.write, render_append, keyCondition, quoted, String.append_assoc]
  simp [render_eq_concat, concat, Chunk.render, String.append_assoc]

theorem whereLoop_render_more (model : Model) (fs : List Field) (st : Statement) (i c : Int)
    (hc : 0 < c) :
    render (whereLoop model fs st i c).stmt
      = render st.stmt
        ++ concat ((keyConditions model i
            (fs.filter (fun f => model.isValid f && f.isPrimaryKey))).map
              (fun s => " AND " ++ s)) := by
  induction fs generalizing st i c with
  | nil => simp [whereLoop, keyConditions, concat]
  | cons f fs ih =>
    by_cases hv : model.isValid f = true
    · by_cases hp : f.isPrimaryKey = true
      · have hstep := whereLoop_step_render model f st i c
        simp only [hc, if_true] at hstep
        simp only [whereLoop, hv, hp, Bool.not_true, Bool.false_eq_true, if_false,
          List.filter_cons, Bool.and_self, if_true, keyConditions, List.map_cons, concat]
        rw [ih _ _ (c + 1) (by omega), placeAndBind_index]
        simp only [hc, if_true, hstep, String.append_assoc]
      · have hf : (model.isValid f && f.isPrimaryKey) = false := by simp [hp]
        simp only [whereLoop, hv, hp, Bool.not_true, Bool.false_eq_true, if_false,
          Bool.not_false, if_true, List.filter_cons, hf]
        exact ih st i c hc
    · have hf : (model.isValid f && f.isPrimaryKey) = false := by simp [hv]
      simp only [whereLoop, hv, Bool.not_false, if_true, List.filter_cons, hf,
        Bool.false_eq_true, if_false]
      exact ih st i c hc

theorem whereLoop_render_first (model : Model) (fs : List Field) (st : Statement) (i : Int) :
    render (whereLoop model fs st i 0).stmt
      = render st.stmt
        ++ (if fs.filter (fun f => model.isValid f && f.isPrimaryKey) = [] then ""
            else " WHERE " ++ join " AND " (keyConditions model i
              (fs.filter (fun f => model.isValid f && f.isPrimaryKey)))) := by
  induction fs generalizing st i with
  | nil => simp [whereLoop]
  | cons f fs ih =>
    by_cases hv : model.isValid f = true
    · by_cases hp : f.isPrimaryKey = true
      · have hstep := whereLoop_step_render model f st i 0
        simp only [lt_irrefl, if_false] at hstep
        simp only [whereLoop, hv, hp, Bool.not_true, Bool.false_eq_true, if_false,
          List.filter_cons, Bool.and_self, if_true, keyConditions, join_cons,
          reduceCtorEq]
        rw [whereLoop_render_more model fs _ _ (0 + 1) (by omega), placeAndBind_index]
        simp only [lt_irrefl, if_false, hstep, String.append_assoc]
      · have hf : (model.isValid f && f.isPrimaryKey) = false := by simp [hp]
        simp only [whereLoop, hv, hp, Bool.not_true, Bool.false_eq_true, if_false,
          Bool.not_false, if_true, List.filter_cons, hf]
        exact ih st i
    · have hf : (model.isValid f && f.isPrimaryKey) = false := by simp [hv]
      simp only [whereLoop, hv, Bool.not_false, if_true, List.filter_cons, hf,
        Bool.false_eq_true, if_false]
      exact ih st i

/-- C21: `createDeleteStatement` returns `DELETE FROM "<schema>"."<table>"` followed by the key
filter. For the valid primary-key fields in field order the filter is ` WHERE ` and their
conditions with ` AND ` between them; the condition of a null key is `"<name>" IS NULL`, that
of any other key `"<name>" = ` followed by what `placeholder` writes, which is `$n` for a field
that is not a timestamp; the placeholders are numbered from `$1` in the order of the fields.
Without a valid primary-key field the filter is empty and the statement has no WHERE clause. -/
theorem createDeleteStatement_key_filter (table : Model) (params : Option (List Field)) :
    render (createDeleteStatement table params).stmt
      = "DELETE FROM \"" ++ table.schema ++ "\".\"" ++ table.tableName ++ "\""
        ++ keyFilter table 1
    ∧ keyFilter table 1
      = (if keyFields table = [] then ""
         else " WHERE " ++ join " AND " (keyConditions table 1 (keyFields table)))
    ∧ (keyFields table = [] →
        render (createDeleteStatement table params).stmt
          = "DELETE FROM \"" ++ table.schema ++ "\".\"" ++ table.tableName ++ "\"")
    ∧ (∀ f index, table.isNull f = true →
        keyCondition table f index = quoted f.name ++ " IS NULL")
    ∧ (∀ f index, table.isNull f = false →
        keyCondition table f index
          = quoted f.name ++ " = " ++ render (placeholder table f index).written)
    ∧ (∀ f index, table.isNull f = false → f.type ≠ FieldType.TIMESTAMP →
        render (placeholder table f index).written = "$" ++ toString index)
    ∧ placeholders (createDeleteStatement table params).stmt
      = numbered 1 ((keyFields table).filter (takesIndex table)) := by
  have hrender : render (createDeleteStatement table params).stmt
      = "DELETE FROM \"" ++ table.schema ++ "\".\"" ++ table.tableName ++ "\""
        ++ keyFilter table 1 := by
    simp only [createDeleteStatement, createWhereStatementsForKeys, whereLoop_render_first,
      keyFilter, keyFields]
    simp [render_eq_concat, concat, Chunk.render, String.append_assoc]
  refine ⟨hrender, rfl, ?_, ?_, ?_, ?_, ?_⟩
  · intro hk
    rw [hrender]
    simp [keyFilter, hk]
  · intro f index hn
    simp [keyCondition, hn, placeholder, render_eq_concat, concat, Chunk.render,
      String.append_assoc]
  · intro f index hn
    simp [keyCondition, hn]
  · intro f index hn ht
    simp [placeholder, hn, ht, render_eq_concat, concat, Chunk.render]
  · obtain ⟨i1, h1, _, _⟩ := whereLoop_advances table table.fields
      { stmt := [Chunk.text "DELETE FROM \"", Chunk.text table.schema, Chunk.text "\".\"",
                 Chunk.text table.tableName, Chunk.text "\""]
        params := params
        assertsHeld := true } 1 0
    simpa [createDeleteStatement, createWhereStatementsForKeys, keyFields, placeholders]
      using h1

/-- C21 on two tables: the reservation table with the valid key fields `room`, `day` (null)
and `slot` (a timestamp), and the log table, which has no primary key and gets no WHERE
clause. -/
theorem createDeleteStatement_key_filter_witness :
    render (createDeleteStatement reservationModel (some [])).stmt
      = "DELETE FROM \"public\".\"reservation\" WHERE \"room\" = $1 AND \"day\" IS NULL AND \"slot\" = to_timestamp($2)"
    ∧ keyFields logModel = []
    ∧ render (createDeleteStatement logModel none).stmt = "DELETE FROM \"public\".\"log\"" :=
  ⟨by decide, by decide,
    ((createDeleteStatement_key_filter logModel none).2.2.1 (by decide)).trans (by decide)⟩

end persistence
